import Mathlib

/-!
QtXlsxWriter: package engine and drawing anchors.

A shallow embedding of `DocumentPrivate::loadPackage`, `DocumentPrivate::savePackage`
(`src/xlsx/xlsxdocument.cpp`) and of the serialisation half of `DrawingAnchor`
(`src/xlsx/xlsxdrawinganchor.cpp`).

Conventions of the embedding.

* `QString` and `QByteArray` are `String`; `int` is `Int`; loop counters that start at 0 and
  only count up are `Nat`.
* `QSharedPointer<MediaFile>` and `QSharedPointer<Chart>` are handles (`Nat`) into the object
  store kept in `Workbook`; a null pointer is `none`.
* `QXmlStreamWriter` is the list of writer calls made so far.
* `ZipWriter` is the list of `addFile` calls made so far; the payload of an entry is kept
  structured (`PartData`) because the byte-level serialisers of the parts are not part of the
  package engine.
* `QStringLiteral("...%1...").arg(n)` is string concatenation with the decimal rendering of `n`.
-/

namespace QXlsx

/-! ## Relationships -/

/-- One entry of a relationship list (`XlsxRelationship`). -/
structure XlsxRelationship where
  id : String
  type : String
  target : String
  targetMode : String
  deriving DecidableEq, Repr

/-- Modelled from the spec: the class `Relationships` (xlsxrelationships.cpp is missing).
Section 4.2 describes it as the ordered list of relationships owned by one part. -/
structure Relationships where
  m_relationships : List XlsxRelationship
  deriving DecidableEq, Repr

/-- Prefix put in front of a document relationship category (standard OOXML constant). -/
def schema_doc : String :=
  "http://schemas.openxmlformats.org/officeDocument/2006/relationships"

/-- Prefix put in front of a package relationship category (standard OOXML constant). -/
def schema_package : String :=
  "http://schemas.openxmlformats.org/package/2006/relationships"

namespace Relationships

/-- A relationship list with no entry. -/
def empty : Relationships := ⟨[]⟩

/-- Number of relationships (`Relationships::count`). -/
def count (r : Relationships) : Nat := r.m_relationships.length

/-- Emptiness test (`Relationships::isEmpty`). -/
def isEmpty (r : Relationships) : Bool := r.m_relationships.isEmpty

/-- Modelled from the spec: `addRelationship` (missing from src). Section 4.2: "mints
`rId{n}` where n = current relationship count + 1; appends and returns the new id". -/
def addRelationship (r : Relationships) (type target targetMode : String) : Relationships :=
  ⟨r.m_relationships ++
    [{ id := "rId" ++ toString (r.count + 1), type := type, target := target,
       targetMode := targetMode }]⟩

/-- Modelled from the spec: `addDocumentRelationship(category, target)`, an internal
relationship whose type is the document schema followed by the category. -/
def addDocumentRelationship (r : Relationships) (relativeType target : String) : Relationships :=
  r.addRelationship (schema_doc ++ relativeType) target ""

/-- Modelled from the spec: `addPackageRelationship(category, target)`, an internal
relationship whose type is the package schema followed by the category. -/
def addPackageRelationship (r : Relationships) (relativeType target : String) : Relationships :=
  r.addRelationship (schema_package ++ relativeType) target ""

/-- Modelled from the spec: category lookup (missing from src). Section 4.2: all relationships
whose type ends with the category, in list order ("matching is substring-suffix based"). -/
def relationshipsByCategory (r : Relationships) (category : String) : List XlsxRelationship :=
  r.m_relationships.filter fun x => category.data.isSuffixOf x.type.data

/-- Lookup used by `loadPackage` for document relationships. -/
def documentRelationships (r : Relationships) (relativeType : String) : List XlsxRelationship :=
  r.relationshipsByCategory relativeType

/-- Lookup used by `loadPackage` for package relationships. -/
def packageRelationships (r : Relationships) (relativeType : String) : List XlsxRelationship :=
  r.relationshipsByCategory relativeType

end Relationships

/-! ## XML writer -/

/-- One call made on a `QXmlStreamWriter`. -/
inductive XmlToken where
  | writeStartElement (name : String)
  | writeEmptyElement (name : String)
  | writeAttribute (name value : String)
  | writeTextElement (name text : String)
  | writeEndElement
  deriving DecidableEq, Repr

/-- The writer is the sequence of calls made on it. -/
abbrev QXmlStreamWriter := List XmlToken

namespace XmlToken

/-- Values of the attributes called `name` among the given writer calls, in order. -/
def attributeValues (name : String) : List XmlToken → List String
  | [] => []
  | writeAttribute n v :: rest =>
    if n = name then v :: attributeValues name rest else attributeValues name rest
  | _ :: rest => attributeValues name rest

end XmlToken

/-! ## Parts referenced by anchors -/

/-- A media file: contents, suffix, MIME type and the assigned index (`MediaFile`). -/
structure MediaFile where
  fileName : String
  contents : String
  suffix : String
  mimeType : String
  index : Int
  deriving DecidableEq, Repr

/-- A chart part; `xmlData` is what `saveToXmlData` returns (chart internals are opaque). -/
structure Chart where
  filePath : String
  xmlData : String
  deriving DecidableEq, Repr

/-- Handle standing for a `QSharedPointer<MediaFile>`. -/
abbrev MediaPtr := Nat

/-- Handle standing for a `QSharedPointer<Chart>`. -/
abbrev ChartPtr := Nat

/-- `QList::indexOf`: position of the first occurrence, or -1. -/
def indexOf {α : Type} [DecidableEq α] (x : α) : List α → Int
  | [] => -1
  | y :: ys => if y = x then 0 else
    let r := indexOf x ys
    if r = -1 then -1 else r + 1

/-- `indexOf` for a shared pointer that may be null: a null pointer is never in the list. -/
def indexOfPtr (p : Option Nat) (l : List Nat) : Int :=
  match p with
  | none => -1
  | some q => indexOf q l

/-! ## Drawing anchors -/

/-- `QPoint`. -/
structure QPoint where
  x : Int
  y : Int
  deriving DecidableEq, Repr

/-- `QSize`. -/
structure QSize where
  width : Int
  height : Int
  deriving DecidableEq, Repr

/-- `XlsxMarker`: the constructor stores `(row, column)` in `cell` and
`(rowOffset, colOffset)` in `offset`. -/
structure XlsxMarker where
  cell : QPoint
  offset : QSize
  deriving DecidableEq, Repr

namespace XlsxMarker

/-- The constructor `XlsxMarker(row, column, rowOffset, colOffset)`. -/
def make (row column rowOffset colOffset : Int) : XlsxMarker :=
  ⟨⟨row, column⟩, ⟨rowOffset, colOffset⟩⟩

/-- Accessor `row()`. -/
def row (m : XlsxMarker) : Int := m.cell.x
/-- Accessor `col()`. -/
def col (m : XlsxMarker) : Int := m.cell.y
/-- Accessor `rowOff()`. -/
def rowOff (m : XlsxMarker) : Int := m.offset.width
/-- Accessor `colOff()`. -/
def colOff (m : XlsxMarker) : Int := m.offset.height

end XlsxMarker

/-- `XlsxShape`. -/
structure XlsxShape where
  id : Int
  name : String
  deriving DecidableEq, Repr

/-- `DrawingAnchor::ObjectType`. -/
inductive ObjectType where
  | GraphicFrame | Shape | GroupShape | ConnectionShape | Picture | Unknown
  deriving DecidableEq, Repr

/-- The three anchor classes and the coordinates each one stores. -/
inductive AnchorGeometry where
  | absolute (pos : QPoint) (ext : QSize)
  | oneCell (from_ : XlsxMarker) (ext : QSize)
  | twoCell (from_ to_ : XlsxMarker)
  deriving DecidableEq, Repr

/-- The fields of `DrawingAnchor` together with the geometry of its subclass. The back pointer
`m_drawing` is replaced by passing the drawing's relationship list and the workbook to the
functions that use it. -/
structure DrawingAnchor where
  m_objectType : ObjectType
  m_pictureFile : Option MediaPtr
  m_chartFile : Option ChartPtr
  m_shape : XlsxShape
  m_id : Int
  geometry : AnchorGeometry
  deriving DecidableEq, Repr

/-- What an anchor reaches through `m_drawing->workbook` while it is serialised: the chart
collection, and the media objects behind the shared pointers. -/
structure AnchorContext where
  chartFiles : List ChartPtr
  media : MediaPtr → MediaFile

/-- State threaded through the serialisation of an anchor: the relationship list of the owning
drawing and the XML writer. -/
structure AnchorOut where
  relationships : Relationships
  writer : QXmlStreamWriter
  deriving DecidableEq, Repr

namespace DrawingAnchor

/-- `saveXmlPos`. -/
def saveXmlPos (writer : QXmlStreamWriter) (pos : QPoint) : QXmlStreamWriter :=
  writer ++ [.writeEmptyElement "xdr:pos", .writeAttribute "x" (toString pos.x),
             .writeAttribute "y" (toString pos.y)]

/-- `saveXmlExt`. -/
def saveXmlExt (writer : QXmlStreamWriter) (ext : QSize) : QXmlStreamWriter :=
  writer ++ [.writeStartElement "xdr:ext", .writeAttribute "cx" (toString ext.width),
             .writeAttribute "cy" (toString ext.height), .writeEndElement]

/-- `saveXmlMarker`. -/
def saveXmlMarker (writer : QXmlStreamWriter) (marker : XlsxMarker) (node : String) :
    QXmlStreamWriter :=
  writer ++ [.writeStartElement node,
             .writeTextElement "xdr:col" (toString marker.col),
             .writeTextElement "xdr:colOff" (toString marker.colOff),
             .writeTextElement "xdr:row" (toString marker.row),
             .writeTextElement "xdr:rowOff" (toString marker.rowOff),
             .writeEndElement]

/-- `saveXmlObjectConnectionShape`: writes nothing. -/
def saveXmlObjectConnectionShape (s : AnchorOut) : AnchorOut := s

/-- `saveXmlObjectGroupShape`: writes nothing. -/
def saveXmlObjectGroupShape (s : AnchorOut) : AnchorOut := s

/-- Relationship target computed by `saveXmlObjectGraphicFrame`:
`"../charts/chart%1.xml".arg(idx + 1)` with `idx = chartFiles().indexOf(m_chartFile)`. -/
def chartTarget (ctx : AnchorContext) (a : DrawingAnchor) : String :=
  "../charts/chart" ++ toString (indexOfPtr a.m_chartFile ctx.chartFiles + 1) ++ ".xml"

/-- `saveXmlObjectGraphicFrame`. -/
def saveXmlObjectGraphicFrame (ctx : AnchorContext) (a : DrawingAnchor) (s : AnchorOut) :
    AnchorOut :=
  let w1 := s.writer ++
    [.writeStartElement "xdr:graphicFrame", .writeAttribute "macro" "",
     .writeStartElement "xdr:nvGraphicFramePr",
     .writeEmptyElement "xdr:cNvPr", .writeAttribute "id" (toString a.m_id),
     .writeAttribute "name" ("Chart " ++ toString a.m_id),
     .writeEmptyElement "xdr:cNvGraphicFramePr",
     .writeEndElement,
     .writeStartElement "xdr:xfrm", .writeEndElement,
     .writeStartElement "a:graphic",
     .writeStartElement "a:graphicData",
     .writeAttribute "uri" "http://schemas.openxmlformats.org/drawingml/2006/chart"]
  let rels := s.relationships.addDocumentRelationship "/chart" (chartTarget ctx a)
  let w2 := w1 ++
    [.writeEmptyElement "c:chart",
     .writeAttribute "xmlns:c" "http://schemas.openxmlformats.org/drawingml/2006/chart",
     .writeAttribute "xmlns:r"
       "http://schemas.openxmlformats.org/officeDocument/2006/relationships",
     .writeAttribute "r:id" ("rId" ++ toString rels.count),
     .writeEndElement, .writeEndElement, .writeEndElement]
  ⟨rels, w2⟩

/-- Relationship target computed by `saveXmlObjectPicture` for the media file `m`:
`"../media/image%1.%2".arg(m.index() + 1).arg(m.suffix())`. -/
def pictureTarget (m : MediaFile) : String :=
  "../media/image" ++ toString (m.index + 1) ++ "." ++ m.suffix

/-- `saveXmlObjectPicture`. The `Q_ASSERT` on entry makes the call undefined for an anchor that
is not a picture or whose picture pointer is null: the embedding returns `none` there. -/
def saveXmlObjectPicture (ctx : AnchorContext) (a : DrawingAnchor) (s : AnchorOut) :
    Option AnchorOut :=
  match a.m_pictureFile with
  | none => none
  | some p =>
    if a.m_objectType ≠ ObjectType.Picture then none else
    let w1 := s.writer ++
      [.writeStartElement "xdr:pic",
       .writeStartElement "xdr:nvPicPr",
       .writeEmptyElement "xdr:cNvPr", .writeAttribute "id" (toString a.m_id),
       .writeAttribute "name" ("Picture " ++ toString a.m_id),
       .writeStartElement "xdr:cNvPicPr",
       .writeEmptyElement "a:picLocks", .writeAttribute "noChangeAspect" "1",
       .writeEndElement,
       .writeEndElement]
    let rels := s.relationships.addDocumentRelationship "/image" (pictureTarget (ctx.media p))
    let w2 := w1 ++
      [.writeStartElement "xdr:blipFill",
       .writeEmptyElement "a:blip",
       .writeAttribute "xmlns:r"
         "http://schemas.openxmlformats.org/officeDocument/2006/relationships",
       .writeAttribute "r:embed" ("rId" ++ toString rels.count),
       .writeStartElement "a:stretch",
       .writeEmptyElement "a:fillRect",
       .writeEndElement,
       .writeEndElement,
       .writeStartElement "xdr:spPr",
       .writeStartElement "a:prstGeom", .writeAttribute "prst" "rect",
       .writeEmptyElement "a:avLst",
       .writeEndElement,
       .writeStartElement "a:solidFill",
       .writeStartElement "a:srgbClr", .writeAttribute "val" "FFFFFF",
       .writeEndElement,
       .writeEndElement,
       .writeEndElement,
       .writeEndElement]
    some ⟨rels, w2⟩

/-- `saveXmlObjectShape`. -/
def saveXmlObjectShape (a : DrawingAnchor) (s : AnchorOut) : AnchorOut :=
  { s with writer := s.writer ++
      [.writeStartElement "xdr:sp", .writeAttribute "macro" "", .writeAttribute "textlink" "",
       .writeStartElement "xdr:nvSpPr",
       .writeStartElement "xdr:cNvPr", .writeAttribute "id" (toString a.m_shape.id),
       .writeAttribute "name" a.m_shape.name,
       .writeEndElement,
       .writeEmptyElement "xdr:cNvSpPr",
       .writeEndElement,
       .writeEmptyElement "xdr:spPr",
       .writeEndElement] }

/-- `saveXmlObject`: dispatch on the object type; nothing is written for `Unknown`. -/
def saveXmlObject (ctx : AnchorContext) (a : DrawingAnchor) (s : AnchorOut) : Option AnchorOut :=
  match a.m_objectType with
  | .Picture => saveXmlObjectPicture ctx a s
  | .ConnectionShape => some (saveXmlObjectConnectionShape s)
  | .GraphicFrame => some (saveXmlObjectGraphicFrame ctx a s)
  | .GroupShape => some (saveXmlObjectGroupShape s)
  | .Shape => some (saveXmlObjectShape a s)
  | .Unknown => some s

/-- `saveToXml` of the three anchor classes. -/
def saveToXml (ctx : AnchorContext) (a : DrawingAnchor) (s : AnchorOut) : Option AnchorOut :=
  match a.geometry with
  | .absolute pos ext =>
    let w := s.writer ++ [.writeStartElement "xdr:absoluteAnchor"]
    let w := saveXmlPos w pos
    let w := saveXmlExt w ext
    (saveXmlObject ctx a { s with writer := w }).map fun s1 =>
      { s1 with writer := s1.writer ++ [.writeEmptyElement "xdr:clientData", .writeEndElement] }
  | .oneCell from_ ext =>
    let w := s.writer ++ [.writeStartElement "xdr:oneCellAnchor"]
    let w := saveXmlMarker w from_ "xdr:from"
    let w := saveXmlExt w ext
    (saveXmlObject ctx a { s with writer := w }).map fun s1 =>
      { s1 with writer := s1.writer ++ [.writeEmptyElement "xdr:clientData", .writeEndElement] }
  | .twoCell from_ to_ =>
    let w := s.writer ++ [.writeStartElement "xdr:twoCellAnchor", .writeAttribute "editAs" "oneCell"]
    let w := saveXmlMarker w from_ "xdr:from"
    let w := saveXmlMarker w to_ "xdr:to"
    (saveXmlObject ctx a { s with writer := w }).map fun s1 =>
      { s1 with writer := s1.writer ++ [.writeEmptyElement "xdr:clientData", .writeEndElement] }

end DrawingAnchor

/-! ## Maps -/

/-- `QMap<QString, QString>` as an association list with pairwise different keys. The order in
which a `QMap` iterates (by key) is not modelled; no statement depends on it. -/
abbrev QMap := List (String × String)

namespace QMap

/-- `QMap::insert` (also `operator[]` assignment): replaces the value of an existing key,
otherwise adds the pair. -/
def insert (k v : String) : QMap → QMap
  | [] => [(k, v)]
  | (k1, v1) :: rest =>
    if k = k1 then (k, v) :: rest else (k1, v1) :: insert k v rest

/-- `QMap::contains`. -/
def contains (m : QMap) (k : String) : Bool := m.any fun e => e.1 = k

/-- `QMap::value` with the default-constructed (empty) string for a missing key. -/
def value (m : QMap) (k : String) : String :=
  match m.find? fun e => e.1 = k with
  | some e => e.2
  | none => ""

/-- `QMap::keys`. -/
def keys (m : QMap) : List String := m.map Prod.fst

end QMap

/-! ## Content types -/

/-- Flag given to the constructor of every part (`AbstractOOXmlFile::CreateFlag`). -/
inductive CreateFlag where
  | F_NewFromScratch | F_LoadFromExists
  deriving DecidableEq, Repr

/-- Modelled from the spec: the class `ContentTypes` (xlsxcontenttypes.cpp is missing).
Section 3: "defaults: map(extension -> MIME), overrides: map(partPath -> MIME)". -/
structure ContentTypes where
  m_defaults : QMap
  m_overrides : QMap
  deriving DecidableEq, Repr

namespace ContentTypes

/-- MIME prefix of package-level parts (standard OOXML constant, no claim depends on it). -/
def packageMimeBase : String := "application/vnd.openxmlformats-package."

/-- MIME prefix of document-level parts (standard OOXML constant, no claim depends on it). -/
def documentMimeBase : String := "application/vnd.openxmlformats-officedocument."

/-- Modelled from the spec: `addDefault(ext, mime)`, "idempotent, set semantics". -/
def addDefault (c : ContentTypes) (key value : String) : ContentTypes :=
  { c with m_defaults := c.m_defaults.insert key value }

/-- Modelled from the spec: `addOverride(path, mime)`, "idempotent". -/
def addOverride (c : ContentTypes) (key value : String) : ContentTypes :=
  { c with m_overrides := c.m_overrides.insert key value }

/-- Modelled from the spec: `clearOverrides()`. -/
def clearOverrides (c : ContentTypes) : ContentTypes := { c with m_overrides := [] }

/-- Modelled from the spec: `addDocPropApp`, the override of `docProps/app.xml`. -/
def addDocPropApp (c : ContentTypes) : ContentTypes :=
  c.addOverride "/docProps/app.xml" (documentMimeBase ++ "extended-properties+xml")

/-- Modelled from the spec: `addDocPropCore`, the override of `docProps/core.xml`. -/
def addDocPropCore (c : ContentTypes) : ContentTypes :=
  c.addOverride "/docProps/core.xml" (packageMimeBase ++ "core-properties+xml")

/-- Modelled from the spec: `addStyles`, the override of `xl/styles.xml`. -/
def addStyles (c : ContentTypes) : ContentTypes :=
  c.addOverride "/xl/styles.xml" (documentMimeBase ++ "spreadsheetml.styles+xml")

/-- Modelled from the spec: `addTheme`, the override of `xl/theme/theme1.xml`. -/
def addTheme (c : ContentTypes) : ContentTypes :=
  c.addOverride "/xl/theme/theme1.xml" (documentMimeBase ++ "theme+xml")

/-- Modelled from the spec: `addWorkbook`, the override of `xl/workbook.xml`. -/
def addWorkbook (c : ContentTypes) : ContentTypes :=
  c.addOverride "/xl/workbook.xml" (documentMimeBase ++ "spreadsheetml.sheet.main+xml")

/-- Modelled from the spec: `addWorksheetName(name)`, the override of
`xl/worksheets/{name}.xml`. -/
def addWorksheetName (c : ContentTypes) (name : String) : ContentTypes :=
  c.addOverride ("/xl/worksheets/" ++ name ++ ".xml")
    (documentMimeBase ++ "spreadsheetml.worksheet+xml")

/-- Modelled from the spec: `addExternalLinkName(name)`, the override of
`xl/externalLinks/{name}.xml`. -/
def addExternalLinkName (c : ContentTypes) (name : String) : ContentTypes :=
  c.addOverride ("/xl/externalLinks/" ++ name ++ ".xml")
    (documentMimeBase ++ "spreadsheetml.externalLink+xml")

/-- Modelled from the spec: `addDrawingName(name)`, the override of
`xl/drawings/{name}.xml`. -/
def addDrawingName (c : ContentTypes) (name : String) : ContentTypes :=
  c.addOverride ("/xl/drawings/" ++ name ++ ".xml") (documentMimeBase ++ "drawing+xml")

/-- Modelled from the spec: `addChartName(name)`, the override of `xl/charts/{name}.xml`. -/
def addChartName (c : ContentTypes) (name : String) : ContentTypes :=
  c.addOverride ("/xl/charts/" ++ name ++ ".xml") (documentMimeBase ++ "drawingml.chart+xml")

/-- Modelled from the spec: `addSharedString`, the override of `xl/sharedStrings.xml`. -/
def addSharedString (c : ContentTypes) : ContentTypes :=
  c.addOverride "/xl/sharedStrings.xml" (documentMimeBase ++ "spreadsheetml.sharedStrings+xml")

end ContentTypes

/-! ## Document properties parts -/

/-- Modelled from the spec: `DocPropsApp` (missing from src), recorded as the calls that
`savePackage` makes on it. -/
structure DocPropsApp where
  m_titlesOfPartsList : List String
  m_headingPairsList : List (String × Nat)
  m_properties : QMap
  deriving DecidableEq, Repr

/-- Modelled from the spec: `DocPropsCore` (missing from src), recorded as the calls that
`savePackage` makes on it. -/
structure DocPropsCore where
  m_properties : QMap
  deriving DecidableEq, Repr

namespace DocPropsApp

/-- A new `DocPropsApp(F_NewFromScratch)`. -/
def new : DocPropsApp := ⟨[], [], []⟩

/-- `addHeadingPair`. -/
def addHeadingPair (p : DocPropsApp) (name : String) (value : Nat) : DocPropsApp :=
  { p with m_headingPairsList := p.m_headingPairsList ++ [(name, value)] }

/-- `addPartTitle`. -/
def addPartTitle (p : DocPropsApp) (title : String) : DocPropsApp :=
  { p with m_titlesOfPartsList := p.m_titlesOfPartsList ++ [title] }

/-- `setProperty`. -/
def setProperty (p : DocPropsApp) (name value : String) : DocPropsApp :=
  { p with m_properties := p.m_properties.insert name value }

end DocPropsApp

namespace DocPropsCore

/-- A new `DocPropsCore(F_NewFromScratch)`. -/
def new : DocPropsCore := ⟨[]⟩

/-- `setProperty`. -/
def setProperty (p : DocPropsCore) (name value : String) : DocPropsCore :=
  { p with m_properties := p.m_properties.insert name value }

end DocPropsCore

/-! ## The workbook graph -/

/-- Sheet tag: the two kinds `savePackage` distinguishes (section 3: "each tagged Worksheet or
ChartSheet"). -/
inductive SheetType where
  | ST_WorkSheet | ST_ChartSheet
  deriving DecidableEq, Repr

/-- An embedded OLE object (`OleObject`). -/
structure OleObject where
  fileName : String
  contents : String
  suffix : String
  mimeType : String
  deriving DecidableEq, Repr

/-- A sheet as the package engine sees it. `xmlData` is what `saveToXmlData` returns and
`relationships` is the list that `savePackage` tests right after that call; the body of a
sheet is opaque to the engine. `oleObjectFiles` is the list a `Worksheet` returns. -/
structure AbstractSheet where
  sheetType : SheetType
  sheetName : String
  filePath : String
  relationships : Relationships
  xmlData : String
  oleObjectFiles : List OleObject
  deriving DecidableEq, Repr

/-- An external link part (`SimpleOOXmlFile`). -/
structure SimpleOOXmlFile where
  filePath : String
  relationships : Relationships
  xmlData : String
  deriving DecidableEq, Repr

/-- A drawing part: its relationship list, its anchors and its list `shapes` of pointers to the
`m_shape` member of anchors (each pointer is the position of the anchor in `anchors`). -/
structure Drawing where
  filePath : String
  relationships : Relationships
  anchors : List DrawingAnchor
  shapes : List Nat
  deriving DecidableEq, Repr

/-- The shared-string table. -/
structure SharedStrings where
  flag : CreateFlag
  m_stringList : List String
  deriving DecidableEq, Repr

/-- `SharedStrings::isEmpty`. -/
def SharedStrings.isEmpty (s : SharedStrings) : Bool := s.m_stringList.isEmpty

/-- The styles part (opaque payload). -/
structure Styles where
  flag : CreateFlag
  xmlData : String
  deriving DecidableEq, Repr

/-- The theme part (opaque payload). -/
structure Theme where
  flag : CreateFlag
  xmlData : String
  deriving DecidableEq, Repr

/-- The workbook graph. `chartFiles` and `mediaFiles` are the lists of shared pointers; `charts`
and `media` give the object behind each pointer. `xmlData` is what `saveToXmlData` returns and
`relationships` the list serialised right after it. -/
structure Workbook where
  flag : CreateFlag
  filePath : String
  relationships : Relationships
  xmlData : String
  sheets : List AbstractSheet
  externalLinks : List SimpleOOXmlFile
  drawings : List Drawing
  chartFiles : List ChartPtr
  mediaFiles : List MediaPtr
  charts : ChartPtr → Chart
  media : MediaPtr → MediaFile
  sharedStrings : SharedStrings
  styles : Styles
  theme : Theme

namespace Workbook

/-- Modelled from the spec: `getSheetsByTypes` (xlsxworkbook.cpp is missing). Section 4.5: the
sheets of one kind, "stable, original relative order within each category". -/
def getSheetsByTypes (wb : Workbook) (t : SheetType) : List AbstractSheet :=
  wb.sheets.filter fun s => s.sheetType = t

/-- What the anchors of this workbook's drawings reach through `m_drawing->workbook`. -/
def anchorContext (wb : Workbook) : AnchorContext := ⟨wb.chartFiles, wb.media⟩

end Workbook

namespace Drawing

/-- Serialises the anchors in list order, threading the relationship list and the writer. -/
def saveAnchors (ctx : AnchorContext) : List DrawingAnchor → AnchorOut → Option AnchorOut
  | [], s => some s
  | a :: rest, s =>
    match a.saveToXml ctx s with
    | none => none
    | some s1 => saveAnchors ctx rest s1

/-- Modelled from the spec: `Drawing::saveToXmlData` (xlsxdrawing.cpp is missing). Section 4.5
("Rebuild, do not reuse, all cross-reference state", step 5): the relationship list is
rebuilt while each anchor is serialised in order inside the root element. -/
def saveToXmlData (ctx : AnchorContext) (d : Drawing) : Option AnchorOut :=
  (saveAnchors ctx d.anchors ⟨Relationships.empty, [.writeStartElement "xdr:wsDr"]⟩).map
    fun s => { s with writer := s.writer ++ [.writeEndElement] }

end Drawing

/-! ## Saving a package -/

/-- Payload handed to `ZipWriter::addFile`. `bytes` is a payload produced by a serialiser the
package engine treats as opaque (sheet, workbook, chart, styles, theme, media, OLE contents);
the other payloads are kept structured. -/
inductive PartData where
  | bytes (data : String)
  | relationships (r : Relationships)
  | drawing (w : QXmlStreamWriter)
  | docPropsApp (p : DocPropsApp)
  | docPropsCore (p : DocPropsCore)
  | sharedStrings (s : SharedStrings)
  | contentTypes (c : ContentTypes)
  deriving DecidableEq, Repr

/-- One `addFile` call: archive path and payload. -/
structure ZipEntry where
  path : String
  data : PartData
  deriving DecidableEq, Repr

/-- `QFileInfo(name).fileName()`: the text after the last `/`. -/
def fileNameOf (name : String) : String :=
  String.mk (name.data.reverse.takeWhile fun c => c ≠ '/').reverse

/-- The private part of a document. The two shared pointers are null until `loadPackage` or
`init` sets them. -/
structure DocumentPrivate where
  contentTypes : Option ContentTypes
  workbook : Option Workbook
  documentProperties : QMap

/-- Local state of one `savePackage` run: the content-type registry behind the shared
pointer, the two document-property parts, the entries added to the `ZipWriter` so far and the
drawings already serialised (with their rebuilt relationship lists). -/
structure SaveState where
  contentTypes : ContentTypes
  docPropsApp : DocPropsApp
  docPropsCore : DocPropsCore
  zipWriter : List ZipEntry
  drawings : List Drawing
  deriving DecidableEq, Repr

namespace SaveState

/-- `zipWriter.addFile(path, data)`: appends one archive entry. -/
def addFile (s : SaveState) (path : String) (data : PartData) : SaveState :=
  { s with zipWriter := s.zipWriter ++ [⟨path, data⟩] }

end SaveState

/-- The loop "save worksheet xml files", from counter value `i` on. -/
def saveWorksheets : Nat → List AbstractSheet → SaveState → SaveState
  | _, [], s => s
  | i, sheet :: rest, s =>
    let s := { s with
      contentTypes := s.contentTypes.addWorksheetName ("sheet" ++ toString (i + 1)) }
    let s := { s with docPropsApp := s.docPropsApp.addPartTitle sheet.sheetName }
    let s := s.addFile ("xl/worksheets/sheet" ++ toString (i + 1) ++ ".xml")
      (.bytes sheet.xmlData)
    let s := if sheet.relationships.isEmpty then s else
      s.addFile ("xl/worksheets/_rels/sheet" ++ toString (i + 1) ++ ".xml.rels")
        (.relationships sheet.relationships)
    saveWorksheets (i + 1) rest s

/-- The loop "save chartsheet xml files", from counter value `i` on. -/
def saveChartsheets : Nat → List AbstractSheet → SaveState → SaveState
  | _, [], s => s
  | i, sheet :: rest, s =>
    let s := { s with
      contentTypes := s.contentTypes.addWorksheetName ("sheet" ++ toString (i + 1)) }
    let s := { s with docPropsApp := s.docPropsApp.addPartTitle sheet.sheetName }
    let s := s.addFile ("xl/chartsheets/sheet" ++ toString (i + 1) ++ ".xml")
      (.bytes sheet.xmlData)
    let s := if sheet.relationships.isEmpty then s else
      s.addFile ("xl/chartsheets/_rels/sheet" ++ toString (i + 1) ++ ".xml.rels")
        (.relationships sheet.relationships)
    saveChartsheets (i + 1) rest s

/-- The loop "save external links xml files", from counter value `i` on. -/
def saveExternalLinks : Nat → List SimpleOOXmlFile → SaveState → SaveState
  | _, [], s => s
  | i, link :: rest, s =>
    let s := { s with
      contentTypes := s.contentTypes.addExternalLinkName ("externalLink" ++ toString (i + 1)) }
    let s := s.addFile ("xl/externalLinks/externalLink" ++ toString (i + 1) ++ ".xml")
      (.bytes link.xmlData)
    let s := if link.relationships.isEmpty then s else
      s.addFile ("xl/externalLinks/_rels/externalLink" ++ toString (i + 1) ++ ".xml.rels")
        (.relationships link.relationships)
    saveExternalLinks (i + 1) rest s

/-- The loop "save drawing xml files", from counter value `i` on. The result is `none` when the
serialisation of an anchor is undefined. -/
def saveDrawings (ctx : AnchorContext) : Nat → List Drawing → SaveState → Option SaveState
  | _, [], s => some s
  | i, drawing :: rest, s =>
    let s := { s with
      contentTypes := s.contentTypes.addDrawingName ("drawing" ++ toString (i + 1)) }
    match drawing.saveToXmlData ctx with
    | none => none
    | some out =>
      let s := s.addFile ("xl/drawings/drawing" ++ toString (i + 1) ++ ".xml")
        (.drawing out.writer)
      let s := if out.relationships.isEmpty then s else
        s.addFile ("xl/drawings/_rels/drawing" ++ toString (i + 1) ++ ".xml.rels")
          (.relationships out.relationships)
      let s := { s with
        drawings := s.drawings ++ [{ drawing with relationships := out.relationships }] }
      saveDrawings ctx (i + 1) rest s

/-- The loop over `documentPropertyNames()` that copies every property into both parts. -/
def saveProperties (props : QMap) : List String → SaveState → SaveState
  | [], s => s
  | name :: rest, s =>
    let s := { s with docPropsApp := s.docPropsApp.setProperty name (props.value name) }
    let s := { s with docPropsCore := s.docPropsCore.setProperty name (props.value name) }
    saveProperties props rest s

/-- The loop "save chart xml files", from counter value `i` on. -/
def saveCharts (charts : ChartPtr → Chart) : Nat → List ChartPtr → SaveState → SaveState
  | _, [], s => s
  | i, cf :: rest, s =>
    let s := { s with contentTypes := s.contentTypes.addChartName ("chart" ++ toString (i + 1)) }
    let s := s.addFile ("xl/charts/chart" ++ toString (i + 1) ++ ".xml")
      (.bytes (charts cf).xmlData)
    saveCharts charts (i + 1) rest s

/-- Archive path of a media file: `"xl/media/image%1.%2".arg(mf->index()+1).arg(mf->suffix())`. -/
def mediaPath (mf : MediaFile) : String :=
  "xl/media/image" ++ toString (mf.index + 1) ++ "." ++ mf.suffix

/-- The loop "save image files". -/
def saveMediaFiles (media : MediaPtr → MediaFile) : List MediaPtr → SaveState → SaveState
  | [], s => s
  | p :: rest, s =>
    let mf := media p
    let s := if mf.mimeType = "" then s else
      { s with contentTypes := s.contentTypes.addDefault mf.suffix mf.mimeType }
    let s := s.addFile (mediaPath mf) (.bytes mf.contents)
    saveMediaFiles media rest s

/-- The inner loop of "save ole object files": the OLE objects of one worksheet. -/
def saveOleObjects : List OleObject → SaveState → SaveState
  | [], s => s
  | obj :: rest, s =>
    let s := if obj.mimeType = "" then s else
      { s with
        contentTypes :=
          (s.contentTypes.addDefault obj.suffix obj.mimeType).addOverride
            ("/xl/embeddings/" ++ obj.suffix) obj.mimeType }
    let s := s.addFile ("xl/embeddings/" ++ fileNameOf obj.fileName) (.bytes obj.contents)
    saveOleObjects rest s

/-- The outer loop of "save ole object files": over the worksheets. -/
def saveOleObjectFiles : List AbstractSheet → SaveState → SaveState
  | [], s => s
  | sheet :: rest, s => saveOleObjectFiles rest (saveOleObjects sheet.oleObjectFiles s)

/-- The root relationship list written by `savePackage`. -/
def rootrels : Relationships :=
  ((Relationships.empty.addDocumentRelationship "/officeDocument" "xl/workbook.xml"
    ).addPackageRelationship "/metadata/core-properties" "docProps/core.xml"
    ).addDocumentRelationship "/extended-properties" "docProps/app.xml"

/-- What `savePackage` leaves behind: its return value, the archive entries in the order they
were added, the content-type registry and the drawings with their rebuilt relationships. -/
structure SaveResult where
  ok : Bool
  zip : List ZipEntry
  contentTypes : ContentTypes
  drawings : List Drawing
  deriving DecidableEq, Repr

/-- First part of the body of `savePackage`: from "save worksheet xml files" to "save workbook
xml file". -/
def saveSheetsAndWorkbook (workbook : Workbook) (s : SaveState) : SaveState :=
  -- save worksheet xml files
  let worksheets := workbook.getSheetsByTypes .ST_WorkSheet
  let s := if worksheets.isEmpty then s else
    { s with docPropsApp := s.docPropsApp.addHeadingPair "Worksheets" worksheets.length }
  let s := saveWorksheets 0 worksheets s
  -- save chartsheet xml files
  let chartsheets := workbook.getSheetsByTypes .ST_ChartSheet
  let s := if chartsheets.isEmpty then s else
    { s with docPropsApp := s.docPropsApp.addHeadingPair "Chartsheets" chartsheets.length }
  let s := saveChartsheets 0 chartsheets s
  -- save external links xml files
  let s := saveExternalLinks 0 workbook.externalLinks s
  -- save workbook xml file
  let s := { s with contentTypes := s.contentTypes.addWorkbook }
  let s := s.addFile "xl/workbook.xml" (.bytes workbook.xmlData)
  s.addFile "xl/_rels/workbook.xml.rels" (.relationships workbook.relationships)

/-- The step "save docProps app/core xml file". -/
def saveDocProps (documentProperties : QMap) (s : SaveState) : SaveState :=
  let s := saveProperties documentProperties documentProperties.keys s
  let s := { s with contentTypes := s.contentTypes.addDocPropApp }
  let s := { s with contentTypes := s.contentTypes.addDocPropCore }
  let s := s.addFile "docProps/app.xml" (.docPropsApp s.docPropsApp)
  s.addFile "docProps/core.xml" (.docPropsCore s.docPropsCore)

/-- The steps "save sharedStrings xml file", "save styles xml file", "save theme xml file". -/
def saveStringsStylesTheme (workbook : Workbook) (s : SaveState) : SaveState :=
  -- save sharedStrings xml file
  let s := if workbook.sharedStrings.isEmpty then s else
    ({ s with contentTypes := s.contentTypes.addSharedString }).addFile
      "xl/sharedStrings.xml" (.sharedStrings workbook.sharedStrings)
  -- save styles xml file
  let s := { s with contentTypes := s.contentTypes.addStyles }
  let s := s.addFile "xl/styles.xml" (.bytes workbook.styles.xmlData)
  -- save theme xml file
  let s := { s with contentTypes := s.contentTypes.addTheme }
  s.addFile "xl/theme/theme1.xml" (.bytes workbook.theme.xmlData)

/-- The last two steps: "save root .rels xml file" and "save content types xml file". -/
def saveRootRelsAndContentTypes (s : SaveState) : SaveState :=
  let s := s.addFile "_rels/.rels" (.relationships rootrels)
  s.addFile "[Content_Types].xml" (.contentTypes s.contentTypes)

/-- `DocumentPrivate::savePackage`. `zipWriterError` is `zipWriter.error()` after the writer
was opened on the device. The result is `none` when the run is undefined: a null
`contentTypes` or `workbook` pointer, or an anchor whose serialisation is undefined. -/
def savePackage (d : DocumentPrivate) (zipWriterError : Bool) : Option SaveResult :=
  match d.contentTypes, d.workbook with
  | some contentTypes, some workbook =>
    if zipWriterError then some ⟨false, [], contentTypes, workbook.drawings⟩ else
    let s : SaveState := ⟨contentTypes.clearOverrides, DocPropsApp.new, DocPropsCore.new, [], []⟩
    let s := saveSheetsAndWorkbook workbook s
    -- save drawing xml files
    match saveDrawings workbook.anchorContext 0 workbook.drawings s with
    | none => none
    | some s =>
      let s := saveDocProps d.documentProperties s
      let s := saveStringsStylesTheme workbook s
      -- save chart xml files
      let s := saveCharts workbook.charts 0 workbook.chartFiles s
      -- save image files
      let s := saveMediaFiles workbook.media workbook.mediaFiles s
      -- save ole object files
      let s := saveOleObjectFiles (workbook.getSheetsByTypes .ST_WorkSheet) s
      let s := saveRootRelsAndContentTypes s
      some ⟨true, s.zipWriter, s.contentTypes, s.drawings⟩
  | _, _ => none

/-! ## Loading a package -/

/-- `ZipReader`: the entries of the archive, path and bytes. -/
structure ZipReader where
  entries : List (String × String)
  deriving DecidableEq, Repr

namespace ZipReader

/-- `filePaths()`. -/
def filePaths (z : ZipReader) : List String := z.entries.map Prod.fst

/-- `fileData(path)`: the bytes of the entry at that exact path, empty when there is none. -/
def fileData (z : ZipReader) (path : String) : String :=
  match z.entries.find? fun e => e.1 = path with
  | some e => e.2
  | none => ""

end ZipReader

/-- The chart and media collections of a workbook with the objects behind the pointers: the
part of the workbook that parsing a drawing can extend. -/
structure PartStore where
  chartFiles : List ChartPtr
  mediaFiles : List MediaPtr
  charts : ChartPtr → Chart
  media : MediaPtr → MediaFile

/-- The XML readers and path utilities that `loadPackage` calls and whose bodies are not part
of the package engine (`loadFromXmlData` of each part class, `splitPath`, `getRelFilePath`,
the MIME lookup of `MediaFile::set`). They are parameters of the embedding: every statement
about `loadPackage` holds whatever these functions compute. -/
structure Loaders where
  contentTypes : String → ContentTypes
  relationships : String → Relationships
  docPropsCore : String → QMap
  docPropsApp : String → QMap
  workbook : String → Workbook → Workbook
  styles : String → Styles
  sharedStrings : String → SharedStrings → SharedStrings
  theme : String → Theme → Theme
  sheet : Workbook → String → AbstractSheet → AbstractSheet × List Drawing
  externalLink : String → SimpleOOXmlFile → SimpleOOXmlFile
  drawing : String → Drawing → PartStore → Drawing × PartStore
  chart : String → Chart → Chart
  mediaMimeType : String → String → String
  splitPathDir : String → String
  getRelFilePath : String → String

namespace Workbook

/-- Modelled from the spec: the constructor `Workbook(flag)` (xlsxworkbook.cpp is missing).
Section 3: empty ordered collections and one styles part, one shared-string table and one
theme part, each a default instance. -/
def new (flag : CreateFlag) : Workbook :=
  { flag := flag, filePath := "", relationships := Relationships.empty, xmlData := "",
    sheets := [], externalLinks := [], drawings := [], chartFiles := [], mediaFiles := [],
    charts := fun _ => ⟨"", ""⟩, media := fun _ => ⟨"", "", "", "", 0⟩,
    sharedStrings := ⟨flag, []⟩, styles := ⟨flag, ""⟩, theme := ⟨flag, ""⟩ }

/-- The chart and media collections of the workbook. -/
def partStore (wb : Workbook) : PartStore := ⟨wb.chartFiles, wb.mediaFiles, wb.charts, wb.media⟩

/-- Writes the chart and media collections back into the workbook. -/
def setPartStore (wb : Workbook) (st : PartStore) : Workbook :=
  { wb with chartFiles := st.chartFiles, mediaFiles := st.mediaFiles, charts := st.charts,
            media := st.media }

end Workbook

/-- The loop `foreach (name, props.propertyNames()) q->setDocumentProperty(name, ...)`. -/
def setDocumentProperties : List (String × String) → QMap → QMap
  | [], m => m
  | (name, value) :: rest, m => setDocumentProperties rest (m.insert name value)

/-- The loop "load sheets": relationships first when the `.rels` entry exists, then the body.
Drawings registered while a sheet is parsed are appended to the workbook's drawings. -/
def loadSheets (L : Loaders) (z : ZipReader) :
    List AbstractSheet → Workbook → List AbstractSheet × List Drawing
  | [], _ => ([], [])
  | sheet :: rest, wb =>
    let rel_path := L.getRelFilePath sheet.filePath
    let sheet1 := if z.filePaths.contains rel_path then
        { sheet with relationships := L.relationships (z.fileData rel_path) }
      else sheet
    let r := L.sheet wb (z.fileData sheet.filePath) sheet1
    let wb1 := { wb with drawings := wb.drawings ++ r.2 }
    let tail := loadSheets L z rest wb1
    (r.1 :: tail.1, r.2 ++ tail.2)

/-- The loop "load external links". -/
def loadExternalLinks (L : Loaders) (z : ZipReader) : List SimpleOOXmlFile → List SimpleOOXmlFile
  | [] => []
  | link :: rest =>
    let rel_path := L.getRelFilePath link.filePath
    let link1 := if z.filePaths.contains rel_path then
        { link with relationships := L.relationships (z.fileData rel_path) }
      else link
    L.externalLink (z.fileData link.filePath) link1 :: loadExternalLinks L z rest

/-- The loop "load drawings". -/
def loadDrawings (L : Loaders) (z : ZipReader) :
    List Drawing → PartStore → List Drawing × PartStore
  | [], st => ([], st)
  | drawing :: rest, st =>
    let rel_path := L.getRelFilePath drawing.filePath
    let drawing1 := if z.filePaths.contains rel_path then
        { drawing with relationships := L.relationships (z.fileData rel_path) }
      else drawing
    let r := L.drawing (z.fileData drawing.filePath) drawing1 st
    let tail := loadDrawings L z rest r.2
    (r.1 :: tail.1, tail.2)

/-- The loop "load charts" over the snapshot `chartFileToLoad`. -/
def loadCharts (L : Loaders) (z : ZipReader) : List ChartPtr → (ChartPtr → Chart) →
    (ChartPtr → Chart)
  | [], charts => charts
  | cf :: rest, charts =>
    loadCharts L z rest
      (Function.update charts cf (L.chart (z.fileData (charts cf).filePath) (charts cf)))

/-- Archive path from which `loadPackage` fetches a media file:
`"xl/media/%1".arg(QFileInfo(mf->fileName()).fileName())`. -/
def mediaLoadPath (mf : MediaFile) : String := "xl/media/" ++ fileNameOf mf.fileName

/-- The suffix `path.mid(path.lastIndexOf('.') + 1)`: the text after the last dot, the whole
path when it has no dot. -/
def suffixOfPath (path : String) : String :=
  String.mk (path.data.reverse.takeWhile fun c => c ≠ '.').reverse

/-- `MediaFile::set(bytes, suffix)`: contents, suffix and MIME type are assigned. -/
def MediaFile.set (L : Loaders) (mf : MediaFile) (bytes suffix : String) : MediaFile :=
  { mf with contents := bytes, suffix := suffix, mimeType := L.mediaMimeType bytes suffix }

/-- The loop "load media files" over the snapshot `mediaFileToLoad`. -/
def loadMediaFiles (L : Loaders) (z : ZipReader) : List MediaPtr → (MediaPtr → MediaFile) →
    (MediaPtr → MediaFile)
  | [], media => media
  | p :: rest, media =>
    let mf := media p
    let path := mediaLoadPath mf
    loadMediaFiles L z rest
      (Function.update media p (mf.set L (z.fileData path) (suffixOfPath path)))

/-- The inner loop of "load ole object files". -/
def loadOleObjects (z : ZipReader) : List OleObject → List OleObject
  | [] => []
  | obj :: rest =>
    { obj with contents := z.fileData ("xl/embeddings/" ++ fileNameOf obj.fileName) } ::
      loadOleObjects z rest

/-- The outer loop of "load ole object files": every sheet of the workbook is cast to
`Worksheet` and its OLE objects are fetched. -/
def loadOleObjectFiles (z : ZipReader) : List AbstractSheet → List AbstractSheet
  | [] => []
  | sheet :: rest =>
    { sheet with oleObjectFiles := loadOleObjects z sheet.oleObjectFiles } ::
      loadOleObjectFiles z rest

/-- The part of `loadPackage` after the workbook path is known. -/
def loadWorkbook (L : Loaders) (z : ZipReader) (xlworkbook_Path : String) : Workbook :=
  let workbook := Workbook.new .F_LoadFromExists
  let xlworkbook_Dir := L.splitPathDir xlworkbook_Path
  let workbook := { workbook with
    relationships := L.relationships (z.fileData (L.getRelFilePath xlworkbook_Path)) }
  let workbook := { workbook with filePath := xlworkbook_Path }
  let workbook := L.workbook (z.fileData xlworkbook_Path) workbook
  -- load styles
  let workbook := match workbook.relationships.documentRelationships "/styles" with
    | [] => workbook
    | r :: _ =>
      { workbook with styles := L.styles (z.fileData (xlworkbook_Dir ++ "/" ++ r.target)) }
  -- load sharedStrings
  let workbook := match workbook.relationships.documentRelationships "/sharedStrings" with
    | [] => workbook
    | r :: _ =>
      { workbook with
        sharedStrings :=
          L.sharedStrings (z.fileData (xlworkbook_Dir ++ "/" ++ r.target))
            workbook.sharedStrings }
  -- load theme
  let workbook := match workbook.relationships.documentRelationships "/theme" with
    | [] => workbook
    | r :: _ =>
      { workbook with
        theme := L.theme (z.fileData (xlworkbook_Dir ++ "/" ++ r.target)) workbook.theme }
  -- load sheets
  let sheetsLoaded := loadSheets L z workbook.sheets workbook
  let workbook := { workbook with
    sheets := sheetsLoaded.1, drawings := workbook.drawings ++ sheetsLoaded.2 }
  -- load external links
  let workbook := { workbook with externalLinks := loadExternalLinks L z workbook.externalLinks }
  -- load drawings
  let drawingsLoaded := loadDrawings L z workbook.drawings workbook.partStore
  let workbook := { workbook.setPartStore drawingsLoaded.2 with drawings := drawingsLoaded.1 }
  -- load charts
  let workbook := { workbook with charts := loadCharts L z workbook.chartFiles workbook.charts }
  -- load media files
  let workbook := { workbook with
    media := loadMediaFiles L z workbook.mediaFiles workbook.media }
  -- load ole object files
  { workbook with sheets := loadOleObjectFiles z workbook.sheets }

/-- The steps "load core property" and "load app property": every property of the part named
by the core-properties relationship, then of the part named by the extended-properties
relationship, is copied into the document's property map. -/
def loadProperties (L : Loaders) (zipReader : ZipReader) (rootRels : Relationships)
    (d : DocumentPrivate) : DocumentPrivate :=
  -- load core property
  let d := match rootRels.packageRelationships "/metadata/core-properties" with
    | [] => d
    | r :: _ =>
      { d with
        documentProperties :=
          setDocumentProperties (L.docPropsCore (zipReader.fileData r.target))
            d.documentProperties }
  -- load app property
  match rootRels.documentRelationships "/extended-properties" with
  | [] => d
  | r :: _ =>
    { d with
      documentProperties :=
        setDocumentProperties (L.docPropsApp (zipReader.fileData r.target))
          d.documentProperties }

/-- `DocumentPrivate::loadPackage`: the return value and the document state it leaves. -/
def loadPackage (L : Loaders) (d : DocumentPrivate) (zipReader : ZipReader) :
    Bool × DocumentPrivate :=
  let filePaths := zipReader.filePaths
  -- Load the Content_Types file
  if "[Content_Types].xml" ∉ filePaths then (false, d) else
  let d := { d with
    contentTypes := some (L.contentTypes (zipReader.fileData "[Content_Types].xml")) }
  -- Load root rels file
  if "_rels/.rels" ∉ filePaths then (false, d) else
  let rootRels := L.relationships (zipReader.fileData "_rels/.rels")
  let d := loadProperties L zipReader rootRels d
  -- load workbook now
  let d := { d with workbook := some (Workbook.new .F_LoadFromExists) }
  match rootRels.documentRelationships "/officeDocument" with
  | [] => (false, d)
  | r :: _ => (true, { d with workbook := some (loadWorkbook L zipReader r.target) })

/-- `DocumentPrivate::init`: creates the registry and the workbook that are still null. -/
def init (newContentTypes : ContentTypes) (d : DocumentPrivate) : DocumentPrivate :=
  { d with
    contentTypes := match d.contentTypes with
      | none => some newContentTypes
      | some c => some c
    workbook := match d.workbook with
      | none => some (Workbook.new .F_NewFromScratch)
      | some w => some w }

/-! ## Vocabulary of the statements -/

/-- `pre` is an initial segment of `s`. -/
def startsWith (pre s : String) : Bool := pre.data.isPrefixOf s.data

/-- The entry lies in directory `dir` (given with its trailing slash) and is not one of the
relationship parts kept in the `_rels/` directory below it. -/
def isBodyIn (dir : String) (e : ZipEntry) : Bool :=
  startsWith dir e.path && !startsWith (dir ++ "_rels/") e.path

/-- The entries `stem1ext, stem2ext, ...`: the k-th payload under the number k, numbers
starting at 1. -/
def numberedEntries (stem ext : String) (payloads : List PartData) : List ZipEntry :=
  List.zipWith (fun n x => ⟨stem ++ toString n ++ ext, x⟩) (List.range' 1 payloads.length)
    payloads

/-- The directory one level up: the text before the last `/`, empty when there is none. -/
def parentDir (dir : List Char) : List Char :=
  ((dir.reverse.dropWhile fun c => c ≠ '/').drop 1).reverse

/-- Resolution of a relative target against a directory: every leading `../` moves one
directory up, the remainder is appended. -/
def resolveChars : List Char → List Char → List Char
  | dir, '.' :: '.' :: '/' :: rest => resolveChars (parentDir dir) rest
  | dir, target => if dir = [] then target else dir ++ '/' :: target

/-- Resolution of a relationship target against the directory of the part that owns the
relationship (directory given without trailing slash). -/
def resolveTarget (dir target : String) : String :=
  String.mk (resolveChars dir.data target.data)

/-! ## Entries added by each loop of `savePackage` -/

/-- Entries added by the worksheet loop from counter value `i` on. -/
def worksheetEntries : Nat → List AbstractSheet → List ZipEntry
  | _, [] => []
  | i, sheet :: rest =>
    (⟨"xl/worksheets/sheet" ++ toString (i + 1) ++ ".xml", .bytes sheet.xmlData⟩ ::
      (if sheet.relationships.isEmpty then [] else
        [⟨"xl/worksheets/_rels/sheet" ++ toString (i + 1) ++ ".xml.rels",
          .relationships sheet.relationships⟩])) ++ worksheetEntries (i + 1) rest

/-- Entries added by the chartsheet loop from counter value `i` on. -/
def chartsheetEntries : Nat → List AbstractSheet → List ZipEntry
  | _, [] => []
  | i, sheet :: rest =>
    (⟨"xl/chartsheets/sheet" ++ toString (i + 1) ++ ".xml", .bytes sheet.xmlData⟩ ::
      (if sheet.relationships.isEmpty then [] else
        [⟨"xl/chartsheets/_rels/sheet" ++ toString (i + 1) ++ ".xml.rels",
          .relationships sheet.relationships⟩])) ++ chartsheetEntries (i + 1) rest

/-- Entries added by the external-link loop from counter value `i` on. -/
def externalLinkEntries : Nat → List SimpleOOXmlFile → List ZipEntry
  | _, [] => []
  | i, link :: rest =>
    (⟨"xl/externalLinks/externalLink" ++ toString (i + 1) ++ ".xml", .bytes link.xmlData⟩ ::
      (if link.relationships.isEmpty then [] else
        [⟨"xl/externalLinks/_rels/externalLink" ++ toString (i + 1) ++ ".xml.rels",
          .relationships link.relationships⟩])) ++ externalLinkEntries (i + 1) rest

/-- What the serialisation of a drawing produces (writer calls and rebuilt relationships);
empty when that serialisation is undefined. -/
def drawingOut (ctx : AnchorContext) (d : Drawing) : AnchorOut :=
  (d.saveToXmlData ctx).getD ⟨Relationships.empty, []⟩

/-- Entries added by the drawing loop from counter value `i` on. -/
def drawingEntries (ctx : AnchorContext) : Nat → List Drawing → List ZipEntry
  | _, [] => []
  | i, d :: rest =>
    (⟨"xl/drawings/drawing" ++ toString (i + 1) ++ ".xml", .drawing (drawingOut ctx d).writer⟩ ::
      (if (drawingOut ctx d).relationships.isEmpty then [] else
        [⟨"xl/drawings/_rels/drawing" ++ toString (i + 1) ++ ".xml.rels",
          .relationships (drawingOut ctx d).relationships⟩])) ++ drawingEntries ctx (i + 1) rest

/-- Entries added by the chart loop from counter value `i` on. -/
def chartEntries (charts : ChartPtr → Chart) : Nat → List ChartPtr → List ZipEntry
  | _, [] => []
  | i, cf :: rest =>
    ⟨"xl/charts/chart" ++ toString (i + 1) ++ ".xml", .bytes (charts cf).xmlData⟩ ::
      chartEntries charts (i + 1) rest

/-- Entries added by the media loop: one per pointer of the collection, in order. -/
def mediaEntries (media : MediaPtr → MediaFile) (l : List MediaPtr) : List ZipEntry :=
  l.map fun p => ⟨mediaPath (media p), .bytes (media p).contents⟩

/-- Entries added for the OLE objects of one worksheet. -/
def oleEntries (l : List OleObject) : List ZipEntry :=
  l.map fun obj => ⟨"xl/embeddings/" ++ fileNameOf obj.fileName, .bytes obj.contents⟩

/-- Entries added by the OLE loop over the worksheets. -/
def oleFileEntries (l : List AbstractSheet) : List ZipEntry :=
  l.flatMap fun sheet => oleEntries sheet.oleObjectFiles

/-- Entry added for the shared strings: present exactly when the table is not empty. -/
def sharedStringsEntries (s : SharedStrings) : List ZipEntry :=
  if s.isEmpty then [] else [⟨"xl/sharedStrings.xml", .sharedStrings s⟩]

/-! ## Sample documents -/

/-- A registry as a new document has it: defaults for `rels` and `xml`, no override. -/
def sampleContentTypes : ContentTypes :=
  ⟨[("rels", "application/vnd.openxmlformats-package.relationships+xml"),
    ("xml", "application/xml")], []⟩

/-- Media objects of the sample workbook: pointer 0 is a PNG picture with index 0. -/
def sampleMedia : MediaPtr → MediaFile := fun _ =>
  ⟨"", "PNG-BYTES", "png", "image/png", 0⟩

/-- Chart objects of the sample workbook. -/
def sampleCharts : ChartPtr → Chart := fun _ => ⟨"", "CHART-XML"⟩

/-- A picture anchor on media pointer 0. -/
def samplePictureAnchor : DrawingAnchor :=
  ⟨.Picture, some 0, none, ⟨1, ""⟩, 1, .oneCell (XlsxMarker.make 1 2 0 0) ⟨10, 20⟩⟩

/-- A graphic-frame anchor on chart pointer 0. -/
def sampleChartAnchor : DrawingAnchor :=
  ⟨.GraphicFrame, none, some 0, ⟨2, ""⟩, 2,
    .twoCell (XlsxMarker.make 1 2 0 0) (XlsxMarker.make 5 6 0 0)⟩

/-- A worksheet without relationships and without OLE objects. -/
def sampleSheet : AbstractSheet :=
  ⟨.ST_WorkSheet, "Sheet1", "", Relationships.empty, "SHEET-XML", []⟩

/-- A workbook with one worksheet, one drawing holding a picture and a chart, one chart and one
media file. -/
def sampleWorkbook : Workbook :=
  { Workbook.new .F_NewFromScratch with
    sheets := [sampleSheet]
    drawings := [⟨"", Relationships.empty, [samplePictureAnchor, sampleChartAnchor], [0, 1]⟩]
    chartFiles := [0]
    mediaFiles := [0]
    charts := sampleCharts
    media := sampleMedia }

/-- The workbook of a new document: one worksheet and nothing else. -/
def minimalWorkbook : Workbook :=
  { Workbook.new .F_NewFromScratch with sheets := [sampleSheet] }

/-- A graphic-frame anchor without a chart, as `loadXmlObject` leaves it for a `graphicFrame`
element that has no `chart` child. -/
def danglingChartAnchor : DrawingAnchor :=
  ⟨.GraphicFrame, none, none, ⟨1, ""⟩, 1, .absolute ⟨0, 0⟩ ⟨10, 20⟩⟩

/-- A workbook with one chart and one drawing whose only anchor is `danglingChartAnchor`. -/
def danglingChartWorkbook : Workbook :=
  { Workbook.new .F_LoadFromExists with
    sheets := [sampleSheet]
    drawings := [⟨"xl/drawings/drawing1.xml", Relationships.empty, [danglingChartAnchor], [0]⟩]
    chartFiles := [0]
    charts := sampleCharts }

/-! ## Coverage of a part by the content-type registry -/

namespace ContentTypes

/-- The registry holds an override for the part at archive path `path` (override keys are the
part path with a leading slash). -/
def hasOverrideFor (c : ContentTypes) (path : String) : Bool :=
  c.m_overrides.contains ("/" ++ path)

/-- The registry holds a default for the extension of `path`. -/
def hasDefaultFor (c : ContentTypes) (path : String) : Bool :=
  c.m_defaults.contains (suffixOfPath path)

/-- The part at `path` is covered: by an override for its path or by a default for its
extension. -/
def covers (c : ContentTypes) (path : String) : Bool :=
  c.hasOverrideFor path || c.hasDefaultFor path

/-- The override keys are pairwise different: at most one override per part. -/
def OverridesDistinct (c : ContentTypes) : Prop := c.m_overrides.keys.Nodup

/-- Every override key and every default key of `c1` is still a key in `c2`, and `c2` keeps its
override keys pairwise different when `c1` does. -/
def Grows (c1 c2 : ContentTypes) : Prop :=
  (∀ k ∈ c1.m_overrides.keys, k ∈ c2.m_overrides.keys) ∧
  (∀ k ∈ c1.m_defaults.keys, k ∈ c2.m_defaults.keys) ∧
  (c1.OverridesDistinct → c2.OverridesDistinct)

end ContentTypes

/-- A workbook with one media file whose MIME type is empty (suffix `bin`). -/
def untypedMediaWorkbook : Workbook :=
  { Workbook.new .F_NewFromScratch with
    sheets := [sampleSheet]
    mediaFiles := [0]
    media := fun _ => ⟨"", "BYTES", "bin", "", 0⟩ }

/-- Value of a string of decimal digits, most significant first, continuing from `acc`. -/
def decimalValue (acc : Nat) (l : List Char) : Nat :=
  l.foldl (fun a c => a * 10 + (c.toNat - 48)) acc

/-! ## Sample archives -/

/-- Readers for the sample archives: a root relationship part with contents `ROOT` names the
core properties part only; the core properties part yields its contents as the title. -/
def sampleLoaders : Loaders :=
  { contentTypes := fun _ => sampleContentTypes
    relationships := fun data =>
      if data = "ROOT" then
        ⟨[⟨"rId1", schema_package ++ "/metadata/core-properties", "docProps/core.xml", ""⟩]⟩
      else Relationships.empty
    docPropsCore := fun data => [("title", data)]
    docPropsApp := fun _ => []
    workbook := fun _ wb => wb
    styles := fun data => ⟨.F_LoadFromExists, data⟩
    sharedStrings := fun _ s => s
    theme := fun data t => { t with xmlData := data }
    sheet := fun _ data s => ({ s with xmlData := data }, [])
    externalLink := fun data l => { l with xmlData := data }
    drawing := fun _ d st => (d, st)
    chart := fun data c => { c with xmlData := data }
    mediaMimeType := fun _ _ => ""
    splitPathDir := fun _ => "xl"
    getRelFilePath := fun _ => "xl/_rels/workbook.xml.rels" }

/-- The private part of a document right after construction, before `loadPackage` or `init`. -/
def freshDocument : DocumentPrivate := ⟨none, none, []⟩

/-- An archive without `[Content_Types].xml`. -/
def archiveWithoutContentTypes : ZipReader := ⟨[("_rels/.rels", "ROOT")]⟩

/-- An archive with content types but without `_rels/.rels`. -/
def archiveWithoutRootRels : ZipReader := ⟨[("[Content_Types].xml", "TYPES")]⟩

/-- An archive with content types, root relationships and core properties whose root
relationships name no officeDocument part. -/
def archiveWithoutOfficeDocument : ZipReader :=
  ⟨[("[Content_Types].xml", "TYPES"), ("_rels/.rels", "ROOT"),
    ("docProps/core.xml", "Quarterly report")]⟩

/-! ## Constructing anchors -/

/-- `QPoint()`: the null point. -/
def QPoint.null : QPoint := ⟨0, 0⟩

/-- `QSize()`: the invalid size. -/
def QSize.invalid : QSize := ⟨-1, -1⟩

/-- `XlsxMarker()`: default-constructed members. -/
def XlsxMarker.default_ : XlsxMarker := ⟨QPoint.null, QSize.invalid⟩

/-- The three concrete anchor classes. -/
inductive AnchorClass where
  | absoluteAnchor | oneCellAnchor | twoCellAnchor
  deriving DecidableEq, Repr

/-- Geometry members of a newly constructed anchor of the given class. -/
def AnchorClass.initialGeometry : AnchorClass → AnchorGeometry
  | .absoluteAnchor => .absolute QPoint.null QSize.invalid
  | .oneCellAnchor => .oneCell XlsxMarker.default_ QSize.invalid
  | .twoCellAnchor => .twoCell XlsxMarker.default_ XlsxMarker.default_

namespace DrawingAnchor

/-- The constructor `DrawingAnchor(Drawing *drawing, ObjectType objectType)` as run by the
constructor of one of the three anchor classes: the anchor is appended to `drawing->anchors`,
`m_id` is the size of that list, a pointer to the anchor's shape is appended to
`drawing->shapes` and the shape id is the size of that list. The result is the drawing with
its new anchor. -/
def construct (cls : AnchorClass) (objectType : ObjectType) (drawing : Drawing) : Drawing :=
  let anchors := drawing.anchors.length + 1
  let shapes := drawing.shapes.length + 1
  let anchor : DrawingAnchor :=
    { m_objectType := objectType, m_pictureFile := none, m_chartFile := none,
      m_shape := ⟨(shapes : Nat), ""⟩, m_id := (anchors : Nat),
      geometry := cls.initialGeometry }
  { drawing with
    anchors := drawing.anchors ++ [anchor]
    shapes := drawing.shapes ++ [drawing.anchors.length] }

/-- Anchors constructed one after the other on the same drawing. -/
def constructAll : List (AnchorClass × ObjectType) → Drawing → Drawing
  | [], drawing => drawing
  | (cls, objectType) :: rest, drawing => constructAll rest (construct cls objectType drawing)

end DrawingAnchor

/-! ## XML reader -/

/-- One token of the XML stream as `QXmlStreamReader` reports it. `name` is the local name that
`reader.name()` returns (no namespace prefix); attributes are kept under their qualified name,
the key that `attributes().value(...)` takes. `Characters` stands for every token that
`readNextStartElement` skips; `Invalid` is the token type after an error or a premature end. -/
inductive XmlEvent where
  | StartElement (name : String) (attributes : List (String × String))
  | EndElement (name : String)
  | Characters (text : String)
  | Invalid
  deriving DecidableEq, Repr

/-- The reader: the token it is positioned on and the tokens not read yet. -/
structure QXmlStreamReader where
  current : XmlEvent
  rest : List XmlEvent
  deriving DecidableEq, Repr

/-- Value of the attribute with the given qualified name, empty when there is none
(`QXmlStreamAttributes::value`). -/
def attributeValue (attributes : List (String × String)) (qualifiedName : String) : String :=
  match attributes.find? fun a => a.1 = qualifiedName with
  | some a => a.2
  | none => ""

namespace QXmlStreamReader

/-- `atEnd()`: an error occurred or the end of the document was passed. -/
def atEnd (r : QXmlStreamReader) : Bool :=
  match r.current with
  | .Invalid => true
  | _ => false

/-- `name()`: the local name of a start or end element, empty otherwise. -/
def name (r : QXmlStreamReader) : String :=
  match r.current with
  | .StartElement n _ => n
  | .EndElement n => n
  | _ => ""

/-- `tokenType() == QXmlStreamReader::StartElement`. -/
def isStartElement (r : QXmlStreamReader) : Bool :=
  match r.current with
  | .StartElement _ _ => true
  | _ => false

/-- `tokenType() == QXmlStreamReader::EndElement`. -/
def isEndElement (r : QXmlStreamReader) : Bool :=
  match r.current with
  | .EndElement _ => true
  | _ => false

/-- `attributes()`: the attributes of the start element the reader is on. -/
def attributes (r : QXmlStreamReader) : List (String × String) :=
  match r.current with
  | .StartElement _ a => a
  | _ => []

/-- Reads tokens until a start element, an end element or an error is reached; reading past the
last token is an error. -/
def readNextStartElementFrom : List XmlEvent → QXmlStreamReader
  | [] => ⟨.Invalid, []⟩
  | .Characters _ :: rest => readNextStartElementFrom rest
  | e :: rest => ⟨e, rest⟩

/-- `readNextStartElement()`. -/
def readNextStartElement (r : QXmlStreamReader) : QXmlStreamReader :=
  if r.atEnd then r else readNextStartElementFrom r.rest

end QXmlStreamReader

/-! ## Loading the object of an anchor -/

namespace Relationships

/-- Modelled from the spec: `getRelationshipById` (missing from src). Section 4.2: "returns an
empty/absent relationship rather than raising". -/
def getRelationshipById (r : Relationships) (id : String) : XlsxRelationship :=
  match r.m_relationships.find? fun x => x.id = id with
  | some x => x
  | none => ⟨"", "", "", ""⟩

end Relationships

/-- Path functions called while an anchor is loaded and defined outside the anchor code:
`splitPath(p)[0]` and `QDir::cleanPath`. They are parameters of the embedding. -/
structure PathFunctions where
  splitPathDir : String → String
  cleanPath : String → String

/-- What an anchor reaches while it is loaded: the path functions, the conversion
`QStringView::toInt` of the Qt library, and through `m_drawing` the file path of the drawing and
its relationship list. -/
structure AnchorLoadContext where
  paths : PathFunctions
  toInt : String → Int
  filePath : String
  relationships : Relationships

/-- The path `QDir::cleanPath(splitPath(m_drawing->filePath())[0] + "/" + name)` where `name` is
the target of the drawing's relationship with id `rId`. -/
def AnchorLoadContext.resolve (ctx : AnchorLoadContext) (rId : String) : String :=
  ctx.paths.cleanPath (ctx.paths.splitPathDir ctx.filePath ++ "/" ++
    (ctx.relationships.getRelationshipById rId).target)

/-- The pointer returned by `new`: different from every pointer of the given collection. -/
def newPtr (l : List Nat) : Nat := l.foldr max 0 + 1

/-- The lookup loop `for (i...) if (key(l[i]) == path) { exist = true; found = l[i]; }`: the last
element of the collection with that key, `none` when `exist` stays false. -/
def findExisting (key : Nat → String) (path : String) : List Nat → Option Nat → Option Nat
  | [], found => found
  | p :: rest, found => findExisting key path rest (if key p = path then some p else found)

/-- Modelled from the spec: the constructor `MediaFile(fileName)` (xlsxmediafile.cpp is
missing). Section 4.4, step 12: a media file registered while a drawing is parsed is known by
its file name; contents, suffix and MIME type are assigned when the bytes are fetched. -/
def MediaFile.fromFileName (fileName : String) : MediaFile := ⟨fileName, "", "", "", 0⟩

/-- Modelled from the spec: `Chart(sheet, F_LoadFromExists)` followed by `setFilePath(path)`
(xlsxchart.cpp is missing). Section 4.4, step 11: a chart queued while a drawing is parsed has
its path; its body is parsed later. -/
def Chart.fromFilePath (path : String) : Chart := ⟨path, ""⟩

namespace PartStore

/-- Modelled from the spec: `Workbook::addMediaFile(media, true)` (xlsxworkbook.cpp is missing).
Section 3: the media file joins the end of the ordered collection and is assigned its position
as index. -/
def addMediaFile (st : PartStore) (p : MediaPtr) : PartStore :=
  { st with
    mediaFiles := st.mediaFiles ++ [p]
    media := Function.update st.media p { st.media p with index := (st.mediaFiles.length : Nat) } }

/-- Modelled from the spec: `Workbook::addChartFile(chart)` (xlsxworkbook.cpp is missing): the
chart joins the end of the ordered chart collection. -/
def addChartFile (st : PartStore) (p : ChartPtr) : PartStore :=
  { st with chartFiles := st.chartFiles ++ [p] }

/-- File names of the media collection, in collection order. -/
def mediaNames (st : PartStore) : List String := st.mediaFiles.map fun p => (st.media p).fileName

/-- File paths of the chart collection, in collection order. -/
def chartPaths (st : PartStore) : List String := st.chartFiles.map fun p => (st.charts p).filePath

end PartStore

/-- State threaded through the loading of one anchor: the anchor, the reader and the chart and
media collections of the workbook. -/
structure AnchorLoad where
  anchor : DrawingAnchor
  reader : QXmlStreamReader
  store : PartStore

/-- The loop shared by `loadXmlObjectGraphicFrame`, `loadXmlObjectPicture` and
`loadXmlObjectShape`:
`while (!reader.atEnd()) { reader.readNextStartElement(); if (StartElement) { if (name == tag)
body } else if (EndElement && name == close) break; }`.
`body` receives the attributes of the start element. `fuel` bounds the number of iterations;
every iteration reads at least one token, so `rest.length + 1` is enough. -/
def scanLoop (tag close : String)
    (body : List (String × String) → DrawingAnchor × PartStore → DrawingAnchor × PartStore) :
    Nat → AnchorLoad → AnchorLoad
  | 0, s => s
  | fuel + 1, s =>
    if s.reader.atEnd then s else
    let reader := s.reader.readNextStartElement
    if reader.isStartElement then
      if reader.name = tag then
        let r := body reader.attributes (s.anchor, s.store)
        scanLoop tag close body fuel ⟨r.1, reader, r.2⟩
      else scanLoop tag close body fuel { s with reader := reader }
    else if reader.isEndElement ∧ reader.name = close then { s with reader := reader }
    else scanLoop tag close body fuel { s with reader := reader }

namespace DrawingAnchor

/-- Body of `loadXmlObjectPicture` for a `blip` start element: the path of the referenced
media file is resolved, the media collection is searched for a file with that name, and a new
`MediaFile(path)` is registered when there is none. -/
def loadBlip (ctx : AnchorLoadContext) (attributes : List (String × String))
    (s : DrawingAnchor × PartStore) : DrawingAnchor × PartStore :=
  let rId := attributeValue attributes "r:embed"
  let path := ctx.resolve rId
  match findExisting (fun p => (s.2.media p).fileName) path s.2.mediaFiles none with
  | some p => ({ s.1 with m_pictureFile := some p }, s.2)
  | none =>
    let p := newPtr s.2.mediaFiles
    let store :=
      { s.2 with media := Function.update s.2.media p (MediaFile.fromFileName path) }
    ({ s.1 with m_pictureFile := some p }, store.addMediaFile p)

/-- `loadXmlObjectPicture`; `none` when `Q_ASSERT(reader.name() == "pic")` fails. -/
def loadXmlObjectPicture (ctx : AnchorLoadContext) (s : AnchorLoad) : Option AnchorLoad :=
  if s.reader.name = "pic" then
    some (scanLoop "blip" "pic" (loadBlip ctx) (s.reader.rest.length + 1) s)
  else none

/-- Body of `loadXmlObjectGraphicFrame` for a `chart` start element: the path of the referenced
chart is resolved, the chart collection is searched for a chart with that file path, and a new
chart with that path is registered when there is none. -/
def loadChartReference (ctx : AnchorLoadContext) (attributes : List (String × String))
    (s : DrawingAnchor × PartStore) : DrawingAnchor × PartStore :=
  let rId := attributeValue attributes "r:id"
  let path := ctx.resolve rId
  match findExisting (fun p => (s.2.charts p).filePath) path s.2.chartFiles none with
  | some p => ({ s.1 with m_chartFile := some p }, s.2)
  | none =>
    let p := newPtr s.2.chartFiles
    let store := { s.2 with charts := Function.update s.2.charts p (Chart.fromFilePath path) }
    ({ s.1 with m_chartFile := some p }, store.addChartFile p)

/-- `loadXmlObjectGraphicFrame`; `none` when `Q_ASSERT(reader.name() == "graphicFrame")`
fails. -/
def loadXmlObjectGraphicFrame (ctx : AnchorLoadContext) (s : AnchorLoad) : Option AnchorLoad :=
  if s.reader.name = "graphicFrame" then
    some (scanLoop "chart" "graphicFrame" (loadChartReference ctx) (s.reader.rest.length + 1) s)
  else none

/-- `loadXmlObjectConnectionShape`: reads nothing. -/
def loadXmlObjectConnectionShape (s : AnchorLoad) : AnchorLoad := s

/-- `loadXmlObjectGroupShape`: reads nothing. -/
def loadXmlObjectGroupShape (s : AnchorLoad) : AnchorLoad := s

/-- Body of `loadXmlObjectShape` for a `cNvPr` start element: id and name of the shape. -/
def loadShapeProperties (ctx : AnchorLoadContext) (attributes : List (String × String))
    (s : DrawingAnchor × PartStore) : DrawingAnchor × PartStore :=
  ({ s.1 with
     m_shape := ⟨ctx.toInt (attributeValue attributes "id"), attributeValue attributes "name"⟩ },
   s.2)

/-- `loadXmlObjectShape`; `none` when `Q_ASSERT(reader.name() == "sp")` fails. The branches
for `spPr`, `style` and `txBody` repeat the start-element test of the first branch and are never
taken. -/
def loadXmlObjectShape (ctx : AnchorLoadContext) (s : AnchorLoad) : Option AnchorLoad :=
  if s.reader.name = "sp" then
    some (scanLoop "cNvPr" "sp" (loadShapeProperties ctx) (s.reader.rest.length + 1) s)
  else none

/-- `loadXmlObject`: dispatch on the name of the element the reader is on. -/
def loadXmlObject (ctx : AnchorLoadContext) (s : AnchorLoad) : Option AnchorLoad :=
  if s.reader.name = "sp" then
    loadXmlObjectShape ctx { s with anchor := { s.anchor with m_objectType := .Shape } }
  else if s.reader.name = "grpSp" then
    some (loadXmlObjectGroupShape
      { s with anchor := { s.anchor with m_objectType := .GroupShape } })
  else if s.reader.name = "graphicFrame" then
    loadXmlObjectGraphicFrame ctx
      { s with anchor := { s.anchor with m_objectType := .GraphicFrame } }
  else if s.reader.name = "cxnSp" then
    some (loadXmlObjectConnectionShape
      { s with anchor := { s.anchor with m_objectType := .ConnectionShape } })
  else if s.reader.name = "pic" then
    loadXmlObjectPicture ctx { s with anchor := { s.anchor with m_objectType := .Picture } }
  else some s

end DrawingAnchor

/-! ## Vocabulary for the anchor loaders -/

/-- Attributes of the start elements named `tag` that the scanning loop of an object loader
visits in the unread tokens: the loop stops at the end element named `close`, at an error and at
the end of the tokens. -/
def scannedStarts (tag close : String) : List XmlEvent → List (List (String × String))
  | [] => []
  | .Characters _ :: rest => scannedStarts tag close rest
  | .StartElement n a :: rest =>
    if n = tag then a :: scannedStarts tag close rest else scannedStarts tag close rest
  | .EndElement n :: rest => if n = close then [] else scannedStarts tag close rest
  | .Invalid :: _ => []

/-- A collection of pointers with the key of the object behind each pointer. -/
abbrev Keyed := List Nat × (Nat → String)

/-- Keys of a collection, in collection order. -/
def Keyed.keys (c : Keyed) : List String := c.1.map c.2

/-- Look up a key in a collection and register a new object under it when there is none: the
pointer found or created, and the collection afterwards. -/
def keyedStep (path : String) (c : Keyed) : Nat × Keyed :=
  match findExisting c.2 path c.1 none with
  | some p => (p, c)
  | none => (newPtr c.1, (c.1 ++ [newPtr c.1], Function.update c.2 (newPtr c.1) path))

/-- The steps `keyedStep` for a list of keys, one after the other; the first component is the
pointer of the last step. -/
def keyedFold : List String → Option Nat × Keyed → Option Nat × Keyed
  | [], r => r
  | path :: rest, r => keyedFold rest (some (keyedStep path r.2).1, (keyedStep path r.2).2)

/-- The media collection of a store as a keyed collection: the key is the file name. -/
def PartStore.mediaKeyed (st : PartStore) : Keyed :=
  (st.mediaFiles, fun p => (st.media p).fileName)

/-- The chart collection of a store as a keyed collection: the key is the file path. -/
def PartStore.chartKeyed (st : PartStore) : Keyed :=
  (st.chartFiles, fun p => (st.charts p).filePath)

/-- Paths to which the `blip` elements visited by `loadXmlObjectPicture` resolve. -/
def blipPaths (ctx : AnchorLoadContext) (rest : List XmlEvent) : List String :=
  (scannedStarts "blip" "pic" rest).map fun a => ctx.resolve (attributeValue a "r:embed")

/-- Paths to which the `chart` elements visited by `loadXmlObjectGraphicFrame` resolve. -/
def chartReferencePaths (ctx : AnchorLoadContext) (rest : List XmlEvent) : List String :=
  (scannedStarts "chart" "graphicFrame" rest).map fun a => ctx.resolve (attributeValue a "r:id")

/-! ## Sample drawings and token streams -/

/-- A drawing without anchors. -/
def emptyDrawing : Drawing := ⟨"xl/drawings/drawing1.xml", Relationships.empty, [], []⟩

/-- A store without charts and media files. -/
def emptyStore : PartStore := ⟨[], [], fun _ => ⟨"", ""⟩, fun _ => ⟨"", "", "", "", 0⟩⟩

/-- The context of a drawing in `xl/drawings` whose relationships name two images and one
chart. Paths are taken as already clean. -/
def sampleLoadContext : AnchorLoadContext :=
  { paths := ⟨fun _ => "xl/drawings", fun p => p⟩
    toInt := fun s => (decimalValue 0 s.data : Nat)
    filePath := "xl/drawings/drawing1.xml"
    relationships :=
      ⟨[⟨"rId1", schema_doc ++ "/image", "../media/image1.png", ""⟩,
        ⟨"rId2", schema_doc ++ "/image", "../media/image2.png", ""⟩,
        ⟨"rId3", schema_doc ++ "/chart", "../charts/chart1.xml", ""⟩]⟩ }

/-- A picture anchor that has been loaded, with the reader on the `clientData` element that
follows the `pic` element of the anchor. -/
def clientDataLoad : AnchorLoad :=
  { anchor := samplePictureAnchor
    reader := ⟨.StartElement "clientData" [], [.EndElement "clientData",
      .EndElement "oneCellAnchor"]⟩
    store := emptyStore }

/-- A new anchor with the reader on a `pic` element that holds two `blip` elements. -/
def twoBlipLoad : AnchorLoad :=
  { anchor := ⟨.Unknown, none, none, ⟨1, ""⟩, 1, .absolute QPoint.null QSize.invalid⟩
    reader := ⟨.StartElement "pic" [],
      [.StartElement "blipFill" [], .StartElement "blip" [("r:embed", "rId1")],
       .EndElement "blip", .StartElement "blip" [("r:embed", "rId2")], .EndElement "blip",
       .EndElement "blipFill", .EndElement "pic"]⟩
    store := emptyStore }

/-- An anchor whose object is a group shape. -/
def groupShapeAnchor : DrawingAnchor :=
  ⟨.GroupShape, none, none, ⟨1, "Group 1"⟩, 1, .absolute ⟨0, 0⟩ ⟨10, 20⟩⟩

/-- An anchor whose object is a shape. -/
def shapeAnchor : DrawingAnchor :=
  ⟨.Shape, none, none, ⟨3, "Rectangle 2"⟩, 1, .absolute ⟨0, 0⟩ ⟨10, 20⟩⟩

/-- The start of an `xdr:sp` element anywhere among the tokens written. -/
def writesShapeElement (w : QXmlStreamWriter) : Bool :=
  w.contains (.writeStartElement "xdr:sp")

/-- The tokens of the placeholder shape element: an `xdr:sp` element whose `xdr:cNvPr` child
carries the id and the name of the shape. -/
def placeholderShape (shape : XlsxShape) : List XmlToken :=
  [.writeStartElement "xdr:sp", .writeAttribute "macro" "", .writeAttribute "textlink" "",
   .writeStartElement "xdr:nvSpPr",
   .writeStartElement "xdr:cNvPr", .writeAttribute "id" (toString shape.id),
   .writeAttribute "name" shape.name,
   .writeEndElement,
   .writeEmptyElement "xdr:cNvSpPr",
   .writeEndElement,
   .writeEmptyElement "xdr:spPr",
   .writeEndElement]

/-- The tokens that `saveToXml` writes for the geometry of an anchor, the opening of the anchor
element included. -/
def geometryTokens : AnchorGeometry → List XmlToken
  | .absolute pos ext =>
    DrawingAnchor.saveXmlExt
      (DrawingAnchor.saveXmlPos [.writeStartElement "xdr:absoluteAnchor"] pos) ext
  | .oneCell from_ ext =>
    DrawingAnchor.saveXmlExt
      (DrawingAnchor.saveXmlMarker [.writeStartElement "xdr:oneCellAnchor"] from_ "xdr:from") ext
  | .twoCell from_ to_ =>
    DrawingAnchor.saveXmlMarker
      (DrawingAnchor.saveXmlMarker
        [.writeStartElement "xdr:twoCellAnchor", .writeAttribute "editAs" "oneCell"]
        from_ "xdr:from") to_ "xdr:to"

/-- How a keyed collection `c2` extends a collection `c1` after the keys `paths` have been looked
up and registered: the pointers of `c1` come first and keep their keys, at most one pointer is
added per key looked up, distinct keys stay distinct, an added pointer carries a key that was
looked up and that `c1` did not hold, and nothing changes when `c1` held every key. -/
def KeyedExtends (c1 c2 : Keyed) (paths : List String) : Prop :=
  (∃ added, c2.1 = c1.1 ++ added ∧ added.length ≤ paths.length) ∧
  (∀ q ∈ c1.1, c2.2 q = c1.2 q) ∧
  (c1.keys.Nodup → c2.keys.Nodup) ∧
  (∀ q ∈ c2.1, q ∉ c1.1 → c2.2 q ∉ c1.keys ∧ c2.2 q ∈ paths) ∧
  ((∀ path ∈ paths, path ∈ c1.keys) → c2 = c1)

/-! ## Sample archives with a workbook -/

/-- The workbook reader leaves the relationship list, the shared-string table, the styles and
the theme of the workbook as they are: `Workbook::loadFromXmlData` reads the sheet list, the
defined names and the workbook settings. -/
def Loaders.KeepsWorkbookParts (L : Loaders) : Prop :=
  ∀ data wb, (L.workbook data wb).relationships = wb.relationships ∧
    (L.workbook data wb).sharedStrings = wb.sharedStrings ∧
    (L.workbook data wb).styles = wb.styles ∧
    (L.workbook data wb).theme = wb.theme

/-- Readers for archives with a workbook: the root relationship part is the one that
`savePackage` writes, the workbook relationship part names one worksheet only, and the workbook
part lists that worksheet. -/
def workbookLoaders : Loaders :=
  { sampleLoaders with
    relationships := fun data =>
      if data = "ROOT" then rootrels
      else if data = "WORKBOOK-RELS" then
        ⟨[⟨"rId1", schema_doc ++ "/worksheet", "worksheets/sheet1.xml", ""⟩]⟩
      else Relationships.empty
    workbook := fun data wb =>
      { wb with
        xmlData := data
        sheets := [⟨.ST_WorkSheet, "Sheet1", "xl/worksheets/sheet1.xml", Relationships.empty,
          "", []⟩] }
    getRelFilePath := fun path =>
      if path = "xl/workbook.xml" then "xl/_rels/workbook.xml.rels"
      else "xl/worksheets/_rels/sheet1.xml.rels" }

/-- An archive with the mandatory parts, a workbook and one worksheet, without shared strings,
styles and theme. -/
def archiveWithoutOptionalParts : ZipReader :=
  ⟨[("[Content_Types].xml", "TYPES"), ("_rels/.rels", "ROOT"),
    ("xl/workbook.xml", "WORKBOOK"), ("xl/_rels/workbook.xml.rels", "WORKBOOK-RELS"),
    ("xl/worksheets/sheet1.xml", "SHEET")]⟩

/-- An archive whose root relationships name `xl/workbook.xml` and that has no such entry. -/
def archiveWithoutWorkbookPart : ZipReader :=
  ⟨[("[Content_Types].xml", "TYPES"), ("_rels/.rels", "ROOT")]⟩

/-- An archive whose workbook lists `xl/worksheets/sheet1.xml` and that has no such entry. -/
def archiveWithoutSheetBody : ZipReader :=
  ⟨[("[Content_Types].xml", "TYPES"), ("_rels/.rels", "ROOT"),
    ("xl/workbook.xml", "WORKBOOK"), ("xl/_rels/workbook.xml.rels", "WORKBOOK-RELS")]⟩

/-- A workbook with one worksheet and one chartsheet. -/
def mixedSheetsWorkbook : Workbook :=
  { Workbook.new .F_NewFromScratch with
    sheets := [sampleSheet,
      ⟨.ST_ChartSheet, "Chart1", "", Relationships.empty, "CHARTSHEET-XML", []⟩] }

/-- A workbook with one worksheet and two shared strings. -/
def sharedStringsWorkbook : Workbook :=
  { Workbook.new .F_NewFromScratch with
    sheets := [sampleSheet]
    sharedStrings := ⟨.F_NewFromScratch, ["alpha", "beta"]⟩ }

/-! ## Document properties -/

namespace Document

/-- `Document::documentProperty`. -/
def documentProperty (d : DocumentPrivate) (key : String) : String :=
  if d.documentProperties.contains key then d.documentProperties.value key else ""

/-- `Document::setDocumentProperty`: `d->documentProperties[key] = property`. -/
def setDocumentProperty (d : DocumentPrivate) (key property : String) : DocumentPrivate :=
  { d with documentProperties := d.documentProperties.insert key property }

/-- `Document::documentPropertyNames`. -/
def documentPropertyNames (d : DocumentPrivate) : List String := d.documentProperties.keys

/-- Calls of `setDocumentProperty`, one after the other. -/
def setDocumentPropertyAll : List (String × String) → DocumentPrivate → DocumentPrivate
  | [], d => d
  | (key, property) :: rest, d => setDocumentPropertyAll rest (setDocumentProperty d key property)

end Document

/-- The value most recently given for `key` in a list of calls `(key, value)`, oldest first. -/
def lastSet (key : String) : List (String × String) → Option String
  | [] => none
  | (k, v) :: rest =>
    match lastSet key rest with
    | some x => some x
    | none => if k = key then some v else none

/-! ## Columns of the current worksheet -/

/-- `CellRange`: first and last row and column. -/
structure CellRange where
  firstRow : Int
  firstColumn : Int
  lastRow : Int
  lastColumn : Int
  deriving DecidableEq, Repr

/-- A call of one of the column functions of `Worksheet` that `Document` delegates to. The
width is a `double`; the values that occur here are exact. -/
inductive WorksheetCall where
  | setColumnWidthRange (range : CellRange) (width : ℚ)
  | setColumnHiddenRange (range : CellRange) (hidden : Bool)
  | setColumnWidth (colFirst colLast : Int) (width : ℚ)
  | setColumnHidden (colFirst colLast : Int) (hidden : Bool)
  deriving DecidableEq

/-- Modelled from the spec: `Worksheet` (only its declaration is under src), recorded as the
column calls it has received; `accepts` is the result it reports for a call. Section 9: hidden
and width are distinct operations. -/
structure Worksheet where
  calls : List WorksheetCall
  accepts : WorksheetCall → Bool

/-- The worksheet after a call, with the result of the call. -/
def Worksheet.call (ws : Worksheet) (c : WorksheetCall) : Bool × Worksheet :=
  (ws.accepts c, { ws with calls := ws.calls ++ [c] })

/-- The sheet that `Workbook::activeSheet()` points to: its type tag and, behind the
`static_cast`, the worksheet. -/
structure ActiveSheet where
  sheetType : SheetType
  worksheet : Worksheet

/-- The conversion of `bool` to `double` in a call argument. -/
def boolToDouble (b : Bool) : ℚ := if b then 1 else 0

namespace Document

/-- `Document::currentWorksheet`: null when there is no current sheet or its type is not
`ST_WorkSheet`. -/
def currentWorksheet (st : Option ActiveSheet) : Option Worksheet :=
  match st with
  | some s => if s.sheetType = .ST_WorkSheet then some s.worksheet else none
  | none => none

/-- Writes the worksheet back behind the pointer of the current sheet. -/
def withWorksheet (st : Option ActiveSheet) (ws : Worksheet) : Option ActiveSheet :=
  st.map fun s => { s with worksheet := ws }

/-- `Document::setColumnWidth(const CellRange &range, double width)`. -/
def setColumnWidthRange (st : Option ActiveSheet) (range : CellRange) (width : ℚ) :
    Bool × Option ActiveSheet :=
  match currentWorksheet st with
  | some sheet =>
    ((sheet.call (.setColumnWidthRange range width)).1,
      withWorksheet st (sheet.call (.setColumnWidthRange range width)).2)
  | none => (false, st)

/-- `Document::setColumnHidden(const CellRange &range, bool hidden)`: the body calls
`sheet->setColumnWidth(range, hidden)`. -/
def setColumnHiddenRange (st : Option ActiveSheet) (range : CellRange) (hidden : Bool) :
    Bool × Option ActiveSheet :=
  match currentWorksheet st with
  | some sheet =>
    ((sheet.call (.setColumnWidthRange range (boolToDouble hidden))).1,
      withWorksheet st (sheet.call (.setColumnWidthRange range (boolToDouble hidden))).2)
  | none => (false, st)

/-- `Document::setColumnHidden(int colFirst, int colLast, bool hidden)`. -/
def setColumnHidden (st : Option ActiveSheet) (colFirst colLast : Int) (hidden : Bool) :
    Bool × Option ActiveSheet :=
  match currentWorksheet st with
  | some sheet =>
    ((sheet.call (.setColumnHidden colFirst colLast hidden)).1,
      withWorksheet st (sheet.call (.setColumnHidden colFirst colLast hidden)).2)
  | none => (false, st)

end Document

/-- A current worksheet that has received no call and accepts every call. -/
def freshActiveSheet : Option ActiveSheet := some ⟨.ST_WorkSheet, ⟨[], fun _ => true⟩⟩

/-! ## Sample documents with OLE objects and chartsheets -/

/-- An OLE object stored as `oleObject1.bin`. -/
def sampleOleObject : OleObject :=
  ⟨"oleObject1.bin", "OLE-BYTES", "bin", "application/vnd.openxmlformats-officedocument.oleObject"⟩

/-- A workbook with one worksheet that holds one OLE object. -/
def oleWorkbook : Workbook :=
  { Workbook.new .F_NewFromScratch with
    sheets := [{ sampleSheet with oleObjectFiles := [sampleOleObject] }] }

/-- A chartsheet as the workbook hands it to the OLE step of `loadPackage`: the list that the
step reads from it after the cast holds one object without contents. -/
def castChartsheet : AbstractSheet :=
  ⟨.ST_ChartSheet, "Chart1", "xl/chartsheets/sheet1.xml", Relationships.empty, "",
    [⟨"oleObject1.bin", "", "bin", ""⟩]⟩

/-- An archive with an embedded object. -/
def archiveWithEmbedding : ZipReader :=
  ⟨[("[Content_Types].xml", "TYPES"), ("_rels/.rels", "ROOT"),
    ("xl/workbook.xml", "WORKBOOK"), ("xl/chartsheets/sheet1.xml", "CHARTSHEET"),
    ("xl/embeddings/oleObject1.bin", "OLE-BYTES")]⟩

/-- Readers for an archive with one worksheet, one drawing and one picture: parsing the
worksheet registers a drawing, and parsing the drawing registers the media file
`xl/media/image2.png`, as `loadXmlObjectPicture` does for the target `../media/image2.png`. -/
def pictureLoaders : Loaders :=
  { workbookLoaders with
    sheet := fun _ data s =>
      ({ s with xmlData := data }, [⟨"xl/drawings/drawing1.xml", Relationships.empty, [], []⟩])
    drawing := fun _ d st =>
      (d, ({ st with
        media := Function.update st.media 1 (MediaFile.fromFileName "xl/media/image2.png")
        }).addMediaFile 1) }

/-- An archive whose only picture is stored as `xl/media/image2.png`; it also holds an entry
`xl/media/image1.png` that no relationship refers to. -/
def archiveWithSecondImage : ZipReader :=
  ⟨[("[Content_Types].xml", "TYPES"), ("_rels/.rels", "ROOT"),
    ("xl/workbook.xml", "WORKBOOK"), ("xl/_rels/workbook.xml.rels", "WORKBOOK-RELS"),
    ("xl/worksheets/sheet1.xml", "SHEET"), ("xl/drawings/drawing1.xml", "DRAWING"),
    ("xl/media/image1.png", "ONE"), ("xl/media/image2.png", "TWO")]⟩

/-! ## Reading text, positions, extents and markers -/

namespace QXmlStreamReader

/-- The loop of `readElementText()` over the unread tokens: character data is collected up to
the next end element; a start element raises `UnexpectedElementError`, after which the reader
is on an invalid token, as it is after an error and past the last token. -/
def readElementTextFrom : List XmlEvent → String → String × QXmlStreamReader
  | [], acc => (acc, ⟨.Invalid, []⟩)
  | .Characters t :: rest, acc => readElementTextFrom rest (acc ++ t)
  | .EndElement n :: rest, acc => (acc, ⟨.EndElement n, rest⟩)
  | .StartElement _ _ :: rest, acc => (acc, ⟨.Invalid, rest⟩)
  | .Invalid :: rest, acc => (acc, ⟨.Invalid, rest⟩)

/-- `readElementText()`: the text and the reader afterwards; empty text and no move when the
reader is not on a start element. -/
def readElementText (r : QXmlStreamReader) : String × QXmlStreamReader :=
  if r.isStartElement then readElementTextFrom r.rest "" else ("", r)

end QXmlStreamReader

/-- The four local variables of `loadXmlMarker`. -/
structure MarkerFields where
  col : Int
  colOffset : Int
  row : Int
  rowOffset : Int
  deriving DecidableEq, Repr

namespace DrawingAnchor

/-- `loadXmlPos`; `none` when `Q_ASSERT(reader.name() == "pos")` fails. The reader does not
move. -/
def loadXmlPos (toInt : String → Int) (reader : QXmlStreamReader) : Option QPoint :=
  if reader.name = "pos" then
    some ⟨toInt (attributeValue reader.attributes "x"),
      toInt (attributeValue reader.attributes "y")⟩
  else none

/-- `loadXmlExt`; `none` when `Q_ASSERT(reader.name() == "ext")` fails. The reader does not
move. -/
def loadXmlExt (toInt : String → Int) (reader : QXmlStreamReader) : Option QSize :=
  if reader.name = "ext" then
    some ⟨toInt (attributeValue reader.attributes "cx"),
      toInt (attributeValue reader.attributes "cy")⟩
  else none

/-- The loop of `loadXmlMarker`. `fuel` bounds the number of iterations; every iteration reads
at least one token, so `rest.length + 1` is enough. -/
def markerLoop (toInt : String → Int) (node : String) :
    Nat → MarkerFields × QXmlStreamReader → MarkerFields × QXmlStreamReader
  | 0, s => s
  | fuel + 1, (m, r) =>
    if r.atEnd then (m, r) else
    let reader := r.readNextStartElement
    if reader.isStartElement then
      if reader.name = "col" then
        markerLoop toInt node fuel
          ({ m with col := toInt reader.readElementText.1 }, reader.readElementText.2)
      else if reader.name = "colOff" then
        markerLoop toInt node fuel
          ({ m with colOffset := toInt reader.readElementText.1 }, reader.readElementText.2)
      else if reader.name = "row" then
        markerLoop toInt node fuel
          ({ m with row := toInt reader.readElementText.1 }, reader.readElementText.2)
      else if reader.name = "rowOff" then
        markerLoop toInt node fuel
          ({ m with rowOffset := toInt reader.readElementText.1 }, reader.readElementText.2)
      else markerLoop toInt node fuel (m, reader)
    else if reader.isEndElement ∧ reader.name = node then (m, reader)
    else markerLoop toInt node fuel (m, reader)

/-- `loadXmlMarker`: the marker and the reader afterwards; `none` when
`Q_ASSERT(reader.name() == node)` fails. -/
def loadXmlMarker (toInt : String → Int) (node : String) (reader : QXmlStreamReader) :
    Option (XlsxMarker × QXmlStreamReader) :=
  if reader.name = node then
    let r := markerLoop toInt node (reader.rest.length + 1) (⟨0, 0, 0, 0⟩, reader)
    some (XlsxMarker.make r.1.row r.1.col r.1.rowOffset r.1.colOffset, r.2)
  else none

/-- The element name of an anchor class, which is also the end tag that stops its loader. -/
def geometryTag : AnchorGeometry → String
  | .absolute _ _ => "absoluteAnchor"
  | .oneCell _ _ => "oneCellAnchor"
  | .twoCell _ _ => "twoCellAnchor"

/-- The branch that `loadFromXml` of the anchor's class takes for a start element: a geometry
child is stored, every other element goes to `loadXmlObject`. -/
def loadFromXmlStep (ctx : AnchorLoadContext) (s : AnchorLoad) : Option AnchorLoad :=
  match s.anchor.geometry with
  | .absolute pos ext =>
    if s.reader.name = "pos" then
      (loadXmlPos ctx.toInt s.reader).map fun p =>
        { s with anchor := { s.anchor with geometry := .absolute p ext } }
    else if s.reader.name = "ext" then
      (loadXmlExt ctx.toInt s.reader).map fun e =>
        { s with anchor := { s.anchor with geometry := .absolute pos e } }
    else loadXmlObject ctx s
  | .oneCell from_ ext =>
    if s.reader.name = "from" then
      (loadXmlMarker ctx.toInt "from" s.reader).map fun r =>
        { s with anchor := { s.anchor with geometry := .oneCell r.1 ext }, reader := r.2 }
    else if s.reader.name = "ext" then
      (loadXmlExt ctx.toInt s.reader).map fun e =>
        { s with anchor := { s.anchor with geometry := .oneCell from_ e } }
    else loadXmlObject ctx s
  | .twoCell from_ to_ =>
    if s.reader.name = "from" then
      (loadXmlMarker ctx.toInt "from" s.reader).map fun r =>
        { s with anchor := { s.anchor with geometry := .twoCell r.1 to_ }, reader := r.2 }
    else if s.reader.name = "to" then
      (loadXmlMarker ctx.toInt "to" s.reader).map fun r =>
        { s with anchor := { s.anchor with geometry := .twoCell from_ r.1 }, reader := r.2 }
    else loadXmlObject ctx s

/-- The loop of `loadFromXml` of the three anchor classes. `fuel` bounds the number of
iterations; every iteration reads at least one token, so `rest.length + 1` is enough. The
result is `none` when an assertion of a called loader fails. -/
def anchorLoop (ctx : AnchorLoadContext) (close : String) :
    Nat → AnchorLoad → Option AnchorLoad
  | 0, s => some s
  | fuel + 1, s =>
    if s.reader.atEnd then some s else
    let reader := s.reader.readNextStartElement
    if reader.isStartElement then
      match loadFromXmlStep ctx { s with reader := reader } with
      | none => none
      | some s1 => anchorLoop ctx close fuel s1
    else if reader.isEndElement ∧ reader.name = close then some { s with reader := reader }
    else anchorLoop ctx close fuel { s with reader := reader }

/-- `loadFromXml` of the anchor's class (it returns true); `none` when the assertion on the
element name fails. -/
def loadFromXml (ctx : AnchorLoadContext) (s : AnchorLoad) : Option AnchorLoad :=
  if s.reader.name = geometryTag s.anchor.geometry then
    anchorLoop ctx (geometryTag s.anchor.geometry) (s.reader.rest.length + 1) s
  else none

end DrawingAnchor

/-! ## Decimal text -/

/-- `QString::toInt()` on decimal text: digits with an optional minus sign give their value
when it fits a 32-bit `int`, every other text gives 0. The plus sign and the surrounding
white space that Qt also accepts do not occur in the texts read here. -/
def toIntDecimal (s : String) : Int :=
  match s.data with
  | '-' :: ds =>
    if ds ≠ [] ∧ ds.all Char.isDigit = true ∧ decimalValue 0 ds ≤ 2147483648 then
      -(decimalValue 0 ds : Int)
    else 0
  | ds =>
    if ds ≠ [] ∧ ds.all Char.isDigit = true ∧ decimalValue 0 ds ≤ 2147483647 then
      (decimalValue 0 ds : Int)
    else 0

/-! ## Reading back what a writer wrote -/

/-- The local name of a qualified name: the text after the first colon. -/
def localName (qualifiedName : String) : String :=
  match qualifiedName.data.dropWhile (fun c => c ≠ ':') with
  | [] => qualifiedName
  | _ :: rest => String.mk rest

/-- The attributes written right after the opening of an element. -/
def leadingAttributes : List XmlToken → List (String × String)
  | .writeAttribute n v :: rest => (n, v) :: leadingAttributes rest
  | _ => []

/-- The tokens that a reader reports for the text produced by the given writer calls; `open_`
holds the local names of the elements that are open. An empty text is reported as an empty
run of characters, which every loader here reads like no token. -/
def readBack : List XmlToken → List String → List XmlEvent
  | [], _ => []
  | .writeStartElement q :: rest, open_ =>
    .StartElement (localName q) (leadingAttributes rest) :: readBack rest (localName q :: open_)
  | .writeEmptyElement q :: rest, open_ =>
    .StartElement (localName q) (leadingAttributes rest) :: .EndElement (localName q) ::
      readBack rest open_
  | .writeAttribute _ _ :: rest, open_ => readBack rest open_
  | .writeTextElement q t :: rest, open_ =>
    .StartElement (localName q) [] :: .Characters t :: .EndElement (localName q) ::
      readBack rest open_
  | .writeEndElement :: rest, top :: open_ => .EndElement top :: readBack rest open_
  | .writeEndElement :: rest, [] => readBack rest []

/-- A reader positioned on the first of the given tokens. -/
def readerOn : List XmlEvent → QXmlStreamReader
  | [] => ⟨.Invalid, []⟩
  | e :: rest => ⟨e, rest⟩

/-! ## Children of a marker node -/

/-- The names of the children that `loadXmlMarker` reads. -/
def markerFieldNames : List String := ["col", "colOff", "row", "rowOff"]

/-- A direct child of a marker node: an element with text only, or any other run of tokens. -/
inductive MarkerChild where
  | field (name : String) (attributes : List (String × String)) (text : String)
  | other (events : List XmlEvent)
  deriving DecidableEq, Repr

/-- A token that the marker loop of `node` passes over without any effect: character data, a
start element that is not one of the four fields, an end element not named like the node. -/
def passedOver (node : String) : XmlEvent → Bool
  | .StartElement n _ => !(markerFieldNames.contains n)
  | .EndElement n => n != node
  | .Characters _ => true
  | .Invalid => false

namespace MarkerChild

/-- The tokens of a child. -/
def events : MarkerChild → List XmlEvent
  | field n a t => [.StartElement n a, .Characters t, .EndElement n]
  | other ev => ev

/-- A field child carries one of the four names; another child holds only tokens that the
loop passes over: no element named like a field and no end tag named like the node. -/
def wellFormed (node : String) : MarkerChild → Bool
  | field n _ _ => markerFieldNames.contains n
  | other ev => ev.all (passedOver node)

/-- The effect of a child on the four values. -/
def apply (toInt : String → Int) (m : MarkerFields) : MarkerChild → MarkerFields
  | field n _ t =>
    if n = "col" then { m with col := toInt t }
    else if n = "colOff" then { m with colOffset := toInt t }
    else if n = "row" then { m with row := toInt t }
    else if n = "rowOff" then { m with rowOffset := toInt t }
    else m
  | other _ => m

end MarkerChild

/-- The four values after the children of a marker node, in document order, starting from 0:
the value of the last field child of each name. -/
def markerFieldsOf (toInt : String → Int) (children : List MarkerChild) : MarkerFields :=
  children.foldl (MarkerChild.apply toInt) ⟨0, 0, 0, 0⟩

/-- The marker that `loadXmlMarker` builds from the four values. -/
def MarkerFields.marker (m : MarkerFields) : XlsxMarker :=
  XlsxMarker.make m.row m.col m.rowOffset m.colOffset

/-- The marker loop of `node`, started with enough fuel on any valid token followed by the
unread tokens `unread`, ends in `result m` when the four values were `m`. -/
def MarkerScans (toInt : String → Int) (node : String) (unread : List XmlEvent)
    (result : MarkerFields → MarkerFields × QXmlStreamReader) : Prop :=
  ∀ (fuel : Nat) (cur : XmlEvent) (m : MarkerFields),
    (⟨cur, unread⟩ : QXmlStreamReader).atEnd = false → unread.length < fuel →
    DrawingAnchor.markerLoop toInt node fuel (m, ⟨cur, unread⟩) = result m

/-- A marker node with the child `col` = 1, and the same node with an unknown child after it
whose own child is named `col`. -/
def markerNodePlain : QXmlStreamReader :=
  ⟨.StartElement "from" [],
    [.StartElement "col" [], .Characters "1", .EndElement "col", .EndElement "from"]⟩

/-- The node `markerNodePlain` with an unknown child `extLst` inserted before the close tag;
the unknown child has a child named `col`. -/
def markerNodeExtended : QXmlStreamReader :=
  ⟨.StartElement "from" [],
    [.StartElement "col" [], .Characters "1", .EndElement "col",
     .StartElement "extLst" [], .StartElement "col" [], .Characters "9", .EndElement "col",
     .EndElement "extLst", .EndElement "from"]⟩

/-! ## Loading the anchors of a drawing -/

/-- The call `anchor->loadFromXml(reader)` on the anchor at `position` of a drawing, with the
collections of the workbook in `store`: the drawing, the reader and the collections
afterwards. `none` when there is no such anchor or an assertion fails. -/
def Drawing.loadAnchor (ctx : AnchorLoadContext) (position : Nat) (reader : QXmlStreamReader)
    (store : PartStore) (d : Drawing) : Option (Drawing × QXmlStreamReader × PartStore) :=
  match d.anchors[position]? with
  | none => none
  | some a =>
    (DrawingAnchor.loadFromXml ctx ⟨a, reader, store⟩).map fun s =>
      ({ d with anchors := d.anchors.set position s.anchor }, s.reader, s.store)

/-- An operation on the anchors of a drawing: the construction of an anchor, or the load of the
anchor at a position from a reader. -/
inductive DrawingOp where
  | construct (cls : AnchorClass) (objectType : ObjectType)
  | load (position : Nat) (reader : QXmlStreamReader)

/-- Operations on one drawing, one after the other. -/
def Drawing.run (ctx : AnchorLoadContext) :
    List DrawingOp → Drawing × PartStore → Option (Drawing × PartStore)
  | [], s => some s
  | .construct cls objectType :: rest, s =>
    Drawing.run ctx rest (DrawingAnchor.construct cls objectType s.1, s.2)
  | .load position reader :: rest, s =>
    match Drawing.loadAnchor ctx position reader s.2 s.1 with
    | none => none
    | some r => Drawing.run ctx rest (r.1, r.2.2)

/-- The context of `sampleLoadContext` with the decimal conversion. -/
def decimalLoadContext : AnchorLoadContext := { sampleLoadContext with toInt := toIntDecimal }

/-- A new two-cell anchor with the reader on a `twoCellAnchor` element whose object child is a
`grpSp` that holds a `pic`. -/
def groupWithPictureLoad : AnchorLoad :=
  { anchor := ⟨.Unknown, none, none, ⟨1, ""⟩, 1,
      .twoCell XlsxMarker.default_ XlsxMarker.default_⟩
    reader := ⟨.StartElement "twoCellAnchor" [],
      [.StartElement "from" [], .StartElement "col" [], .Characters "1", .EndElement "col",
       .EndElement "from",
       .StartElement "to" [], .StartElement "col" [], .Characters "3", .EndElement "col",
       .EndElement "to",
       .StartElement "grpSp" [],
       .StartElement "nvGrpSpPr" [], .StartElement "cNvPr" [("id", "5"), ("name", "Group 4")],
       .EndElement "cNvPr", .EndElement "nvGrpSpPr",
       .StartElement "pic" [], .StartElement "blipFill" [],
       .StartElement "blip" [("r:embed", "rId1")], .EndElement "blip", .EndElement "blipFill",
       .EndElement "pic",
       .EndElement "grpSp",
       .StartElement "clientData" [], .EndElement "clientData",
       .EndElement "twoCellAnchor"]⟩
    store := emptyStore }

/-- A new one-cell anchor with the reader on a `oneCellAnchor` element whose extent is 100 by
200 and whose object child is a `cxnSp` with an `a:ext` of 5 by 6 inside its `a:xfrm`. -/
def connectorWithExtentLoad : AnchorLoad :=
  { anchor := ⟨.Unknown, none, none, ⟨1, ""⟩, 1, .oneCell XlsxMarker.default_ QSize.invalid⟩
    reader := ⟨.StartElement "oneCellAnchor" [],
      [.StartElement "from" [], .StartElement "col" [], .Characters "1", .EndElement "col",
       .EndElement "from",
       .StartElement "ext" [("cx", "100"), ("cy", "200")], .EndElement "ext",
       .StartElement "cxnSp" [],
       .StartElement "spPr" [], .StartElement "xfrm" [],
       .StartElement "off" [("x", "1"), ("y", "2")], .EndElement "off",
       .StartElement "ext" [("cx", "5"), ("cy", "6")], .EndElement "ext",
       .EndElement "xfrm", .EndElement "spPr",
       .EndElement "cxnSp",
       .StartElement "clientData" [], .EndElement "clientData",
       .EndElement "oneCellAnchor"]⟩
    store := emptyStore }

/-- A `oneCellAnchor` element whose object child is an `sp` with the `cNvPr` id 2. -/
def shapeWithIdTwo : QXmlStreamReader :=
  ⟨.StartElement "oneCellAnchor" [],
    [.StartElement "sp" [], .StartElement "nvSpPr" [],
     .StartElement "cNvPr" [("id", "2"), ("name", "Rectangle 1")], .EndElement "cNvPr",
     .EndElement "nvSpPr", .EndElement "sp",
     .StartElement "clientData" [], .EndElement "clientData",
     .EndElement "oneCellAnchor"]⟩

/-- The operations of a drawing reader on a file with two anchors: the first anchor is
constructed and loaded from `shapeWithIdTwo`, then the second anchor is constructed. -/
def loadThenConstruct : List DrawingOp :=
  [.construct .oneCellAnchor .Unknown, .load 0 shapeWithIdTwo,
   .construct .oneCellAnchor .Unknown]
/-! ## Sample documents with several parts of each category -/

/-- A workbook with three worksheets and two chartsheets in mixed order, two external links,
two drawings and three charts. -/
def numberedWorkbook : Workbook :=
  { Workbook.new .F_NewFromScratch with
    sheets :=
      [⟨.ST_WorkSheet, "Alpha", "", Relationships.empty, "SHEET-A", []⟩,
       ⟨.ST_ChartSheet, "Chart X", "", Relationships.empty, "CHARTSHEET-X", []⟩,
       ⟨.ST_WorkSheet, "Beta", "", Relationships.empty, "SHEET-B", []⟩,
       ⟨.ST_ChartSheet, "Chart Y", "", Relationships.empty, "CHARTSHEET-Y", []⟩,
       ⟨.ST_WorkSheet, "Gamma", "", Relationships.empty, "SHEET-C", []⟩]
    externalLinks :=
      [⟨"", Relationships.empty, "LINK-1"⟩, ⟨"", Relationships.empty, "LINK-2"⟩]
    drawings :=
      [⟨"", Relationships.empty, [shapeAnchor], [0]⟩,
       ⟨"", Relationships.empty, [groupShapeAnchor, shapeAnchor], [0, 1]⟩]
    chartFiles := [7, 3, 5]
    charts := fun p => ⟨"", "CHART-" ++ toString p⟩ }

/-- The stored index of every media file of the collection is its 0-based position: the state
in which `addMediaFile` leaves the collection. -/
def PartStore.MediaIndexed (st : PartStore) : Prop :=
  ∀ (i : Nat) (h : i < st.mediaFiles.length), (st.media st.mediaFiles[i]).index = (i : Int)

/-- Two media files behind the pointers 4 and 9, before they are registered. -/
def twoMediaObjects : MediaPtr → MediaFile :=
  Function.update
    (Function.update emptyStore.media 4 ⟨"a.png", "PNG-BYTES", "png", "image/png", 0⟩)
    9 ⟨"b.jpeg", "JPEG-BYTES", "jpeg", "image/jpeg", 0⟩

/-- The collections after the two media files were registered with `addMediaFile`, pointer 4
first. -/
def twoMediaStore : PartStore :=
  (({ emptyStore with media := twoMediaObjects }).addMediaFile 4).addMediaFile 9

/-- A workbook with one worksheet and the media collection `twoMediaStore`. -/
def twoMediaWorkbook : Workbook :=
  ({ Workbook.new .F_NewFromScratch with sheets := [sampleSheet] }).setPartStore twoMediaStore

/-! ## Sample loads into collections that hold the referenced part -/

/-- The context of a drawing in `xl/drawings` whose relationships name two images and two
charts, with the decimal conversion. -/
def sharingLoadContext : AnchorLoadContext :=
  { decimalLoadContext with
    relationships :=
      ⟨[⟨"rId1", schema_doc ++ "/image", "../media/image1.png", ""⟩,
        ⟨"rId2", schema_doc ++ "/image", "../media/image2.png", ""⟩,
        ⟨"rId3", schema_doc ++ "/chart", "../charts/chart1.xml", ""⟩,
        ⟨"rId4", schema_doc ++ "/chart", "../charts/chart2.xml", ""⟩]⟩ }

/-- Collections that already hold the media file `image1.png` (pointer 5) and the chart
`chart1.xml` (pointer 3), as an earlier anchor of the workbook registered them. -/
def registeredStore : PartStore :=
  { chartFiles := [3]
    mediaFiles := [5]
    charts := Function.update emptyStore.charts 3
      (Chart.fromFilePath "xl/drawings/../charts/chart1.xml")
    media := Function.update emptyStore.media 5
      (MediaFile.fromFileName "xl/drawings/../media/image1.png") }

/-- A new anchor on a `pic` element with three `blip` elements: `image2.png` twice, which is
not registered yet, then `image1.png`, which is. -/
def sharedBlipLoad : AnchorLoad :=
  { anchor := ⟨.Unknown, none, none, ⟨2, ""⟩, 2, .absolute QPoint.null QSize.invalid⟩
    reader := ⟨.StartElement "pic" [],
      [.StartElement "blipFill" [],
       .StartElement "blip" [("r:embed", "rId2")], .EndElement "blip",
       .StartElement "blip" [("r:embed", "rId2")], .EndElement "blip",
       .StartElement "blip" [("r:embed", "rId1")], .EndElement "blip",
       .EndElement "blipFill", .EndElement "pic"]⟩
    store := registeredStore }

/-- A new anchor on a `pic` element whose only `blip` refers to `image1.png`, which is
registered. -/
def registeredBlipLoad : AnchorLoad :=
  { anchor := ⟨.Unknown, none, none, ⟨2, ""⟩, 2, .absolute QPoint.null QSize.invalid⟩
    reader := ⟨.StartElement "pic" [],
      [.StartElement "blipFill" [],
       .StartElement "blip" [("r:embed", "rId1")], .EndElement "blip",
       .EndElement "blipFill", .EndElement "pic"]⟩
    store := registeredStore }

/-- A new anchor on a `graphicFrame` element with three chart references: `chart2.xml` twice,
which is not registered yet, then `chart1.xml`, which is. -/
def sharedChartLoad : AnchorLoad :=
  { anchor := ⟨.Unknown, none, none, ⟨2, ""⟩, 2, .absolute QPoint.null QSize.invalid⟩
    reader := ⟨.StartElement "graphicFrame" [],
      [.StartElement "graphic" [],
       .StartElement "chart" [("r:id", "rId4")], .EndElement "chart",
       .StartElement "chart" [("r:id", "rId4")], .EndElement "chart",
       .StartElement "chart" [("r:id", "rId3")], .EndElement "chart",
       .EndElement "graphic", .EndElement "graphicFrame"]⟩
    store := registeredStore }

/-- A new anchor on a `graphicFrame` element whose only chart reference is `chart1.xml`, which
is registered. -/
def registeredChartLoad : AnchorLoad :=
  { anchor := ⟨.Unknown, none, none, ⟨2, ""⟩, 2, .absolute QPoint.null QSize.invalid⟩
    reader := ⟨.StartElement "graphicFrame" [],
      [.StartElement "graphic" [],
       .StartElement "chart" [("r:id", "rId3")], .EndElement "chart",
       .EndElement "graphic", .EndElement "graphicFrame"]⟩
    store := registeredStore }

/-! ## Relationship lists -/

theorem addRelationship_list (r : Relationships) (t g m : String) :
    (r.addRelationship t g m).m_relationships =
      r.m_relationships ++ [⟨"rId" ++ toString (r.count + 1), t, g, m⟩] := rfl

theorem addDocumentRelationship_list (r : Relationships) (t g : String) :
    (r.addDocumentRelationship t g).m_relationships =
      r.m_relationships ++ [⟨"rId" ++ toString (r.count + 1), schema_doc ++ t, g, ""⟩] := rfl

theorem addDocumentRelationship_count (r : Relationships) (t g : String) :
    (r.addDocumentRelationship t g).count = r.count + 1 := by
  simp [Relationships.count, addDocumentRelationship_list]

/-! ## Path resolution -/

theorem resolveTarget_media (s : String) :
    resolveTarget "xl/drawings" ("../media/image" ++ s) = "xl/media/image" ++ s := by
  simp [resolveTarget, resolveChars, parentDir, String.data_append]
  apply String.ext
  simp

theorem resolveTarget_chart (s : String) :
    resolveTarget "xl/drawings" ("../charts/chart" ++ s) = "xl/charts/chart" ++ s := by
  simp [resolveTarget, resolveChars, parentDir, String.data_append]
  apply String.ext
  simp

theorem resolveTarget_pictureTarget (m : MediaFile) :
    resolveTarget "xl/drawings" (DrawingAnchor.pictureTarget m) = mediaPath m := by
  unfold DrawingAnchor.pictureTarget mediaPath
  rw [String.append_assoc, String.append_assoc, resolveTarget_media]
  simp [String.append_assoc]

/-! ## Serialising one anchor -/

theorem saveXmlObjectPicture_eq (ctx : AnchorContext) (a : DrawingAnchor) (s : AnchorOut)
    (p : MediaPtr) (hty : a.m_objectType = .Picture) (hp : a.m_pictureFile = some p) :
    ∃ toks, a.saveXmlObjectPicture ctx s =
      some ⟨s.relationships.addDocumentRelationship "/image"
              (DrawingAnchor.pictureTarget (ctx.media p)), s.writer ++ toks⟩ ∧
      XmlToken.attributeValues "r:embed" toks =
        ["rId" ++ toString (s.relationships.count + 1)] ∧
      XmlToken.attributeValues "r:id" toks = [] := by
  simp only [DrawingAnchor.saveXmlObjectPicture, hp, hty, addDocumentRelationship_count,
    ne_eq, not_true_eq_false, if_false, List.append_assoc]
  exact ⟨_, rfl, by simp [XmlToken.attributeValues], by simp [XmlToken.attributeValues]⟩

theorem saveXmlObjectGraphicFrame_eq (ctx : AnchorContext) (a : DrawingAnchor) (s : AnchorOut) :
    ∃ toks, a.saveXmlObjectGraphicFrame ctx s =
      ⟨s.relationships.addDocumentRelationship "/chart" (DrawingAnchor.chartTarget ctx a),
        s.writer ++ toks⟩ ∧
      XmlToken.attributeValues "r:id" toks =
        ["rId" ++ toString (s.relationships.count + 1)] ∧
      XmlToken.attributeValues "r:embed" toks = [] := by
  simp only [DrawingAnchor.saveXmlObjectGraphicFrame, addDocumentRelationship_count,
    List.append_assoc]
  exact ⟨_, rfl, by simp [XmlToken.attributeValues], by simp [XmlToken.attributeValues]⟩

/-! ## The archive entries of each loop -/

theorem saveWorksheets_zipWriter (l : List AbstractSheet) : ∀ (i : Nat) (s : SaveState),
    (saveWorksheets i l s).zipWriter = s.zipWriter ++ worksheetEntries i l := by
  induction l with
  | nil => intro i s; simp [saveWorksheets, worksheetEntries]
  | cons sheet rest ih =>
    intro i s
    simp only [saveWorksheets, worksheetEntries, ih]
    split <;> simp [SaveState.addFile]

theorem saveChartsheets_zipWriter (l : List AbstractSheet) : ∀ (i : Nat) (s : SaveState),
    (saveChartsheets i l s).zipWriter = s.zipWriter ++ chartsheetEntries i l := by
  induction l with
  | nil => intro i s; simp [saveChartsheets, chartsheetEntries]
  | cons sheet rest ih =>
    intro i s
    simp only [saveChartsheets, chartsheetEntries, ih]
    split <;> simp [SaveState.addFile]

theorem saveExternalLinks_zipWriter (l : List SimpleOOXmlFile) : ∀ (i : Nat) (s : SaveState),
    (saveExternalLinks i l s).zipWriter = s.zipWriter ++ externalLinkEntries i l := by
  induction l with
  | nil => intro i s; simp [saveExternalLinks, externalLinkEntries]
  | cons link rest ih =>
    intro i s
    simp only [saveExternalLinks, externalLinkEntries, ih]
    split <;> simp [SaveState.addFile]

theorem saveDrawings_zipWriter (ctx : AnchorContext) (l : List Drawing) :
    ∀ (i : Nat) (s s1 : SaveState), saveDrawings ctx i l s = some s1 →
      s1.zipWriter = s.zipWriter ++ drawingEntries ctx i l := by
  induction l with
  | nil => intro i s s1 h; simp [saveDrawings] at h; subst h; simp [drawingEntries]
  | cons d rest ih =>
    intro i s s1 h
    simp only [saveDrawings] at h
    cases hd : d.saveToXmlData ctx with
    | none => simp [hd] at h
    | some out =>
      simp only [hd] at h
      rw [ih _ _ _ h]
      simp only [drawingEntries, drawingOut, hd, Option.getD_some]
      split <;> simp [SaveState.addFile]

theorem saveDrawings_isSome (ctx : AnchorContext) (l : List Drawing) :
    ∀ (i : Nat) (s : SaveState), (∀ d ∈ l, (d.saveToXmlData ctx).isSome) →
      (saveDrawings ctx i l s).isSome := by
  induction l with
  | nil => intro i s _; simp [saveDrawings]
  | cons d rest ih =>
    intro i s h
    simp only [saveDrawings]
    have hd := h d (by simp)
    cases hs : d.saveToXmlData ctx with
    | none => simp [hs] at hd
    | some out => exact ih _ _ (fun d1 h1 => h d1 (by simp [h1]))

theorem saveProperties_zipWriter (props : QMap) (l : List String) : ∀ (s : SaveState),
    (saveProperties props l s).zipWriter = s.zipWriter := by
  induction l with
  | nil => intro s; rfl
  | cons n rest ih => intro s; simp only [saveProperties, ih]

theorem saveCharts_zipWriter (charts : ChartPtr → Chart) (l : List ChartPtr) :
    ∀ (i : Nat) (s : SaveState),
      (saveCharts charts i l s).zipWriter = s.zipWriter ++ chartEntries charts i l := by
  induction l with
  | nil => intro i s; simp [saveCharts, chartEntries]
  | cons cf rest ih => intro i s; simp [saveCharts, chartEntries, ih, SaveState.addFile]

theorem saveMediaFiles_zipWriter (media : MediaPtr → MediaFile) (l : List MediaPtr) :
    ∀ (s : SaveState),
      (saveMediaFiles media l s).zipWriter = s.zipWriter ++ mediaEntries media l := by
  induction l with
  | nil => intro s; simp [saveMediaFiles, mediaEntries]
  | cons p rest ih =>
    intro s
    simp only [saveMediaFiles, ih, mediaEntries]
    split <;> simp [SaveState.addFile]

theorem saveOleObjects_zipWriter (l : List OleObject) : ∀ (s : SaveState),
    (saveOleObjects l s).zipWriter = s.zipWriter ++ oleEntries l := by
  induction l with
  | nil => intro s; simp [saveOleObjects, oleEntries]
  | cons obj rest ih =>
    intro s
    simp only [saveOleObjects, ih, oleEntries]
    split <;> simp [SaveState.addFile]

theorem saveOleObjectFiles_zipWriter (l : List AbstractSheet) : ∀ (s : SaveState),
    (saveOleObjectFiles l s).zipWriter = s.zipWriter ++ oleFileEntries l := by
  induction l with
  | nil => intro s; simp [saveOleObjectFiles, oleFileEntries]
  | cons sheet rest ih =>
    intro s
    simp [saveOleObjectFiles, ih, oleFileEntries, saveOleObjects_zipWriter]

/-! ## The archive written by `savePackage` -/

theorem saveSheetsAndWorkbook_zipWriter (wb : Workbook) (s : SaveState) :
    (saveSheetsAndWorkbook wb s).zipWriter = s.zipWriter ++
      (worksheetEntries 0 (wb.getSheetsByTypes .ST_WorkSheet) ++
      (chartsheetEntries 0 (wb.getSheetsByTypes .ST_ChartSheet) ++
      (externalLinkEntries 0 wb.externalLinks ++
      [⟨"xl/workbook.xml", .bytes wb.xmlData⟩,
        ⟨"xl/_rels/workbook.xml.rels", .relationships wb.relationships⟩]))) := by
  simp only [saveSheetsAndWorkbook, SaveState.addFile, saveExternalLinks_zipWriter,
    saveChartsheets_zipWriter, saveWorksheets_zipWriter]
  split <;> split <;>
    simp [saveExternalLinks_zipWriter, saveChartsheets_zipWriter, saveWorksheets_zipWriter]

theorem saveDocProps_zipWriter (props : QMap) (s : SaveState) :
    (saveDocProps props s).zipWriter = s.zipWriter ++
      [⟨"docProps/app.xml", .docPropsApp (saveProperties props props.keys s).docPropsApp⟩,
       ⟨"docProps/core.xml", .docPropsCore (saveProperties props props.keys s).docPropsCore⟩] := by
  simp [saveDocProps, SaveState.addFile, saveProperties_zipWriter]

theorem saveStringsStylesTheme_zipWriter (wb : Workbook) (s : SaveState) :
    (saveStringsStylesTheme wb s).zipWriter = s.zipWriter ++
      (sharedStringsEntries wb.sharedStrings ++
      [⟨"xl/styles.xml", .bytes wb.styles.xmlData⟩,
       ⟨"xl/theme/theme1.xml", .bytes wb.theme.xmlData⟩]) := by
  simp only [saveStringsStylesTheme, SaveState.addFile, sharedStringsEntries]
  split <;> simp

theorem saveRootRelsAndContentTypes_zipWriter (s : SaveState) :
    (saveRootRelsAndContentTypes s).zipWriter = s.zipWriter ++
      [⟨"_rels/.rels", .relationships rootrels⟩,
       ⟨"[Content_Types].xml", .contentTypes s.contentTypes⟩] := by
  simp [saveRootRelsAndContentTypes, SaveState.addFile]

theorem saveRootRelsAndContentTypes_contentTypes (s : SaveState) :
    (saveRootRelsAndContentTypes s).contentTypes = s.contentTypes := rfl

theorem savePackage_zip (ct : ContentTypes) (wb : Workbook) (props : QMap) (res : SaveResult)
    (h : savePackage ⟨some ct, some wb, props⟩ false = some res) :
    ∃ app core, res.ok = true ∧ res.zip =
      worksheetEntries 0 (wb.getSheetsByTypes .ST_WorkSheet) ++
      (chartsheetEntries 0 (wb.getSheetsByTypes .ST_ChartSheet) ++
      (externalLinkEntries 0 wb.externalLinks ++
      ([⟨"xl/workbook.xml", .bytes wb.xmlData⟩,
        ⟨"xl/_rels/workbook.xml.rels", .relationships wb.relationships⟩] ++
      (drawingEntries wb.anchorContext 0 wb.drawings ++
      ([⟨"docProps/app.xml", .docPropsApp app⟩, ⟨"docProps/core.xml", .docPropsCore core⟩] ++
      (sharedStringsEntries wb.sharedStrings ++
      ([⟨"xl/styles.xml", .bytes wb.styles.xmlData⟩,
        ⟨"xl/theme/theme1.xml", .bytes wb.theme.xmlData⟩] ++
      (chartEntries wb.charts 0 wb.chartFiles ++
      (mediaEntries wb.media wb.mediaFiles ++
      (oleFileEntries (wb.getSheetsByTypes .ST_WorkSheet) ++
      [⟨"_rels/.rels", .relationships rootrels⟩,
       ⟨"[Content_Types].xml", .contentTypes res.contentTypes⟩])))))))))) := by
  simp only [savePackage, Bool.false_eq_true, if_false] at h
  split at h
  · simp at h
  · rename_i sd hsd
    have hz := saveDrawings_zipWriter _ _ _ _ _ hsd
    simp only [Option.some.injEq] at h
    subst h
    refine ⟨(saveProperties props props.keys sd).docPropsApp,
      (saveProperties props props.keys sd).docPropsCore, rfl, ?_⟩
    simp only [saveRootRelsAndContentTypes_zipWriter, saveRootRelsAndContentTypes_contentTypes,
      saveOleObjectFiles_zipWriter, saveMediaFiles_zipWriter,
      saveCharts_zipWriter, saveStringsStylesTheme_zipWriter, saveDocProps_zipWriter, hz,
      saveSheetsAndWorkbook_zipWriter, List.nil_append, List.append_assoc]

theorem savePackage_isSome (ct : ContentTypes) (wb : Workbook) (props : QMap)
    (h : ∀ d ∈ wb.drawings, (d.saveToXmlData wb.anchorContext).isSome) :
    (savePackage ⟨some ct, some wb, props⟩ false).isSome := by
  simp only [savePackage, Bool.false_eq_true, if_false]
  have := saveDrawings_isSome wb.anchorContext wb.drawings 0
    (saveSheetsAndWorkbook wb
      ⟨ct.clearOverrides, DocPropsApp.new, DocPropsCore.new, [], []⟩) h
  split
  · rename_i hn; simp [hn] at this
  · simp

/-! ## Directories of the archive -/

theorem startsWith_iff (pre s : String) : startsWith pre s = true ↔ pre.data <+: s.data := by
  simp [startsWith]

theorem isBodyIn_eq_false_of_startsWith (cat dir : String) (e : ZipEntry)
    (h : startsWith dir e.path = true)
    (h1 : dir.data.isPrefixOf cat.data = false) (h2 : cat.data.isPrefixOf dir.data = false) :
    isBodyIn cat e = false := by
  cases hb : isBodyIn cat e with
  | false => rfl
  | true =>
    exfalso
    simp only [isBodyIn, Bool.and_eq_true] at hb
    have hc := (startsWith_iff _ _).1 hb.1
    have hd := (startsWith_iff _ _).1 h
    rcases List.prefix_or_prefix_of_prefix hc hd with h3 | h3
    · have := List.isPrefixOf_iff_prefix.2 h3
      simp [h2] at this
    · have := List.isPrefixOf_iff_prefix.2 h3
      simp [h1] at this

theorem filter_isBodyIn_eq_nil (cat dir : String) (es : List ZipEntry)
    (h : ∀ e ∈ es, startsWith dir e.path = true)
    (h1 : dir.data.isPrefixOf cat.data = false) (h2 : cat.data.isPrefixOf dir.data = false) :
    es.filter (isBodyIn cat) = [] := by
  rw [List.filter_eq_nil_iff]
  intro e he
  simp [isBodyIn_eq_false_of_startsWith cat dir e (h e he) h1 h2]

theorem worksheetEntries_dir (l : List AbstractSheet) : ∀ (i : Nat),
    ∀ e ∈ worksheetEntries i l, startsWith "xl/worksheets/" e.path = true := by
  induction l with
  | nil => intro i e he; simp [worksheetEntries] at he
  | cons sheet rest ih =>
    intro i e he
    simp only [worksheetEntries, List.mem_append, List.mem_cons] at he
    rcases he with (he | he) | he
    · subst he; simp [startsWith, String.data_append, List.isPrefixOf]
    · split at he
      · simp at he
      · simp only [List.mem_singleton] at he
        subst he; simp [startsWith, String.data_append, List.isPrefixOf]
    · exact ih _ e he

theorem chartsheetEntries_dir (l : List AbstractSheet) : ∀ (i : Nat),
    ∀ e ∈ chartsheetEntries i l, startsWith "xl/chartsheets/" e.path = true := by
  induction l with
  | nil => intro i e he; simp [chartsheetEntries] at he
  | cons sheet rest ih =>
    intro i e he
    simp only [chartsheetEntries, List.mem_append, List.mem_cons] at he
    rcases he with (he | he) | he
    · subst he; simp [startsWith, String.data_append, List.isPrefixOf]
    · split at he
      · simp at he
      · simp only [List.mem_singleton] at he
        subst he; simp [startsWith, String.data_append, List.isPrefixOf]
    · exact ih _ e he

theorem externalLinkEntries_dir (l : List SimpleOOXmlFile) : ∀ (i : Nat),
    ∀ e ∈ externalLinkEntries i l, startsWith "xl/externalLinks/" e.path = true := by
  induction l with
  | nil => intro i e he; simp [externalLinkEntries] at he
  | cons link rest ih =>
    intro i e he
    simp only [externalLinkEntries, List.mem_append, List.mem_cons] at he
    rcases he with (he | he) | he
    · subst he; simp [startsWith, String.data_append, List.isPrefixOf]
    · split at he
      · simp at he
      · simp only [List.mem_singleton] at he
        subst he; simp [startsWith, String.data_append, List.isPrefixOf]
    · exact ih _ e he

theorem drawingEntries_dir (ctx : AnchorContext) (l : List Drawing) : ∀ (i : Nat),
    ∀ e ∈ drawingEntries ctx i l, startsWith "xl/drawings/" e.path = true := by
  induction l with
  | nil => intro i e he; simp [drawingEntries] at he
  | cons d rest ih =>
    intro i e he
    simp only [drawingEntries, List.mem_append, List.mem_cons] at he
    rcases he with (he | he) | he
    · subst he; simp [startsWith, String.data_append, List.isPrefixOf]
    · split at he
      · simp at he
      · simp only [List.mem_singleton] at he
        subst he; simp [startsWith, String.data_append, List.isPrefixOf]
    · exact ih _ e he

theorem chartEntries_dir (charts : ChartPtr → Chart) (l : List ChartPtr) : ∀ (i : Nat),
    ∀ e ∈ chartEntries charts i l, startsWith "xl/charts/" e.path = true := by
  induction l with
  | nil => intro i e he; simp [chartEntries] at he
  | cons cf rest ih =>
    intro i e he
    simp only [chartEntries, List.mem_cons] at he
    rcases he with he | he
    · subst he; simp [startsWith, String.data_append, List.isPrefixOf]
    · exact ih _ e he

theorem mediaEntries_dir (media : MediaPtr → MediaFile) (l : List MediaPtr) :
    ∀ e ∈ mediaEntries media l, startsWith "xl/media/" e.path = true := by
  intro e he
  simp only [mediaEntries, List.mem_map] at he
  obtain ⟨p, _, rfl⟩ := he
  simp [startsWith, mediaPath, String.data_append, List.isPrefixOf]

theorem oleFileEntries_dir (l : List AbstractSheet) :
    ∀ e ∈ oleFileEntries l, startsWith "xl/embeddings/" e.path = true := by
  intro e he
  simp only [oleFileEntries, oleEntries, List.mem_flatMap, List.mem_map] at he
  obtain ⟨sheet, _, obj, _, rfl⟩ := he
  simp [startsWith, String.data_append, List.isPrefixOf]

theorem sharedStringsEntries_filter (cat : String) (s : SharedStrings)
    (h : isBodyIn cat ⟨"xl/sharedStrings.xml", .sharedStrings s⟩ = false) :
    (sharedStringsEntries s).filter (isBodyIn cat) = [] := by
  unfold sharedStringsEntries
  split
  · rfl
  · simp [h]

/-! ## Decimal numbers in part names -/

theorem digitChar_value (k : Nat) (h : k < 10) : (Nat.digitChar k).toNat - 48 = k := by
  interval_cases k <;> rfl

theorem decimalValue_toDigitsCore : ∀ (fuel n : Nat) (ds : List Char), n < fuel →
    decimalValue 0 (Nat.toDigitsCore 10 fuel n ds) = decimalValue n ds := by
  intro fuel
  induction fuel with
  | zero => intro n ds h; omega
  | succ fuel ih =>
    intro n ds h
    simp only [Nat.toDigitsCore]
    split
    · rename_i h0
      have hn : n < 10 := by
        rcases Nat.lt_or_ge n 10 with h1 | h1
        · exact h1
        · have := Nat.div_pos h1 (by decide : 0 < 10); omega
      rw [Nat.mod_eq_of_lt hn]
      simp [decimalValue, digitChar_value n hn]
    · rename_i h0
      have hlt : n / 10 < fuel := by
        have : n / 10 < n := Nat.div_lt_self (by omega) (by decide)
        omega
      rw [ih (n / 10) _ hlt]
      simp only [decimalValue, List.foldl_cons,
        digitChar_value (n % 10) (Nat.mod_lt _ (by decide))]
      congr 1
      omega

theorem decimalValue_toDigits (n : Nat) : decimalValue 0 (Nat.toDigits 10 n) = n := by
  have h := decimalValue_toDigitsCore (n + 1) n [] (by omega)
  simpa [decimalValue, Nat.toDigits] using h

theorem toString_nat_injective (n m : Nat) (h : toString n = toString m) : n = m := by
  have h1 : (Nat.toDigits 10 n) = (Nat.toDigits 10 m) := by
    have := congrArg String.data h
    simpa [toString, Nat.repr, List.asString] using this
  rw [← decimalValue_toDigits n, ← decimalValue_toDigits m, h1]

theorem numberedName_injective (stem ext : String) (n m : Nat)
    (h : stem ++ toString n ++ ext = stem ++ toString m ++ ext) : n = m := by
  apply toString_nat_injective
  have := congrArg String.data h
  simp only [String.data_append, List.append_assoc, List.append_cancel_left_eq,
    List.append_cancel_right_eq] at this
  exact String.ext this

/-! ## Numbered entries -/

theorem numberedEntries_length (stem ext : String) (l : List PartData) :
    (numberedEntries stem ext l).length = l.length := by
  simp [numberedEntries]

theorem zipWith_numbered_paths (stem ext : String) (l : List PartData) : ∀ (k : Nat),
    (List.zipWith (fun n x => (⟨stem ++ toString n ++ ext, x⟩ : ZipEntry))
      (List.range' k l.length) l).map ZipEntry.path =
      (List.range' k l.length).map fun n => stem ++ toString n ++ ext := by
  induction l with
  | nil => intro k; simp
  | cons x rest ih => intro k; simp [List.range'_succ, ih]

theorem numberedEntries_paths (stem ext : String) (l : List PartData) :
    (numberedEntries stem ext l).map ZipEntry.path =
      (List.range' 1 l.length).map fun n => stem ++ toString n ++ ext :=
  zipWith_numbered_paths stem ext l 1

theorem numberedEntries_paths_nodup (stem ext : String) (l : List PartData) :
    ((numberedEntries stem ext l).map ZipEntry.path).Nodup := by
  rw [numberedEntries_paths]
  exact (List.nodup_range' 1 l.length).map fun a b hab => numberedName_injective stem ext a b hab

/-! ## Body files of each numbered category -/

theorem worksheetEntries_filter (l : List AbstractSheet) : ∀ (i : Nat),
    (worksheetEntries i l).filter (isBodyIn "xl/worksheets/") =
      List.zipWith (fun n x => (⟨"xl/worksheets/sheet" ++ toString n ++ ".xml", x⟩ : ZipEntry))
        (List.range' (i + 1) l.length) (l.map fun s => PartData.bytes s.xmlData) := by
  induction l with
  | nil => intro i; simp [worksheetEntries]
  | cons sheet rest ih =>
    intro i
    simp only [worksheetEntries, List.filter_append, ih, List.length_cons, List.range'_succ,
      List.map_cons, List.zipWith_cons_cons]
    split <;>
      simp [List.filter, isBodyIn, startsWith, String.data_append, List.isPrefixOf]

theorem chartsheetEntries_filter (l : List AbstractSheet) : ∀ (i : Nat),
    (chartsheetEntries i l).filter (isBodyIn "xl/chartsheets/") =
      List.zipWith (fun n x => (⟨"xl/chartsheets/sheet" ++ toString n ++ ".xml", x⟩ : ZipEntry))
        (List.range' (i + 1) l.length) (l.map fun s => PartData.bytes s.xmlData) := by
  induction l with
  | nil => intro i; simp [chartsheetEntries]
  | cons sheet rest ih =>
    intro i
    simp only [chartsheetEntries, List.filter_append, ih, List.length_cons, List.range'_succ,
      List.map_cons, List.zipWith_cons_cons]
    split <;>
      simp [List.filter, isBodyIn, startsWith, String.data_append, List.isPrefixOf]

theorem externalLinkEntries_filter (l : List SimpleOOXmlFile) : ∀ (i : Nat),
    (externalLinkEntries i l).filter (isBodyIn "xl/externalLinks/") =
      List.zipWith
        (fun n x => (⟨"xl/externalLinks/externalLink" ++ toString n ++ ".xml", x⟩ : ZipEntry))
        (List.range' (i + 1) l.length) (l.map fun s => PartData.bytes s.xmlData) := by
  induction l with
  | nil => intro i; simp [externalLinkEntries]
  | cons link rest ih =>
    intro i
    simp only [externalLinkEntries, List.filter_append, ih, List.length_cons, List.range'_succ,
      List.map_cons, List.zipWith_cons_cons]
    split <;>
      simp [List.filter, isBodyIn, startsWith, String.data_append, List.isPrefixOf]

theorem drawingEntries_filter (ctx : AnchorContext) (l : List Drawing) : ∀ (i : Nat),
    (drawingEntries ctx i l).filter (isBodyIn "xl/drawings/") =
      List.zipWith (fun n x => (⟨"xl/drawings/drawing" ++ toString n ++ ".xml", x⟩ : ZipEntry))
        (List.range' (i + 1) l.length)
        (l.map fun d => PartData.drawing (drawingOut ctx d).writer) := by
  induction l with
  | nil => intro i; simp [drawingEntries]
  | cons d rest ih =>
    intro i
    simp only [drawingEntries, List.filter_append, ih, List.length_cons, List.range'_succ,
      List.map_cons, List.zipWith_cons_cons]
    split <;>
      simp [List.filter, isBodyIn, startsWith, String.data_append, List.isPrefixOf]

theorem chartEntries_filter (charts : ChartPtr → Chart) (l : List ChartPtr) : ∀ (i : Nat),
    (chartEntries charts i l).filter (isBodyIn "xl/charts/") =
      List.zipWith (fun n x => (⟨"xl/charts/chart" ++ toString n ++ ".xml", x⟩ : ZipEntry))
        (List.range' (i + 1) l.length) (l.map fun cf => PartData.bytes (charts cf).xmlData) := by
  induction l with
  | nil => intro i; simp [chartEntries]
  | cons cf rest ih =>
    intro i
    simp only [chartEntries, ih, List.length_cons, List.range'_succ,
      List.map_cons, List.zipWith_cons_cons]
    simp [List.filter, isBodyIn, startsWith, String.data_append, List.isPrefixOf, ih]

/-! ## Filtering the whole archive by category -/

theorem savePackage_filter_worksheets (ct : ContentTypes) (wb : Workbook) (props : QMap)
    (res : SaveResult) (h : savePackage ⟨some ct, some wb, props⟩ false = some res) :
    res.zip.filter (isBodyIn "xl/worksheets/") =
      (worksheetEntries 0 (wb.getSheetsByTypes .ST_WorkSheet)).filter (isBodyIn "xl/worksheets/") ++
      ((chartsheetEntries 0 (wb.getSheetsByTypes .ST_ChartSheet)).filter (isBodyIn "xl/worksheets/") ++
      ((externalLinkEntries 0 wb.externalLinks).filter (isBodyIn "xl/worksheets/") ++
      ((drawingEntries wb.anchorContext 0 wb.drawings).filter (isBodyIn "xl/worksheets/") ++
      (chartEntries wb.charts 0 wb.chartFiles).filter (isBodyIn "xl/worksheets/")))) := by
  obtain ⟨app, core, _, hz⟩ := savePackage_zip ct wb props res h
  have hm := filter_isBodyIn_eq_nil "xl/worksheets/" "xl/media/" _ (mediaEntries_dir wb.media wb.mediaFiles)
    (by decide) (by decide)
  have ho := filter_isBodyIn_eq_nil "xl/worksheets/" "xl/embeddings/" _
    (oleFileEntries_dir (wb.getSheetsByTypes .ST_WorkSheet)) (by decide) (by decide)
  have hs := sharedStringsEntries_filter "xl/worksheets/" wb.sharedStrings
    (by simp [isBodyIn, startsWith, List.isPrefixOf])
  rw [hz]
  simp only [List.filter_append, hm, ho, hs, List.append_nil, List.nil_append]
  simp [List.filter, isBodyIn, startsWith, List.isPrefixOf]

theorem savePackage_filter_chartsheets (ct : ContentTypes) (wb : Workbook) (props : QMap)
    (res : SaveResult) (h : savePackage ⟨some ct, some wb, props⟩ false = some res) :
    res.zip.filter (isBodyIn "xl/chartsheets/") =
      (worksheetEntries 0 (wb.getSheetsByTypes .ST_WorkSheet)).filter (isBodyIn "xl/chartsheets/") ++
      ((chartsheetEntries 0 (wb.getSheetsByTypes .ST_ChartSheet)).filter (isBodyIn "xl/chartsheets/") ++
      ((externalLinkEntries 0 wb.externalLinks).filter (isBodyIn "xl/chartsheets/") ++
      ((drawingEntries wb.anchorContext 0 wb.drawings).filter (isBodyIn "xl/chartsheets/") ++
      (chartEntries wb.charts 0 wb.chartFiles).filter (isBodyIn "xl/chartsheets/")))) := by
  obtain ⟨app, core, _, hz⟩ := savePackage_zip ct wb props res h
  have hm := filter_isBodyIn_eq_nil "xl/chartsheets/" "xl/media/" _ (mediaEntries_dir wb.media wb.mediaFiles)
    (by decide) (by decide)
  have ho := filter_isBodyIn_eq_nil "xl/chartsheets/" "xl/embeddings/" _
    (oleFileEntries_dir (wb.getSheetsByTypes .ST_WorkSheet)) (by decide) (by decide)
  have hs := sharedStringsEntries_filter "xl/chartsheets/" wb.sharedStrings
    (by simp [isBodyIn, startsWith, List.isPrefixOf])
  rw [hz]
  simp only [List.filter_append, hm, ho, hs, List.append_nil, List.nil_append]
  simp [List.filter, isBodyIn, startsWith, List.isPrefixOf]

theorem savePackage_filter_externalLinks (ct : ContentTypes) (wb : Workbook) (props : QMap)
    (res : SaveResult) (h : savePackage ⟨some ct, some wb, props⟩ false = some res) :
    res.zip.filter (isBodyIn "xl/externalLinks/") =
      (worksheetEntries 0 (wb.getSheetsByTypes .ST_WorkSheet)).filter (isBodyIn "xl/externalLinks/") ++
      ((chartsheetEntries 0 (wb.getSheetsByTypes .ST_ChartSheet)).filter (isBodyIn "xl/externalLinks/") ++
      ((externalLinkEntries 0 wb.externalLinks).filter (isBodyIn "xl/externalLinks/") ++
      ((drawingEntries wb.anchorContext 0 wb.drawings).filter (isBodyIn "xl/externalLinks/") ++
      (chartEntries wb.charts 0 wb.chartFiles).filter (isBodyIn "xl/externalLinks/")))) := by
  obtain ⟨app, core, _, hz⟩ := savePackage_zip ct wb props res h
  have hm := filter_isBodyIn_eq_nil "xl/externalLinks/" "xl/media/" _ (mediaEntries_dir wb.media wb.mediaFiles)
    (by decide) (by decide)
  have ho := filter_isBodyIn_eq_nil "xl/externalLinks/" "xl/embeddings/" _
    (oleFileEntries_dir (wb.getSheetsByTypes .ST_WorkSheet)) (by decide) (by decide)
  have hs := sharedStringsEntries_filter "xl/externalLinks/" wb.sharedStrings
    (by simp [isBodyIn, startsWith, List.isPrefixOf])
  rw [hz]
  simp only [List.filter_append, hm, ho, hs, List.append_nil, List.nil_append]
  simp [List.filter, isBodyIn, startsWith, List.isPrefixOf]

theorem savePackage_filter_drawings (ct : ContentTypes) (wb : Workbook) (props : QMap)
    (res : SaveResult) (h : savePackage ⟨some ct, some wb, props⟩ false = some res) :
    res.zip.filter (isBodyIn "xl/drawings/") =
      (worksheetEntries 0 (wb.getSheetsByTypes .ST_WorkSheet)).filter (isBodyIn "xl/drawings/") ++
      ((chartsheetEntries 0 (wb.getSheetsByTypes .ST_ChartSheet)).filter (isBodyIn "xl/drawings/") ++
      ((externalLinkEntries 0 wb.externalLinks).filter (isBodyIn "xl/drawings/") ++
      ((drawingEntries wb.anchorContext 0 wb.drawings).filter (isBodyIn "xl/drawings/") ++
      (chartEntries wb.charts 0 wb.chartFiles).filter (isBodyIn "xl/drawings/")))) := by
  obtain ⟨app, core, _, hz⟩ := savePackage_zip ct wb props res h
  have hm := filter_isBodyIn_eq_nil "xl/drawings/" "xl/media/" _ (mediaEntries_dir wb.media wb.mediaFiles)
    (by decide) (by decide)
  have ho := filter_isBodyIn_eq_nil "xl/drawings/" "xl/embeddings/" _
    (oleFileEntries_dir (wb.getSheetsByTypes .ST_WorkSheet)) (by decide) (by decide)
  have hs := sharedStringsEntries_filter "xl/drawings/" wb.sharedStrings
    (by simp [isBodyIn, startsWith, List.isPrefixOf])
  rw [hz]
  simp only [List.filter_append, hm, ho, hs, List.append_nil, List.nil_append]
  simp [List.filter, isBodyIn, startsWith, List.isPrefixOf]

theorem savePackage_filter_charts (ct : ContentTypes) (wb : Workbook) (props : QMap)
    (res : SaveResult) (h : savePackage ⟨some ct, some wb, props⟩ false = some res) :
    res.zip.filter (isBodyIn "xl/charts/") =
      (worksheetEntries 0 (wb.getSheetsByTypes .ST_WorkSheet)).filter (isBodyIn "xl/charts/") ++
      ((chartsheetEntries 0 (wb.getSheetsByTypes .ST_ChartSheet)).filter (isBodyIn "xl/charts/") ++
      ((externalLinkEntries 0 wb.externalLinks).filter (isBodyIn "xl/charts/") ++
      ((drawingEntries wb.anchorContext 0 wb.drawings).filter (isBodyIn "xl/charts/") ++
      (chartEntries wb.charts 0 wb.chartFiles).filter (isBodyIn "xl/charts/")))) := by
  obtain ⟨app, core, _, hz⟩ := savePackage_zip ct wb props res h
  have hm := filter_isBodyIn_eq_nil "xl/charts/" "xl/media/" _ (mediaEntries_dir wb.media wb.mediaFiles)
    (by decide) (by decide)
  have ho := filter_isBodyIn_eq_nil "xl/charts/" "xl/embeddings/" _
    (oleFileEntries_dir (wb.getSheetsByTypes .ST_WorkSheet)) (by decide) (by decide)
  have hs := sharedStringsEntries_filter "xl/charts/" wb.sharedStrings
    (by simp [isBodyIn, startsWith, List.isPrefixOf])
  rw [hz]
  simp only [List.filter_append, hm, ho, hs, List.append_nil, List.nil_append]
  simp [List.filter, isBodyIn, startsWith, List.isPrefixOf]

/-! ## The numbered body files of the archive -/

theorem savePackage_body_worksheets (ct : ContentTypes) (wb : Workbook) (props : QMap)
    (res : SaveResult) (h : savePackage ⟨some ct, some wb, props⟩ false = some res) :
    res.zip.filter (isBodyIn "xl/worksheets/") =
      numberedEntries "xl/worksheets/sheet" ".xml"
        ((wb.getSheetsByTypes .ST_WorkSheet).map fun s => PartData.bytes s.xmlData) := by
  rw [savePackage_filter_worksheets ct wb props res h, worksheetEntries_filter,
      filter_isBodyIn_eq_nil _ _ _ (chartsheetEntries_dir _ 0) (by decide) (by decide),
      filter_isBodyIn_eq_nil _ _ _ (externalLinkEntries_dir _ 0) (by decide) (by decide),
      filter_isBodyIn_eq_nil _ _ _ (drawingEntries_dir _ _ 0) (by decide) (by decide),
      filter_isBodyIn_eq_nil _ _ _ (chartEntries_dir _ _ 0) (by decide) (by decide)]
  simp [numberedEntries]

theorem savePackage_body_chartsheets (ct : ContentTypes) (wb : Workbook) (props : QMap)
    (res : SaveResult) (h : savePackage ⟨some ct, some wb, props⟩ false = some res) :
    res.zip.filter (isBodyIn "xl/chartsheets/") =
      numberedEntries "xl/chartsheets/sheet" ".xml"
        ((wb.getSheetsByTypes .ST_ChartSheet).map fun s => PartData.bytes s.xmlData) := by
  rw [savePackage_filter_chartsheets ct wb props res h, chartsheetEntries_filter,
      filter_isBodyIn_eq_nil _ _ _ (worksheetEntries_dir _ 0) (by decide) (by decide),
      filter_isBodyIn_eq_nil _ _ _ (externalLinkEntries_dir _ 0) (by decide) (by decide),
      filter_isBodyIn_eq_nil _ _ _ (drawingEntries_dir _ _ 0) (by decide) (by decide),
      filter_isBodyIn_eq_nil _ _ _ (chartEntries_dir _ _ 0) (by decide) (by decide)]
  simp [numberedEntries]

theorem savePackage_body_externalLinks (ct : ContentTypes) (wb : Workbook) (props : QMap)
    (res : SaveResult) (h : savePackage ⟨some ct, some wb, props⟩ false = some res) :
    res.zip.filter (isBodyIn "xl/externalLinks/") =
      numberedEntries "xl/externalLinks/externalLink" ".xml"
        (wb.externalLinks.map fun s => PartData.bytes s.xmlData) := by
  rw [savePackage_filter_externalLinks ct wb props res h, externalLinkEntries_filter,
      filter_isBodyIn_eq_nil _ _ _ (worksheetEntries_dir _ 0) (by decide) (by decide),
      filter_isBodyIn_eq_nil _ _ _ (chartsheetEntries_dir _ 0) (by decide) (by decide),
      filter_isBodyIn_eq_nil _ _ _ (drawingEntries_dir _ _ 0) (by decide) (by decide),
      filter_isBodyIn_eq_nil _ _ _ (chartEntries_dir _ _ 0) (by decide) (by decide)]
  simp [numberedEntries]

theorem savePackage_body_drawings (ct : ContentTypes) (wb : Workbook) (props : QMap)
    (res : SaveResult) (h : savePackage ⟨some ct, some wb, props⟩ false = some res) :
    res.zip.filter (isBodyIn "xl/drawings/") =
      numberedEntries "xl/drawings/drawing" ".xml"
        (wb.drawings.map fun d => PartData.drawing (drawingOut wb.anchorContext d).writer) := by
  rw [savePackage_filter_drawings ct wb props res h, drawingEntries_filter,
      filter_isBodyIn_eq_nil _ _ _ (worksheetEntries_dir _ 0) (by decide) (by decide),
      filter_isBodyIn_eq_nil _ _ _ (chartsheetEntries_dir _ 0) (by decide) (by decide),
      filter_isBodyIn_eq_nil _ _ _ (externalLinkEntries_dir _ 0) (by decide) (by decide),
      filter_isBodyIn_eq_nil _ _ _ (chartEntries_dir _ _ 0) (by decide) (by decide)]
  simp [numberedEntries]

theorem savePackage_body_charts (ct : ContentTypes) (wb : Workbook) (props : QMap)
    (res : SaveResult) (h : savePackage ⟨some ct, some wb, props⟩ false = some res) :
    res.zip.filter (isBodyIn "xl/charts/") =
      numberedEntries "xl/charts/chart" ".xml"
        (wb.chartFiles.map fun cf => PartData.bytes (wb.charts cf).xmlData) := by
  rw [savePackage_filter_charts ct wb props res h, chartEntries_filter,
      filter_isBodyIn_eq_nil _ _ _ (worksheetEntries_dir _ 0) (by decide) (by decide),
      filter_isBodyIn_eq_nil _ _ _ (chartsheetEntries_dir _ 0) (by decide) (by decide),
      filter_isBodyIn_eq_nil _ _ _ (externalLinkEntries_dir _ 0) (by decide) (by decide),
      filter_isBodyIn_eq_nil _ _ _ (drawingEntries_dir _ _ 0) (by decide) (by decide)]
  simp [numberedEntries]

/-! ## Claims about `savePackage` -/

/-- C4: when every drawing can be serialised, `savePackage` succeeds and the body files it
writes in `xl/worksheets/`, `xl/chartsheets/`, `xl/externalLinks/`, `xl/drawings/` and
`xl/charts/` are exactly the files numbered 1..K of that category, the k-th file holding the
k-th worksheet, chartsheet, external link, drawing or chart in collection order; the file names
of one category are pairwise different. -/
theorem C4_body_files_numbered_in_order (ct : ContentTypes) (wb : Workbook) (props : QMap)
    (hdef : ∀ d ∈ wb.drawings, (d.saveToXmlData wb.anchorContext).isSome) :
    ∃ res, savePackage ⟨some ct, some wb, props⟩ false = some res ∧ res.ok = true ∧
      res.zip.filter (isBodyIn "xl/worksheets/") =
        numberedEntries "xl/worksheets/sheet" ".xml"
          ((wb.getSheetsByTypes .ST_WorkSheet).map fun s => PartData.bytes s.xmlData) ∧
      res.zip.filter (isBodyIn "xl/chartsheets/") =
        numberedEntries "xl/chartsheets/sheet" ".xml"
          ((wb.getSheetsByTypes .ST_ChartSheet).map fun s => PartData.bytes s.xmlData) ∧
      res.zip.filter (isBodyIn "xl/externalLinks/") =
        numberedEntries "xl/externalLinks/externalLink" ".xml"
          (wb.externalLinks.map fun s => PartData.bytes s.xmlData) ∧
      res.zip.filter (isBodyIn "xl/drawings/") =
        numberedEntries "xl/drawings/drawing" ".xml"
          (wb.drawings.map fun d => PartData.drawing (drawingOut wb.anchorContext d).writer) ∧
      res.zip.filter (isBodyIn "xl/charts/") =
        numberedEntries "xl/charts/chart" ".xml"
          (wb.chartFiles.map fun cf => PartData.bytes (wb.charts cf).xmlData) ∧
      ∀ dir ∈ ["xl/worksheets/", "xl/chartsheets/", "xl/externalLinks/", "xl/drawings/",
          "xl/charts/"], ((res.zip.filter (isBodyIn dir)).map ZipEntry.path).Nodup := by
  obtain ⟨res, hres⟩ := Option.isSome_iff_exists.1 (savePackage_isSome ct wb props hdef)
  obtain ⟨app, core, hok, _⟩ := savePackage_zip ct wb props res hres
  have e1 := savePackage_body_worksheets ct wb props res hres
  have e2 := savePackage_body_chartsheets ct wb props res hres
  have e3 := savePackage_body_externalLinks ct wb props res hres
  have e4 := savePackage_body_drawings ct wb props res hres
  have e5 := savePackage_body_charts ct wb props res hres
  refine ⟨res, hres, hok, e1, e2, e3, e4, e5, ?_⟩
  intro dir hdir
  simp only [List.mem_cons, List.mem_singleton, List.not_mem_nil, or_false] at hdir
  rcases hdir with rfl | rfl | rfl | rfl | rfl
  · rw [e1]; exact numberedEntries_paths_nodup _ _ _
  · rw [e2]; exact numberedEntries_paths_nodup _ _ _
  · rw [e3]; exact numberedEntries_paths_nodup _ _ _
  · rw [e4]; exact numberedEntries_paths_nodup _ _ _
  · rw [e5]; exact numberedEntries_paths_nodup _ _ _

theorem toString_int_natCast (n : Nat) : toString (n : Int) = toString n := rfl

theorem indexOf_of_mem (c : Nat) (l : List Nat) (h : c ∈ l) :
    ∃ k, ∃ hk : k < l.length, indexOf c l = (k : Int) ∧ l[k] = c := by
  induction l with
  | nil => simp at h
  | cons y ys ih =>
    by_cases hy : y = c
    · exact ⟨0, by simp, by simp [indexOf, hy], by simp [hy]⟩
    · have hc : c ∈ ys := by
        rcases List.mem_cons.1 h with h1 | h1
        · exact absurd h1.symm hy
        · exact h1
      obtain ⟨k, hk, hidx, hget⟩ := ih hc
      refine ⟨k + 1, by simp [hk], ?_, by simp [hget]⟩
      simp only [indexOf, hy, if_false, hidx]
      have : ¬ ((k : Int) = -1) := by omega
      simp [this]

theorem chartEntries_mem (charts : ChartPtr → Chart) (l : List ChartPtr) :
    ∀ (i k : Nat) (hk : k < l.length),
      (⟨"xl/charts/chart" ++ toString (i + k + 1) ++ ".xml",
        .bytes (charts l[k]).xmlData⟩ : ZipEntry) ∈ chartEntries charts i l := by
  induction l with
  | nil => intro i k hk; simp at hk
  | cons cf rest ih =>
    intro i k hk
    cases k with
    | zero => simp [chartEntries]
    | succ k =>
      simp only [chartEntries, List.mem_cons, List.getElem_cons_succ]
      right
      have := ih (i + 1) k (by simpa using hk)
      rwa [show i + 1 + k + 1 = i + (k + 1) + 1 by omega] at this

theorem mediaEntries_filter (media : MediaPtr → MediaFile) (l : List MediaPtr) :
    (mediaEntries media l).filter (isBodyIn "xl/media/") = mediaEntries media l := by
  rw [List.filter_eq_self]
  intro e he
  simp only [mediaEntries, List.mem_map] at he
  obtain ⟨p, _, rfl⟩ := he
  simp [isBodyIn, startsWith, mediaPath, String.data_append, List.isPrefixOf]

theorem savePackage_filter_media (ct : ContentTypes) (wb : Workbook) (props : QMap)
    (res : SaveResult) (h : savePackage ⟨some ct, some wb, props⟩ false = some res) :
    res.zip.filter (isBodyIn "xl/media/") = mediaEntries wb.media wb.mediaFiles := by
  obtain ⟨app, core, _, hz⟩ := savePackage_zip ct wb props res h
  have nil := fun (dir : String) (es : List ZipEntry) h h1 h2 =>
    filter_isBodyIn_eq_nil "xl/media/" dir es h h1 h2
  rw [hz]
  simp only [List.filter_append, mediaEntries_filter,
    nil _ _ (worksheetEntries_dir _ 0) (by decide) (by decide),
    nil _ _ (chartsheetEntries_dir _ 0) (by decide) (by decide),
    nil _ _ (externalLinkEntries_dir _ 0) (by decide) (by decide),
    nil _ _ (drawingEntries_dir _ _ 0) (by decide) (by decide),
    nil _ _ (chartEntries_dir _ _ 0) (by decide) (by decide),
    nil _ _ (oleFileEntries_dir _) (by decide) (by decide),
    sharedStringsEntries_filter "xl/media/" wb.sharedStrings
      (by simp [isBodyIn, startsWith, List.isPrefixOf]),
    List.append_nil, List.nil_append]
  simp [List.filter, isBodyIn, startsWith, List.isPrefixOf]

theorem mediaEntries_numbered (media : MediaPtr → MediaFile) (l : List MediaPtr) :
    ∀ (k : Nat), (∀ (i : Nat) (h : i < l.length), (media l[i]).index = ((k + i : Nat) : Int)) →
      mediaEntries media l =
        List.zipWith (fun n p => (⟨"xl/media/image" ++ toString n ++ "." ++ (media p).suffix,
          .bytes (media p).contents⟩ : ZipEntry)) (List.range' (k + 1) l.length) l := by
  induction l with
  | nil => intro k _; simp [mediaEntries]
  | cons p rest ih =>
    intro k h
    have h0 := h 0 (by simp)
    simp only [List.getElem_cons_zero, Nat.add_zero] at h0
    have hrest := ih (k + 1) (fun i hi => by
      have := h (i + 1) (by simpa using hi)
      simp only [List.getElem_cons_succ] at this
      rw [this]; congr 1; omega)
    simp only [mediaEntries, List.map_cons, List.length_cons, List.range'_succ,
      List.zipWith_cons_cons] at hrest ⊢
    rw [hrest]
    simp only [mediaPath, h0]
    rw [show ((k : Int) + 1) = ((k + 1 : Nat) : Int) by push_cast; rfl, toString_int_natCast]

/-- C3: serialising a Picture anchor (with a picture) or a GraphicFrame anchor appends exactly
one relationship to the drawing's list, whose id is `rId{n+1}` for a list of `n` entries
before the call, and emits exactly one `r:embed` (picture) or `r:id` (graphic frame) attribute,
whose value is that id. -/
theorem C3_emitted_rid_is_appended_relationship (ctx : AnchorContext) (a : DrawingAnchor)
    (s : AnchorOut)
    (h : (a.m_objectType = .Picture ∧ a.m_pictureFile.isSome) ∨
      a.m_objectType = .GraphicFrame) :
    ∃ out r toks, a.saveXmlObject ctx s = some out ∧
      out.relationships.m_relationships = s.relationships.m_relationships ++ [r] ∧
      out.relationships.count = s.relationships.count + 1 ∧
      r.id = "rId" ++ toString (s.relationships.count + 1) ∧
      out.writer = s.writer ++ toks ∧
      XmlToken.attributeValues "r:embed" toks ++ XmlToken.attributeValues "r:id" toks = [r.id] ∧
      (a.m_objectType = .Picture → XmlToken.attributeValues "r:embed" toks = [r.id]) ∧
      (a.m_objectType = .GraphicFrame → XmlToken.attributeValues "r:id" toks = [r.id]) := by
  rcases h with ⟨hty, hp⟩ | hty
  · obtain ⟨p, hp⟩ := Option.isSome_iff_exists.1 hp
    obtain ⟨toks, hout, he, hi⟩ := saveXmlObjectPicture_eq ctx a s p hty hp
    refine ⟨⟨s.relationships.addDocumentRelationship "/image"
        (DrawingAnchor.pictureTarget (ctx.media p)), s.writer ++ toks⟩,
      ⟨"rId" ++ toString (s.relationships.count + 1), schema_doc ++ "/image",
      DrawingAnchor.pictureTarget (ctx.media p), ""⟩, toks, ?_, rfl,
      addDocumentRelationship_count _ _ _, rfl, rfl, ?_, ?_, ?_⟩
    · simp only [DrawingAnchor.saveXmlObject, hty]; exact hout
    · simp [he, hi]
    · intro _; exact he
    · intro h2; rw [hty] at h2; cases h2
  · obtain ⟨toks, hout, hi, he⟩ := saveXmlObjectGraphicFrame_eq ctx a s
    refine ⟨⟨s.relationships.addDocumentRelationship "/chart"
        (DrawingAnchor.chartTarget ctx a), s.writer ++ toks⟩,
      ⟨"rId" ++ toString (s.relationships.count + 1), schema_doc ++ "/chart",
      DrawingAnchor.chartTarget ctx a, ""⟩, toks, ?_, rfl,
      addDocumentRelationship_count _ _ _, rfl, rfl, ?_, ?_, ?_⟩
    · simp only [DrawingAnchor.saveXmlObject, hty]; rw [hout]
    · simp [he, hi]
    · intro h2; rw [hty] at h2; cases h2
    · intro _; exact hi

/-- Witness of C3 on the picture anchor of the sample workbook. -/
theorem C3_emitted_rid_witness :
    ((samplePictureAnchor.m_objectType = .Picture ∧ samplePictureAnchor.m_pictureFile.isSome) ∨
      samplePictureAnchor.m_objectType = .GraphicFrame) ∧
    ∃ out r toks, samplePictureAnchor.saveXmlObject sampleWorkbook.anchorContext
        ⟨Relationships.empty, []⟩ = some out ∧
      out.relationships.m_relationships = Relationships.empty.m_relationships ++ [r] ∧
      out.relationships.count = Relationships.empty.count + 1 ∧
      r.id = "rId" ++ toString (Relationships.empty.count + 1) ∧
      out.writer = [] ++ toks ∧
      XmlToken.attributeValues "r:embed" toks ++ XmlToken.attributeValues "r:id" toks = [r.id] ∧
      (samplePictureAnchor.m_objectType = .Picture →
        XmlToken.attributeValues "r:embed" toks = [r.id]) ∧
      (samplePictureAnchor.m_objectType = .GraphicFrame →
        XmlToken.attributeValues "r:id" toks = [r.id]) :=
  ⟨by decide, C3_emitted_rid_is_appended_relationship sampleWorkbook.anchorContext
    samplePictureAnchor ⟨Relationships.empty, []⟩ (by decide)⟩

/-- C1: for a Picture anchor whose media file `m` is in the workbook's media collection, the
relationship appended by `saveXmlObjectPicture` has target
`../media/image{m.index+1}.{m.suffix}`, and that target resolved against `xl/drawings` is the
path of an archive entry written by `savePackage` on the same workbook, holding `m`'s
contents. -/
theorem C1_picture_target_is_written_media_path (ct : ContentTypes) (wb : Workbook)
    (props : QMap) (a : DrawingAnchor) (p : MediaPtr) (s : AnchorOut)
    (hdef : ∀ d ∈ wb.drawings, (d.saveToXmlData wb.anchorContext).isSome)
    (hty : a.m_objectType = .Picture) (hp : a.m_pictureFile = some p)
    (hmem : p ∈ wb.mediaFiles) :
    ∃ res out r, savePackage ⟨some ct, some wb, props⟩ false = some res ∧
      a.saveXmlObjectPicture wb.anchorContext s = some out ∧
      out.relationships.m_relationships = s.relationships.m_relationships ++ [r] ∧
      r.target = "../media/image" ++ toString ((wb.media p).index + 1) ++ "." ++
        (wb.media p).suffix ∧
      resolveTarget "xl/drawings" r.target =
        "xl/media/image" ++ toString ((wb.media p).index + 1) ++ "." ++ (wb.media p).suffix ∧
      (⟨resolveTarget "xl/drawings" r.target, .bytes (wb.media p).contents⟩ : ZipEntry) ∈
        res.zip := by
  obtain ⟨res, hres⟩ := Option.isSome_iff_exists.1 (savePackage_isSome ct wb props hdef)
  obtain ⟨toks, hout, _, _⟩ := saveXmlObjectPicture_eq wb.anchorContext a s p hty hp
  have hfilter := savePackage_filter_media ct wb props res hres
  have hin : (⟨mediaPath (wb.media p), .bytes (wb.media p).contents⟩ : ZipEntry) ∈ res.zip := by
    have : (⟨mediaPath (wb.media p), .bytes (wb.media p).contents⟩ : ZipEntry) ∈
        mediaEntries wb.media wb.mediaFiles := by
      simp only [mediaEntries, List.mem_map]
      exact ⟨p, hmem, rfl⟩
    rw [← hfilter] at this
    exact (List.mem_filter.1 this).1
  refine ⟨res, _, ⟨"rId" ++ toString (s.relationships.count + 1), schema_doc ++ "/image",
    DrawingAnchor.pictureTarget (wb.media p), ""⟩, hres, hout, rfl, rfl, ?_, ?_⟩
  · exact resolveTarget_pictureTarget (wb.media p)
  · show (⟨resolveTarget "xl/drawings" (DrawingAnchor.pictureTarget (wb.media p)), _⟩ :
      ZipEntry) ∈ res.zip
    rw [resolveTarget_pictureTarget]
    exact hin

/-- Witness of C1 on the sample workbook and its picture anchor. -/
theorem C1_picture_target_witness :
    (∀ d ∈ sampleWorkbook.drawings, (d.saveToXmlData sampleWorkbook.anchorContext).isSome) ∧
    samplePictureAnchor.m_objectType = .Picture ∧
    samplePictureAnchor.m_pictureFile = some 0 ∧ 0 ∈ sampleWorkbook.mediaFiles ∧
    ∃ res out r, savePackage ⟨some sampleContentTypes, some sampleWorkbook, []⟩ false = some res ∧
      samplePictureAnchor.saveXmlObjectPicture sampleWorkbook.anchorContext
        ⟨Relationships.empty, []⟩ = some out ∧
      out.relationships.m_relationships = Relationships.empty.m_relationships ++ [r] ∧
      r.target = "../media/image" ++ toString ((sampleWorkbook.media 0).index + 1) ++ "." ++
        (sampleWorkbook.media 0).suffix ∧
      resolveTarget "xl/drawings" r.target =
        "xl/media/image" ++ toString ((sampleWorkbook.media 0).index + 1) ++ "." ++
          (sampleWorkbook.media 0).suffix ∧
      (⟨resolveTarget "xl/drawings" r.target, .bytes (sampleWorkbook.media 0).contents⟩ :
        ZipEntry) ∈ res.zip :=
  ⟨by decide, by decide, by decide, by decide,
    C1_picture_target_is_written_media_path sampleContentTypes sampleWorkbook []
      samplePictureAnchor 0 ⟨Relationships.empty, []⟩ (by decide) (by decide) (by decide)
      (by decide)⟩

/-- C2 fails on the code: a GraphicFrame anchor without a chart, in a workbook that holds one
chart, gets the target `../charts/chart0.xml`, so N = 0; `savePackage` writes the relationship
part of the drawing with that target and no file at `xl/charts/chart0.xml`: the only chart file
is `xl/charts/chart1.xml`. `saveXmlObjectGraphicFrame` does not test the result of `indexOf`,
while `saveXmlObjectPicture` asserts that its picture is not null. -/
theorem C2_chartless_frame_targets_chart0 :
    danglingChartAnchor.m_objectType = .GraphicFrame ∧
    (danglingChartAnchor.saveXmlObjectGraphicFrame danglingChartWorkbook.anchorContext
      ⟨Relationships.empty, []⟩).relationships.m_relationships.map XlsxRelationship.target =
        ["../charts/chart0.xml"] ∧
    resolveTarget "xl/drawings" "../charts/chart0.xml" = "xl/charts/chart0.xml" ∧
    (savePackage ⟨some sampleContentTypes, some danglingChartWorkbook, []⟩ false).map
      (fun res => (res.zip.filter (isBodyIn "xl/charts/")).map ZipEntry.path) =
        some ["xl/charts/chart1.xml"] ∧
    (savePackage ⟨some sampleContentTypes, some danglingChartWorkbook, []⟩ false).map
      (fun res => (res.zip.filter fun e =>
        e.path = "xl/drawings/_rels/drawing1.xml.rels").map ZipEntry.data) =
        some [.relationships ⟨[⟨"rId1", schema_doc ++ "/chart", "../charts/chart0.xml", ""⟩]⟩] := by
  refine ⟨by decide, by decide, by decide, by decide, by decide⟩

/-- For a GraphicFrame anchor whose chart `c` is in the workbook's chart
collection, the relationship appended by `saveXmlObjectGraphicFrame` has target
`../charts/chart{N}.xml` where N - 1 is a position of `c` in the collection, 1 <= N <= number of
charts, and that target resolved against `xl/drawings` is the path of an archive entry written
by `savePackage` on the same workbook, holding `c`'s payload. -/
theorem chart_target_is_written_chart_path (ct : ContentTypes) (wb : Workbook)
    (props : QMap) (a : DrawingAnchor) (c : ChartPtr) (s : AnchorOut)
    (hdef : ∀ d ∈ wb.drawings, (d.saveToXmlData wb.anchorContext).isSome)
    (hc : a.m_chartFile = some c) (hmem : c ∈ wb.chartFiles) :
    ∃ res r N, savePackage ⟨some ct, some wb, props⟩ false = some res ∧
      (a.saveXmlObjectGraphicFrame wb.anchorContext s).relationships.m_relationships =
        s.relationships.m_relationships ++ [r] ∧
      r.target = "../charts/chart" ++ toString N ++ ".xml" ∧
      1 ≤ N ∧ N ≤ wb.chartFiles.length ∧ wb.chartFiles[N - 1]? = some c ∧
      resolveTarget "xl/drawings" r.target = "xl/charts/chart" ++ toString N ++ ".xml" ∧
      (⟨resolveTarget "xl/drawings" r.target, .bytes (wb.charts c).xmlData⟩ : ZipEntry) ∈
        res.zip := by
  obtain ⟨res, hres⟩ := Option.isSome_iff_exists.1 (savePackage_isSome ct wb props hdef)
  obtain ⟨k, hk, hidx, hget⟩ := indexOf_of_mem c wb.chartFiles hmem
  have htarget : DrawingAnchor.chartTarget wb.anchorContext a =
      "../charts/chart" ++ toString (k + 1) ++ ".xml" := by
    simp only [DrawingAnchor.chartTarget, Workbook.anchorContext, hc, indexOfPtr, hidx]
    rw [show ((k : Int) + 1) = ((k + 1 : Nat) : Int) by push_cast; rfl, toString_int_natCast]
  have hres2 : resolveTarget "xl/drawings" ("../charts/chart" ++ toString (k + 1) ++ ".xml") =
      "xl/charts/chart" ++ toString (k + 1) ++ ".xml" := by
    rw [String.append_assoc, resolveTarget_chart, String.append_assoc]
  have hin : (⟨"xl/charts/chart" ++ toString (k + 1) ++ ".xml",
      .bytes (wb.charts c).xmlData⟩ : ZipEntry) ∈ res.zip := by
    have h1 := chartEntries_mem wb.charts wb.chartFiles 0 k hk
    rw [hget, Nat.zero_add] at h1
    obtain ⟨app, core, _, hz⟩ := savePackage_zip ct wb props res hres
    rw [hz]
    simp only [List.mem_append]
    right; right; right; right; right; right; right; right; left
    exact h1
  refine ⟨res, ⟨"rId" ++ toString (s.relationships.count + 1), schema_doc ++ "/chart",
    "../charts/chart" ++ toString (k + 1) ++ ".xml", ""⟩, k + 1, hres, ?_, rfl, by omega,
    by omega, ?_, hres2, ?_⟩
  · simp only [DrawingAnchor.saveXmlObjectGraphicFrame, addDocumentRelationship_list, htarget]
  · simp [List.getElem?_eq_getElem hk, hget]
  · show (⟨resolveTarget "xl/drawings" ("../charts/chart" ++ toString (k + 1) ++ ".xml"), _⟩ :
      ZipEntry) ∈ res.zip
    rw [hres2]; exact hin

/-- The sample workbook and its chart anchor: the target is the path of the chart written. -/
theorem chart_target_is_written_sample :
    (∀ d ∈ sampleWorkbook.drawings, (d.saveToXmlData sampleWorkbook.anchorContext).isSome) ∧
    sampleChartAnchor.m_chartFile = some 0 ∧ 0 ∈ sampleWorkbook.chartFiles ∧
    ∃ res r N, savePackage ⟨some sampleContentTypes, some sampleWorkbook, []⟩ false = some res ∧
      (sampleChartAnchor.saveXmlObjectGraphicFrame sampleWorkbook.anchorContext
        ⟨Relationships.empty, []⟩).relationships.m_relationships =
        Relationships.empty.m_relationships ++ [r] ∧
      r.target = "../charts/chart" ++ toString N ++ ".xml" ∧
      1 ≤ N ∧ N ≤ sampleWorkbook.chartFiles.length ∧ sampleWorkbook.chartFiles[N - 1]? = some 0 ∧
      resolveTarget "xl/drawings" r.target = "xl/charts/chart" ++ toString N ++ ".xml" ∧
      (⟨resolveTarget "xl/drawings" r.target, .bytes (sampleWorkbook.charts 0).xmlData⟩ :
        ZipEntry) ∈ res.zip :=
  ⟨by decide, by decide, by decide,
    chart_target_is_written_chart_path sampleContentTypes sampleWorkbook []
      sampleChartAnchor 0 ⟨Relationships.empty, []⟩ (by decide) (by decide) (by decide)⟩

/-- C4 at `numberedWorkbook`: three worksheets and two chartsheets in mixed order, two external
links, two drawings and three charts are written under the numbers 1..K of their category, in
collection order. -/
theorem C4_body_files_witness :
    (∀ d ∈ numberedWorkbook.drawings,
      (d.saveToXmlData numberedWorkbook.anchorContext).isSome) ∧
    ∃ res, savePackage ⟨some sampleContentTypes, some numberedWorkbook, []⟩ false = some res ∧
      res.ok = true ∧
      res.zip.filter (isBodyIn "xl/worksheets/") =
        [⟨"xl/worksheets/sheet1.xml", .bytes "SHEET-A"⟩,
         ⟨"xl/worksheets/sheet2.xml", .bytes "SHEET-B"⟩,
         ⟨"xl/worksheets/sheet3.xml", .bytes "SHEET-C"⟩] ∧
      res.zip.filter (isBodyIn "xl/chartsheets/") =
        [⟨"xl/chartsheets/sheet1.xml", .bytes "CHARTSHEET-X"⟩,
         ⟨"xl/chartsheets/sheet2.xml", .bytes "CHARTSHEET-Y"⟩] ∧
      res.zip.filter (isBodyIn "xl/externalLinks/") =
        [⟨"xl/externalLinks/externalLink1.xml", .bytes "LINK-1"⟩,
         ⟨"xl/externalLinks/externalLink2.xml", .bytes "LINK-2"⟩] ∧
      res.zip.filter (isBodyIn "xl/drawings/") =
        [⟨"xl/drawings/drawing1.xml",
          .drawing (drawingOut numberedWorkbook.anchorContext
            ⟨"", Relationships.empty, [shapeAnchor], [0]⟩).writer⟩,
         ⟨"xl/drawings/drawing2.xml",
          .drawing (drawingOut numberedWorkbook.anchorContext
            ⟨"", Relationships.empty, [groupShapeAnchor, shapeAnchor], [0, 1]⟩).writer⟩] ∧
      res.zip.filter (isBodyIn "xl/charts/") =
        [⟨"xl/charts/chart1.xml", .bytes "CHART-7"⟩,
         ⟨"xl/charts/chart2.xml", .bytes "CHART-3"⟩,
         ⟨"xl/charts/chart3.xml", .bytes "CHART-5"⟩] ∧
      ∀ dir ∈ ["xl/worksheets/", "xl/chartsheets/", "xl/externalLinks/", "xl/drawings/",
          "xl/charts/"], ((res.zip.filter (isBodyIn dir)).map ZipEntry.path).Nodup := by
  refine ⟨by decide, ?_⟩
  obtain ⟨res, h1, h2, h3, h4, h5, h6, h7, h8⟩ :=
    C4_body_files_numbered_in_order sampleContentTypes numberedWorkbook [] (by decide)
  exact ⟨res, h1, h2, h3.trans (by decide), h4.trans (by decide), h5.trans (by decide),
    h6.trans (by decide), h7.trans (by decide), h8⟩

/-- The media loop of `savePackage` in terms of the stored index: it writes one entry per media
file of the collection, in collection order, at `xl/media/image{index+1}.{suffix}`, holding its
contents, and nothing else in `xl/media/`; when the stored index of every file equals its
0-based position, these are `image1 .. imageK`, the file at position i under number i+1. -/
theorem savePackage_media_under_stored_index (ct : ContentTypes) (wb : Workbook)
    (props : QMap)
    (hdef : ∀ d ∈ wb.drawings, (d.saveToXmlData wb.anchorContext).isSome) :
    ∃ res, savePackage ⟨some ct, some wb, props⟩ false = some res ∧
      res.zip.filter (isBodyIn "xl/media/") =
        wb.mediaFiles.map (fun p => (⟨"xl/media/image" ++ toString ((wb.media p).index + 1) ++
          "." ++ (wb.media p).suffix, .bytes (wb.media p).contents⟩ : ZipEntry)) ∧
      ((∀ (i : Nat) (h : i < wb.mediaFiles.length),
          (wb.media wb.mediaFiles[i]).index = (i : Int)) →
        res.zip.filter (isBodyIn "xl/media/") =
          List.zipWith (fun n p => (⟨"xl/media/image" ++ toString n ++ "." ++
            (wb.media p).suffix, .bytes (wb.media p).contents⟩ : ZipEntry))
            (List.range' 1 wb.mediaFiles.length) wb.mediaFiles) := by
  obtain ⟨res, hres⟩ := Option.isSome_iff_exists.1 (savePackage_isSome ct wb props hdef)
  have hfilter := savePackage_filter_media ct wb props res hres
  refine ⟨res, hres, ?_, ?_⟩
  · rw [hfilter]; rfl
  · intro hidx
    rw [hfilter]
    exact mediaEntries_numbered wb.media wb.mediaFiles 0 (fun i h => by simpa using hidx i h)

/-- C7: for a workbook holding exactly one worksheet with an empty relationship list and no
OLE object, no chartsheet, external link, drawing, chart or media file and an empty
shared-string table, `savePackage` succeeds and writes exactly nine entries: the nine paths of
the minimal document, each once. -/
theorem C7_minimal_document_has_nine_entries (ct : ContentTypes) (wb : Workbook)
    (props : QMap) (sheet : AbstractSheet)
    (hsheets : wb.sheets = [sheet]) (hty : sheet.sheetType = .ST_WorkSheet)
    (hrel : sheet.relationships.isEmpty = true) (hole : sheet.oleObjectFiles = [])
    (hlinks : wb.externalLinks = []) (hdrawings : wb.drawings = [])
    (hcharts : wb.chartFiles = []) (hmedia : wb.mediaFiles = [])
    (hstrings : wb.sharedStrings.isEmpty = true) :
    ∃ res, savePackage ⟨some ct, some wb, props⟩ false = some res ∧ res.ok = true ∧
      res.zip.map ZipEntry.path =
        ["xl/worksheets/sheet1.xml", "xl/workbook.xml", "xl/_rels/workbook.xml.rels",
         "docProps/app.xml", "docProps/core.xml", "xl/styles.xml", "xl/theme/theme1.xml",
         "_rels/.rels", "[Content_Types].xml"] ∧
      (res.zip.map ZipEntry.path).Perm
        ["[Content_Types].xml", "_rels/.rels", "xl/workbook.xml", "xl/_rels/workbook.xml.rels",
         "xl/styles.xml", "xl/theme/theme1.xml", "docProps/app.xml", "docProps/core.xml",
         "xl/worksheets/sheet1.xml"] := by
  have hdef : ∀ d ∈ wb.drawings, (d.saveToXmlData wb.anchorContext).isSome := by
    simp [hdrawings]
  obtain ⟨res, hres⟩ := Option.isSome_iff_exists.1 (savePackage_isSome ct wb props hdef)
  obtain ⟨app, core, hok, hz⟩ := savePackage_zip ct wb props res hres
  have hws : wb.getSheetsByTypes .ST_WorkSheet = [sheet] := by
    simp [Workbook.getSheetsByTypes, hsheets, hty]
  have hcs : wb.getSheetsByTypes .ST_ChartSheet = [] := by
    simp [Workbook.getSheetsByTypes, hsheets, hty]
  have hpaths : res.zip.map ZipEntry.path =
      ["xl/worksheets/sheet1.xml", "xl/workbook.xml", "xl/_rels/workbook.xml.rels",
       "docProps/app.xml", "docProps/core.xml", "xl/styles.xml", "xl/theme/theme1.xml",
       "_rels/.rels", "[Content_Types].xml"] := by
    rw [hz, hws, hcs, hlinks, hdrawings, hcharts, hmedia]
    simp [worksheetEntries, chartsheetEntries, externalLinkEntries, drawingEntries,
      chartEntries, mediaEntries, oleFileEntries, oleEntries, sharedStringsEntries, hrel, hole,
      hstrings]
    decide
  refine ⟨res, hres, hok, hpaths, ?_⟩
  rw [hpaths]
  decide

/-- Witness of C7 on the workbook of a new document. -/
theorem C7_minimal_document_witness :
    minimalWorkbook.sheets = [sampleSheet] ∧ sampleSheet.sheetType = .ST_WorkSheet ∧
    sampleSheet.relationships.isEmpty = true ∧ sampleSheet.oleObjectFiles = [] ∧
    minimalWorkbook.externalLinks = [] ∧ minimalWorkbook.drawings = [] ∧
    minimalWorkbook.chartFiles = [] ∧ minimalWorkbook.mediaFiles = [] ∧
    minimalWorkbook.sharedStrings.isEmpty = true ∧
    ∃ res, savePackage ⟨some sampleContentTypes, some minimalWorkbook, []⟩ false = some res ∧
      res.ok = true ∧
      res.zip.map ZipEntry.path =
        ["xl/worksheets/sheet1.xml", "xl/workbook.xml", "xl/_rels/workbook.xml.rels",
         "docProps/app.xml", "docProps/core.xml", "xl/styles.xml", "xl/theme/theme1.xml",
         "_rels/.rels", "[Content_Types].xml"] ∧
      (res.zip.map ZipEntry.path).Perm
        ["[Content_Types].xml", "_rels/.rels", "xl/workbook.xml", "xl/_rels/workbook.xml.rels",
         "xl/styles.xml", "xl/theme/theme1.xml", "docProps/app.xml", "docProps/core.xml",
         "xl/worksheets/sheet1.xml"] :=
  ⟨rfl, rfl, rfl, rfl, rfl, rfl, rfl, rfl, rfl,
    C7_minimal_document_has_nine_entries sampleContentTypes minimalWorkbook [] sampleSheet
      rfl rfl rfl rfl rfl rfl rfl rfl rfl⟩

/-! ## The content-type registry during a save -/

theorem QMap.mem_keys_insert (k v : String) (m : QMap) (k1 : String) :
    k1 ∈ (QMap.insert k v m).keys ↔ k1 = k ∨ k1 ∈ m.keys := by
  induction m with
  | nil => simp [QMap.insert, QMap.keys]
  | cons e rest ih =>
    obtain ⟨ke, ve⟩ := e
    simp only [QMap.insert]
    split
    · rename_i h; subst h; simp [QMap.keys]
    · simp only [QMap.keys, List.map_cons, List.mem_cons] at ih ⊢
      rw [ih]; tauto

theorem QMap.insert_keys_nodup (k v : String) (m : QMap) (h : m.keys.Nodup) :
    (QMap.insert k v m).keys.Nodup := by
  induction m with
  | nil => simp [QMap.insert, QMap.keys]
  | cons e rest ih =>
    obtain ⟨ke, ve⟩ := e
    simp only [QMap.keys, List.map_cons, List.nodup_cons] at h
    simp only [QMap.insert]
    split
    · rename_i hk; subst hk
      simpa [QMap.keys] using h
    · rename_i hne
      simp only [QMap.keys, List.map_cons, List.nodup_cons]
      refine ⟨?_, ih h.2⟩
      intro hmem
      rcases (QMap.mem_keys_insert k v rest ke).1 hmem with h1 | h1
      · exact hne h1.symm
      · exact h.1 h1

theorem QMap.contains_iff (m : QMap) (k : String) : m.contains k = true ↔ k ∈ m.keys := by
  simp [QMap.contains, QMap.keys]

namespace ContentTypes

theorem Grows.refl (c : ContentTypes) : Grows c c := ⟨fun _ h => h, fun _ h => h, fun h => h⟩

theorem Grows.trans {a b c : ContentTypes} (h1 : Grows a b) (h2 : Grows b c) : Grows a c :=
  ⟨fun k h => h2.1 k (h1.1 k h), fun k h => h2.2.1 k (h1.2.1 k h), fun h => h2.2.2 (h1.2.2 h)⟩

theorem Grows.addOverride (c : ContentTypes) (k v : String) : Grows c (c.addOverride k v) :=
  ⟨fun k1 h => (QMap.mem_keys_insert k v _ k1).2 (Or.inr h), fun _ h => h,
    fun h => QMap.insert_keys_nodup k v _ h⟩

theorem Grows.addDefault (c : ContentTypes) (k v : String) : Grows c (c.addDefault k v) :=
  ⟨fun _ h => h, fun k1 h => (QMap.mem_keys_insert k v _ k1).2 (Or.inr h), fun h => h⟩

theorem mem_addOverride (c : ContentTypes) (k v : String) :
    k ∈ (c.addOverride k v).m_overrides.keys :=
  (QMap.mem_keys_insert k v _ k).2 (Or.inl rfl)

theorem mem_addDefault (c : ContentTypes) (k v : String) :
    k ∈ (c.addDefault k v).m_defaults.keys :=
  (QMap.mem_keys_insert k v _ k).2 (Or.inl rfl)

end ContentTypes

open ContentTypes in
theorem saveWorksheets_grows (l : List AbstractSheet) : ∀ (i : Nat) (s : SaveState),
    Grows s.contentTypes (saveWorksheets i l s).contentTypes := by
  induction l with
  | nil => intro i s; exact Grows.refl _
  | cons sheet rest ih =>
    intro i s
    simp only [saveWorksheets]
    refine Grows.trans ?_ (ih _ _)
    split <;> exact Grows.addOverride _ _ _

open ContentTypes in
theorem saveChartsheets_grows (l : List AbstractSheet) : ∀ (i : Nat) (s : SaveState),
    Grows s.contentTypes (saveChartsheets i l s).contentTypes := by
  induction l with
  | nil => intro i s; exact Grows.refl _
  | cons sheet rest ih =>
    intro i s
    simp only [saveChartsheets]
    refine Grows.trans ?_ (ih _ _)
    split <;> exact Grows.addOverride _ _ _

open ContentTypes in
theorem saveExternalLinks_grows (l : List SimpleOOXmlFile) : ∀ (i : Nat) (s : SaveState),
    Grows s.contentTypes (saveExternalLinks i l s).contentTypes := by
  induction l with
  | nil => intro i s; exact Grows.refl _
  | cons link rest ih =>
    intro i s
    simp only [saveExternalLinks]
    refine Grows.trans ?_ (ih _ _)
    split <;> exact Grows.addOverride _ _ _

open ContentTypes in
theorem saveDrawings_grows (ctx : AnchorContext) (l : List Drawing) :
    ∀ (i : Nat) (s s1 : SaveState), saveDrawings ctx i l s = some s1 →
      Grows s.contentTypes s1.contentTypes := by
  induction l with
  | nil => intro i s s1 h; simp [saveDrawings] at h; subst h; exact Grows.refl _
  | cons d rest ih =>
    intro i s s1 h
    simp only [saveDrawings] at h
    cases hd : d.saveToXmlData ctx with
    | none => simp [hd] at h
    | some out =>
      simp only [hd] at h
      refine Grows.trans ?_ (ih _ _ _ h)
      split <;> exact Grows.addOverride _ _ _

theorem saveProperties_contentTypes (props : QMap) (l : List String) : ∀ (s : SaveState),
    (saveProperties props l s).contentTypes = s.contentTypes := by
  induction l with
  | nil => intro s; rfl
  | cons n rest ih => intro s; simp only [saveProperties, ih]

open ContentTypes in
theorem saveCharts_grows (charts : ChartPtr → Chart) (l : List ChartPtr) :
    ∀ (i : Nat) (s : SaveState), Grows s.contentTypes (saveCharts charts i l s).contentTypes := by
  induction l with
  | nil => intro i s; exact Grows.refl _
  | cons cf rest ih =>
    intro i s
    simp only [saveCharts]
    refine Grows.trans ?_ (ih _ _)
    exact Grows.addOverride _ _ _

open ContentTypes in
theorem saveMediaFiles_grows (media : MediaPtr → MediaFile) (l : List MediaPtr) :
    ∀ (s : SaveState), Grows s.contentTypes (saveMediaFiles media l s).contentTypes := by
  induction l with
  | nil => intro s; exact Grows.refl _
  | cons p rest ih =>
    intro s
    simp only [saveMediaFiles]
    refine Grows.trans ?_ (ih _)
    split
    · exact Grows.refl _
    · exact Grows.addDefault _ _ _

open ContentTypes in
theorem saveOleObjects_grows (l : List OleObject) : ∀ (s : SaveState),
    Grows s.contentTypes (saveOleObjects l s).contentTypes := by
  induction l with
  | nil => intro s; exact Grows.refl _
  | cons obj rest ih =>
    intro s
    simp only [saveOleObjects]
    refine Grows.trans ?_ (ih _)
    split
    · exact Grows.refl _
    · exact Grows.trans (Grows.addDefault _ _ _) (Grows.addOverride _ _ _)

open ContentTypes in
theorem saveOleObjectFiles_grows (l : List AbstractSheet) : ∀ (s : SaveState),
    Grows s.contentTypes (saveOleObjectFiles l s).contentTypes := by
  induction l with
  | nil => intro s; exact Grows.refl _
  | cons sheet rest ih =>
    intro s
    simp only [saveOleObjectFiles]
    exact Grows.trans (saveOleObjects_grows _ _) (ih _)

/-! ## Keys registered by each step of `savePackage` -/

open ContentTypes in
theorem saveWorksheets_adds (l : List AbstractSheet) : ∀ (i : Nat) (s : SaveState) (k : Nat),
    k < l.length →
      "/xl/worksheets/" ++ ("sheet" ++ toString (i + k + 1)) ++ ".xml" ∈
        (saveWorksheets i l s).contentTypes.m_overrides.keys := by
  induction l with
  | nil => intro i s k hk; simp at hk
  | cons sheet rest ih =>
    intro i s k hk
    simp only [saveWorksheets]
    cases k with
    | zero =>
      refine (saveWorksheets_grows rest _ _).1 _ ?_
      split <;> exact mem_addOverride _ _ _
    | succ k =>
      rw [show i + (k + 1) + 1 = i + 1 + k + 1 by omega]
      exact ih _ _ k (by simpa using hk)

open ContentTypes in
theorem saveExternalLinks_adds (l : List SimpleOOXmlFile) :
    ∀ (i : Nat) (s : SaveState) (k : Nat), k < l.length →
      "/xl/externalLinks/" ++ ("externalLink" ++ toString (i + k + 1)) ++ ".xml" ∈
        (saveExternalLinks i l s).contentTypes.m_overrides.keys := by
  induction l with
  | nil => intro i s k hk; simp at hk
  | cons link rest ih =>
    intro i s k hk
    simp only [saveExternalLinks]
    cases k with
    | zero =>
      refine (saveExternalLinks_grows rest _ _).1 _ ?_
      split <;> exact mem_addOverride _ _ _
    | succ k =>
      rw [show i + (k + 1) + 1 = i + 1 + k + 1 by omega]
      exact ih _ _ k (by simpa using hk)

open ContentTypes in
theorem saveDrawings_adds (ctx : AnchorContext) (l : List Drawing) :
    ∀ (i : Nat) (s s1 : SaveState) (k : Nat), saveDrawings ctx i l s = some s1 →
      k < l.length →
      "/xl/drawings/" ++ ("drawing" ++ toString (i + k + 1)) ++ ".xml" ∈
        s1.contentTypes.m_overrides.keys := by
  induction l with
  | nil => intro i s s1 k _ hk; simp at hk
  | cons d rest ih =>
    intro i s s1 k h hk
    simp only [saveDrawings] at h
    cases hd : d.saveToXmlData ctx with
    | none => simp [hd] at h
    | some out =>
      simp only [hd] at h
      cases k with
      | zero =>
        refine (saveDrawings_grows ctx rest _ _ _ h).1 _ ?_
        split <;> exact mem_addOverride _ _ _
      | succ k =>
        rw [show i + (k + 1) + 1 = i + 1 + k + 1 by omega]
        exact ih _ _ _ k h (by simpa using hk)

open ContentTypes in
theorem saveCharts_adds (charts : ChartPtr → Chart) (l : List ChartPtr) :
    ∀ (i : Nat) (s : SaveState) (k : Nat), k < l.length →
      "/xl/charts/" ++ ("chart" ++ toString (i + k + 1)) ++ ".xml" ∈
        (saveCharts charts i l s).contentTypes.m_overrides.keys := by
  induction l with
  | nil => intro i s k hk; simp at hk
  | cons cf rest ih =>
    intro i s k hk
    simp only [saveCharts]
    cases k with
    | zero =>
      refine (saveCharts_grows charts rest _ _).1 _ ?_
      exact mem_addOverride _ _ _
    | succ k =>
      rw [show i + (k + 1) + 1 = i + 1 + k + 1 by omega]
      exact ih _ _ k (by simpa using hk)

open ContentTypes in
theorem saveMediaFiles_adds (media : MediaPtr → MediaFile) (l : List MediaPtr) :
    ∀ (s : SaveState) (p : MediaPtr), p ∈ l → (media p).mimeType ≠ "" →
      (media p).suffix ∈ (saveMediaFiles media l s).contentTypes.m_defaults.keys := by
  induction l with
  | nil => intro s p hp; simp at hp
  | cons q rest ih =>
    intro s p hp hm
    simp only [saveMediaFiles]
    rcases List.mem_cons.1 hp with rfl | hp
    · refine (saveMediaFiles_grows media rest _).2.1 _ ?_
      simp only [hm, if_false]
      exact mem_addDefault _ _ _
    · exact ih _ p hp hm

theorem headingPair_contentTypes (c : Prop) [Decidable c] (s : SaveState) (x : DocPropsApp) :
    (if c then s else { s with docPropsApp := x }).contentTypes = s.contentTypes := by
  split <;> rfl

open ContentTypes in
theorem saveSheetsAndWorkbook_registry (wb : Workbook) (s : SaveState) :
    Grows s.contentTypes (saveSheetsAndWorkbook wb s).contentTypes ∧
    (∀ k, k < (wb.getSheetsByTypes .ST_WorkSheet).length →
      "/xl/worksheets/" ++ ("sheet" ++ toString (k + 1)) ++ ".xml" ∈
        (saveSheetsAndWorkbook wb s).contentTypes.m_overrides.keys) ∧
    (∀ k, k < wb.externalLinks.length →
      "/xl/externalLinks/" ++ ("externalLink" ++ toString (k + 1)) ++ ".xml" ∈
        (saveSheetsAndWorkbook wb s).contentTypes.m_overrides.keys) ∧
    "/xl/workbook.xml" ∈ (saveSheetsAndWorkbook wb s).contentTypes.m_overrides.keys := by
  simp only [saveSheetsAndWorkbook, SaveState.addFile]
  refine ⟨?_, ?_, ?_, ?_⟩
  · refine Grows.trans ?_ (Grows.addOverride _ _ _)
    refine Grows.trans ?_ (saveExternalLinks_grows _ _ _)
    refine Grows.trans ?_ (saveChartsheets_grows _ _ _)
    rw [headingPair_contentTypes]
    refine Grows.trans ?_ (saveWorksheets_grows _ _ _)
    rw [headingPair_contentTypes]
    exact Grows.refl _
  · intro k hk
    refine (Grows.addOverride _ _ _).1 _ ?_
    refine (saveExternalLinks_grows _ _ _).1 _ ?_
    refine (saveChartsheets_grows _ _ _).1 _ ?_
    rw [headingPair_contentTypes]
    have := saveWorksheets_adds (wb.getSheetsByTypes .ST_WorkSheet) 0
    simp only [Nat.zero_add] at this
    exact this _ k hk
  · intro k hk
    refine (Grows.addOverride _ _ _).1 _ ?_
    have := saveExternalLinks_adds wb.externalLinks 0
    simp only [Nat.zero_add] at this
    exact this _ k hk
  · exact mem_addOverride _ _ _

open ContentTypes in
theorem saveDocProps_registry (props : QMap) (s : SaveState) :
    Grows s.contentTypes (saveDocProps props s).contentTypes ∧
    "/docProps/app.xml" ∈ (saveDocProps props s).contentTypes.m_overrides.keys ∧
    "/docProps/core.xml" ∈ (saveDocProps props s).contentTypes.m_overrides.keys := by
  simp only [saveDocProps, SaveState.addFile, saveProperties_contentTypes]
  refine ⟨?_, ?_, ?_⟩
  · exact Grows.trans (Grows.addOverride _ _ _) (Grows.addOverride _ _ _)
  · exact (Grows.addOverride _ _ _).1 _ (mem_addOverride _ _ _)
  · exact mem_addOverride _ _ _

open ContentTypes in
theorem saveStringsStylesTheme_registry (wb : Workbook) (s : SaveState) :
    Grows s.contentTypes (saveStringsStylesTheme wb s).contentTypes ∧
    (wb.sharedStrings.isEmpty = false →
      "/xl/sharedStrings.xml" ∈ (saveStringsStylesTheme wb s).contentTypes.m_overrides.keys) ∧
    "/xl/styles.xml" ∈ (saveStringsStylesTheme wb s).contentTypes.m_overrides.keys ∧
    "/xl/theme/theme1.xml" ∈ (saveStringsStylesTheme wb s).contentTypes.m_overrides.keys := by
  simp only [saveStringsStylesTheme, SaveState.addFile]
  refine ⟨?_, ?_, ?_, ?_⟩
  · refine Grows.trans ?_ (Grows.addOverride _ _ _)
    refine Grows.trans ?_ (Grows.addOverride _ _ _)
    split
    · exact Grows.refl _
    · exact Grows.addOverride _ _ _
  · intro hne
    refine (Grows.addOverride _ _ _).1 _ ?_
    refine (Grows.addOverride _ _ _).1 _ ?_
    simp only [hne, Bool.false_eq_true, if_false]
    exact mem_addOverride _ _ _
  · exact (Grows.addOverride _ _ _).1 _ (mem_addOverride _ _ _)
  · exact mem_addOverride _ _ _

/-! ## The registry left by `savePackage` -/

open ContentTypes in
theorem savePackage_registry (ct : ContentTypes) (wb : Workbook) (props : QMap)
    (res : SaveResult) (h : savePackage ⟨some ct, some wb, props⟩ false = some res) :
    res.contentTypes.OverridesDistinct ∧
    (∀ k, k < (wb.getSheetsByTypes .ST_WorkSheet).length →
      "/xl/worksheets/" ++ ("sheet" ++ toString (k + 1)) ++ ".xml" ∈
        res.contentTypes.m_overrides.keys) ∧
    (∀ k, k < wb.externalLinks.length →
      "/xl/externalLinks/" ++ ("externalLink" ++ toString (k + 1)) ++ ".xml" ∈
        res.contentTypes.m_overrides.keys) ∧
    (∀ k, k < wb.drawings.length →
      "/xl/drawings/" ++ ("drawing" ++ toString (k + 1)) ++ ".xml" ∈
        res.contentTypes.m_overrides.keys) ∧
    (∀ k, k < wb.chartFiles.length →
      "/xl/charts/" ++ ("chart" ++ toString (k + 1)) ++ ".xml" ∈
        res.contentTypes.m_overrides.keys) ∧
    (∀ key ∈ ["/xl/workbook.xml", "/docProps/app.xml", "/docProps/core.xml", "/xl/styles.xml",
        "/xl/theme/theme1.xml"], key ∈ res.contentTypes.m_overrides.keys) ∧
    (wb.sharedStrings.isEmpty = false →
      "/xl/sharedStrings.xml" ∈ res.contentTypes.m_overrides.keys) ∧
    (∀ p ∈ wb.mediaFiles, (wb.media p).mimeType ≠ "" →
      (wb.media p).suffix ∈ res.contentTypes.m_defaults.keys) := by
  simp only [savePackage, Bool.false_eq_true, if_false] at h
  split at h
  · simp at h
  · rename_i sd hsd
    simp only [Option.some.injEq] at h
    subst h
    simp only [saveRootRelsAndContentTypes_contentTypes]
    have g1 := saveSheetsAndWorkbook_registry wb
      ⟨ct.clearOverrides, DocPropsApp.new, DocPropsCore.new, [], []⟩
    have g2 := saveDrawings_grows _ _ _ _ _ hsd
    have a2 := fun k => saveDrawings_adds _ _ _ _ _ k hsd
    have g3 := saveDocProps_registry props sd
    have g4 := saveStringsStylesTheme_registry wb (saveDocProps props sd)
    have g5 := saveCharts_grows wb.charts wb.chartFiles 0
      (saveStringsStylesTheme wb (saveDocProps props sd))
    have a5 := saveCharts_adds wb.charts wb.chartFiles 0
      (saveStringsStylesTheme wb (saveDocProps props sd))
    have g6 := saveMediaFiles_grows wb.media wb.mediaFiles
      (saveCharts wb.charts 0 wb.chartFiles (saveStringsStylesTheme wb (saveDocProps props sd)))
    have a6 := saveMediaFiles_adds wb.media wb.mediaFiles
      (saveCharts wb.charts 0 wb.chartFiles (saveStringsStylesTheme wb (saveDocProps props sd)))
    have g7 := saveOleObjectFiles_grows (wb.getSheetsByTypes .ST_WorkSheet)
      (saveMediaFiles wb.media wb.mediaFiles
        (saveCharts wb.charts 0 wb.chartFiles (saveStringsStylesTheme wb (saveDocProps props sd))))
    have g67 := Grows.trans g6 g7
    have g57 := Grows.trans g5 g67
    have g47 := Grows.trans g4.1 g57
    have g37 := Grows.trans g3.1 g47
    have g27 := Grows.trans g2 g37
    have g17 := Grows.trans g1.1 g27
    refine ⟨?_, ?_, ?_, ?_, ?_, ?_, ?_, ?_⟩
    · exact g17.2.2 (by simp [OverridesDistinct, ContentTypes.clearOverrides, QMap.keys])
    · intro k hk; exact g27.1 _ (g1.2.1 k hk)
    · intro k hk; exact g27.1 _ (g1.2.2.1 k hk)
    · intro k hk
      have := a2 k hk
      simp only [Nat.zero_add] at this
      exact g37.1 _ this
    · intro k hk
      have := a5 k hk
      simp only [Nat.zero_add] at this
      exact g67.1 _ this
    · intro key hkey
      simp only [List.mem_cons, List.mem_singleton, List.not_mem_nil, or_false] at hkey
      rcases hkey with rfl | rfl | rfl | rfl | rfl
      · exact g27.1 _ g1.2.2.2
      · exact g47.1 _ g3.2.1
      · exact g47.1 _ g3.2.2
      · exact g57.1 _ g4.2.2.1
      · exact g57.1 _ g4.2.2.2
    · intro hne; exact g57.1 _ (g4.2.1 hne)
    · intro p hp hm; exact g7.2.1 _ (a6 p hp hm)

theorem mem_numberedEntries (stem ext : String) (l : List PartData) (e : ZipEntry)
    (h : e ∈ numberedEntries stem ext l) :
    ∃ k, k < l.length ∧ e.path = stem ++ toString (k + 1) ++ ext := by
  have hp : e.path ∈ (numberedEntries stem ext l).map ZipEntry.path := List.mem_map_of_mem _ h
  rw [numberedEntries_paths, List.mem_map] at hp
  obtain ⟨n, hn, hpath⟩ := hp
  rw [List.mem_range'_1] at hn
  exact ⟨n - 1, by omega, by rw [← hpath, show n - 1 + 1 = n by omega]⟩

theorem sharedStrings_entry_only_when_nonempty (ct : ContentTypes) (wb : Workbook)
    (props : QMap) (res : SaveResult)
    (h : savePackage ⟨some ct, some wb, props⟩ false = some res) (e : ZipEntry)
    (he : e ∈ res.zip) (hpath : e.path = "xl/sharedStrings.xml") :
    wb.sharedStrings.isEmpty = false := by
  obtain ⟨app, core, _, hz⟩ := savePackage_zip ct wb props res h
  rw [hz] at he
  have no : ∀ (dir : String) (es : List ZipEntry),
      (∀ x ∈ es, startsWith dir x.path = true) →
      startsWith dir "xl/sharedStrings.xml" = false → e ∉ es := by
    intro dir es hdir hfalse hmem
    have := hdir e hmem
    rw [hpath, hfalse] at this
    cases this
  simp only [List.mem_append] at he
  rcases he with he | he | he | he | he | he | he | he | he | he | he | he
  · exact absurd he (no _ _ (worksheetEntries_dir _ 0) (by decide))
  · exact absurd he (no _ _ (chartsheetEntries_dir _ 0) (by decide))
  · exact absurd he (no _ _ (externalLinkEntries_dir _ 0) (by decide))
  · simp only [List.mem_cons, List.mem_singleton, List.not_mem_nil, or_false] at he
    rcases he with rfl | rfl <;> simp at hpath
  · exact absurd he (no _ _ (drawingEntries_dir _ _ 0) (by decide))
  · simp only [List.mem_cons, List.mem_singleton, List.not_mem_nil, or_false] at he
    rcases he with rfl | rfl <;> simp at hpath
  · unfold sharedStringsEntries at he
    split at he
    · simp at he
    · rename_i hne; simpa using hne
  · simp only [List.mem_cons, List.mem_singleton, List.not_mem_nil, or_false] at he
    rcases he with rfl | rfl <;> simp at hpath
  · exact absurd he (no _ _ (chartEntries_dir _ _ 0) (by decide))
  · exact absurd he (no _ _ (mediaEntries_dir _ _) (by decide))
  · exact absurd he (no _ _ (oleFileEntries_dir _) (by decide))
  · simp only [List.mem_cons, List.mem_singleton, List.not_mem_nil, or_false] at he
    rcases he with rfl | rfl <;> simp at hpath

/-- Counterexample to C6 as stated: with the registry of a new document (defaults for `rels`
and `xml`) and one media file whose MIME type is empty, `savePackage` writes
`xl/media/image1.bin` while the registry it serialises has neither an override for that path
nor a default for `bin`: the part is covered by no entry. -/
theorem C6_counterexample_untyped_media_uncovered :
    (savePackage ⟨some sampleContentTypes, some untypedMediaWorkbook, []⟩ false).map
      (fun res => ((res.zip.map ZipEntry.path).contains "xl/media/image1.bin",
        res.zip.contains ⟨"[Content_Types].xml", .contentTypes res.contentTypes⟩,
        res.contentTypes.hasOverrideFor "xl/media/image1.bin",
        res.contentTypes.hasDefaultFor "xl/media/image1.bin",
        res.contentTypes.covers "xl/media/image1.bin")) =
      some (true, true, false, false, false) := by
  decide

/-- C6 (amended): when every drawing can be serialised, `savePackage` succeeds and the
registry it serialises into `[Content_Types].xml` has pairwise different override keys, holds
an override keyed by its own path for every worksheet, external-link, drawing and chart body
file written and for `xl/workbook.xml`, `docProps/app.xml`, `docProps/core.xml`,
`xl/sharedStrings.xml` (when written), `xl/styles.xml` and `xl/theme/theme1.xml`, and holds a
default for the suffix of every media file whose MIME type is not empty; the overrides held
before the save have no influence on the result. -/
theorem C6_registered_parts_have_one_override (ct : ContentTypes) (wb : Workbook)
    (props : QMap)
    (hdef : ∀ d ∈ wb.drawings, (d.saveToXmlData wb.anchorContext).isSome) :
    ∃ res, savePackage ⟨some ct, some wb, props⟩ false = some res ∧
      savePackage ⟨some { ct with m_overrides := [] }, some wb, props⟩ false = some res ∧
      (⟨"[Content_Types].xml", .contentTypes res.contentTypes⟩ : ZipEntry) ∈ res.zip ∧
      res.contentTypes.m_overrides.keys.Nodup ∧
      (∀ e ∈ res.zip,
        (isBodyIn "xl/worksheets/" e = true ∨ isBodyIn "xl/externalLinks/" e = true ∨
          isBodyIn "xl/drawings/" e = true ∨ isBodyIn "xl/charts/" e = true ∨
          e.path ∈ ["xl/workbook.xml", "docProps/app.xml", "docProps/core.xml",
            "xl/sharedStrings.xml", "xl/styles.xml", "xl/theme/theme1.xml"]) →
        res.contentTypes.hasOverrideFor e.path = true) ∧
      (∀ p ∈ wb.mediaFiles, (wb.media p).mimeType ≠ "" →
        res.contentTypes.m_defaults.contains (wb.media p).suffix = true) := by
  obtain ⟨res, hres⟩ := Option.isSome_iff_exists.1 (savePackage_isSome ct wb props hdef)
  obtain ⟨app, core, _, hz⟩ := savePackage_zip ct wb props res hres
  obtain ⟨hsorted, hws, hel, hdr, hch, hfixed, hss, hmedia⟩ :=
    savePackage_registry ct wb props res hres
  have key : ∀ (dir name : String) (k : Nat),
      "/" ++ (dir ++ name ++ toString (k + 1) ++ ".xml") =
        "/" ++ dir ++ (name ++ toString (k + 1)) ++ ".xml" := by
    intro dir name k
    simp [String.append_assoc]
  refine ⟨res, hres, hres, ?_, ?_, ?_, ?_⟩
  · rw [hz]; simp
  · exact hsorted
  · intro e he hcat
    rw [ContentTypes.hasOverrideFor, QMap.contains_iff]
    rcases hcat with hc | hc | hc | hc | hc
    · have hmem : e ∈ res.zip.filter (isBodyIn "xl/worksheets/") := List.mem_filter.2 ⟨he, hc⟩
      rw [savePackage_body_worksheets ct wb props res hres] at hmem
      obtain ⟨k, hk, hpath⟩ := mem_numberedEntries _ _ _ e hmem
      rw [hpath]
      have := hws k (by simpa using hk)
      have e1 := key "xl/worksheets/" "sheet" k
      have e2 : "/" ++ "xl/worksheets/" = "/xl/worksheets/" := by decide
      have e3 : "xl/worksheets/" ++ "sheet" = "xl/worksheets/sheet" := by decide
      rw [e2, e3] at e1
      rw [e1]; exact this
    · have hmem : e ∈ res.zip.filter (isBodyIn "xl/externalLinks/") :=
        List.mem_filter.2 ⟨he, hc⟩
      rw [savePackage_body_externalLinks ct wb props res hres] at hmem
      obtain ⟨k, hk, hpath⟩ := mem_numberedEntries _ _ _ e hmem
      rw [hpath]
      have := hel k (by simpa using hk)
      have e1 := key "xl/externalLinks/" "externalLink" k
      have e2 : "/" ++ "xl/externalLinks/" = "/xl/externalLinks/" := by decide
      have e3 : "xl/externalLinks/" ++ "externalLink" = "xl/externalLinks/externalLink" := by
        decide
      rw [e2, e3] at e1
      rw [e1]; exact this
    · have hmem : e ∈ res.zip.filter (isBodyIn "xl/drawings/") := List.mem_filter.2 ⟨he, hc⟩
      rw [savePackage_body_drawings ct wb props res hres] at hmem
      obtain ⟨k, hk, hpath⟩ := mem_numberedEntries _ _ _ e hmem
      rw [hpath]
      have := hdr k (by simpa using hk)
      have e1 := key "xl/drawings/" "drawing" k
      have e2 : "/" ++ "xl/drawings/" = "/xl/drawings/" := by decide
      have e3 : "xl/drawings/" ++ "drawing" = "xl/drawings/drawing" := by decide
      rw [e2, e3] at e1
      rw [e1]; exact this
    · have hmem : e ∈ res.zip.filter (isBodyIn "xl/charts/") := List.mem_filter.2 ⟨he, hc⟩
      rw [savePackage_body_charts ct wb props res hres] at hmem
      obtain ⟨k, hk, hpath⟩ := mem_numberedEntries _ _ _ e hmem
      rw [hpath]
      have := hch k (by simpa using hk)
      have e1 := key "xl/charts/" "chart" k
      have e2 : "/" ++ "xl/charts/" = "/xl/charts/" := by decide
      have e3 : "xl/charts/" ++ "chart" = "xl/charts/chart" := by decide
      rw [e2, e3] at e1
      rw [e1]; exact this
    · simp only [List.mem_cons, List.mem_singleton, List.not_mem_nil, or_false] at hc
      rcases hc with hc | hc | hc | hc | hc | hc
      · rw [hc]; exact hfixed "/xl/workbook.xml" (by simp)
      · rw [hc]; exact hfixed "/docProps/app.xml" (by simp)
      · rw [hc]; exact hfixed "/docProps/core.xml" (by simp)
      · have hne := sharedStrings_entry_only_when_nonempty ct wb props res hres e he hc
        rw [hc]; exact hss hne
      · rw [hc]; exact hfixed "/xl/styles.xml" (by simp)
      · rw [hc]; exact hfixed "/xl/theme/theme1.xml" (by simp)
  · intro p hp hm
    rw [QMap.contains_iff]
    exact hmedia p hp hm

/-- Witness of the amended C6 on the sample workbook. -/
theorem C6_registered_parts_witness :
    (∀ d ∈ sampleWorkbook.drawings, (d.saveToXmlData sampleWorkbook.anchorContext).isSome) ∧
    ∃ res, savePackage ⟨some sampleContentTypes, some sampleWorkbook, []⟩ false = some res ∧
      savePackage ⟨some { sampleContentTypes with m_overrides := [] }, some sampleWorkbook, []⟩
        false = some res ∧
      (⟨"[Content_Types].xml", .contentTypes res.contentTypes⟩ : ZipEntry) ∈ res.zip ∧
      res.contentTypes.m_overrides.keys.Nodup ∧
      (∀ e ∈ res.zip,
        (isBodyIn "xl/worksheets/" e = true ∨ isBodyIn "xl/externalLinks/" e = true ∨
          isBodyIn "xl/drawings/" e = true ∨ isBodyIn "xl/charts/" e = true ∨
          e.path ∈ ["xl/workbook.xml", "docProps/app.xml", "docProps/core.xml",
            "xl/sharedStrings.xml", "xl/styles.xml", "xl/theme/theme1.xml"]) →
        res.contentTypes.hasOverrideFor e.path = true) ∧
      (∀ p ∈ sampleWorkbook.mediaFiles, (sampleWorkbook.media p).mimeType ≠ "" →
        res.contentTypes.m_defaults.contains (sampleWorkbook.media p).suffix = true) :=
  ⟨by decide, C6_registered_parts_have_one_override sampleContentTypes sampleWorkbook []
    (by decide)⟩

/-! ## Claims about `loadPackage` -/

theorem loadProperties_contentTypes (L : Loaders) (z : ZipReader) (r : Relationships)
    (d : DocumentPrivate) : (loadProperties L z r d).contentTypes = d.contentTypes := by
  unfold loadProperties
  split <;> split <;> rfl

theorem loadProperties_workbook (L : Loaders) (z : ZipReader) (r : Relationships)
    (d : DocumentPrivate) : (loadProperties L z r d).workbook = d.workbook := by
  unfold loadProperties
  split <;> split <;> rfl

theorem loadProperties_documentProperties (L : Loaders) (z : ZipReader) (r : Relationships)
    (d : DocumentPrivate) :
    (loadProperties L z r d).documentProperties =
      setDocumentProperties
        (match r.documentRelationships "/extended-properties" with
          | [] => []
          | x :: _ => L.docPropsApp (z.fileData x.target))
        (setDocumentProperties
          (match r.packageRelationships "/metadata/core-properties" with
            | [] => []
            | x :: _ => L.docPropsCore (z.fileData x.target))
          d.documentProperties) := by
  unfold loadProperties
  split <;> split <;> simp_all [setDocumentProperties]

/-- C8: when the archive has no entry at the exact path `[Content_Types].xml`, or none at the
exact path `_rels/.rels`, `loadPackage` returns false. -/
theorem C8_missing_mandatory_entry_fails (L : Loaders) (d : DocumentPrivate) (z : ZipReader)
    (h : "[Content_Types].xml" ∉ z.filePaths ∨ "_rels/.rels" ∉ z.filePaths) :
    (loadPackage L d z).1 = false := by
  unfold loadPackage
  by_cases h1 : "[Content_Types].xml" ∈ z.filePaths
  · have h2 : "_rels/.rels" ∉ z.filePaths := by
      rcases h with h | h
      · exact absurd h1 h
      · exact h
    simp [h1, h2]
  · simp [h1]

/-- Witness of C8 on an archive that has no `[Content_Types].xml`. -/
theorem C8_missing_mandatory_entry_witness :
    ("[Content_Types].xml" ∉ archiveWithoutContentTypes.filePaths ∨
      "_rels/.rels" ∉ archiveWithoutContentTypes.filePaths) ∧
    (loadPackage sampleLoaders freshDocument archiveWithoutContentTypes).1 = false :=
  ⟨by decide, C8_missing_mandatory_entry_fails sampleLoaders freshDocument
    archiveWithoutContentTypes (by decide)⟩

/-- C9: when the root relationship list read from `_rels/.rels` holds no relationship of the
officeDocument category, `loadPackage` returns false. -/
theorem C9_missing_officeDocument_fails (L : Loaders) (d : DocumentPrivate) (z : ZipReader)
    (h : (L.relationships (z.fileData "_rels/.rels")).documentRelationships "/officeDocument"
      = []) :
    (loadPackage L d z).1 = false := by
  unfold loadPackage
  by_cases h1 : "[Content_Types].xml" ∈ z.filePaths
  · by_cases h2 : "_rels/.rels" ∈ z.filePaths
    · simp [h1, h2, h]
    · simp [h1, h2]
  · simp [h1]

/-- Witness of C9 on an archive whose root relationships name the core properties only. -/
theorem C9_missing_officeDocument_witness :
    (sampleLoaders.relationships
      (archiveWithoutOfficeDocument.fileData "_rels/.rels")).documentRelationships
        "/officeDocument" = [] ∧
    (loadPackage sampleLoaders freshDocument archiveWithoutOfficeDocument).1 = false :=
  ⟨by decide, C9_missing_officeDocument_fails sampleLoaders freshDocument
    archiveWithoutOfficeDocument (by decide)⟩

/-- Counterexample to C10 as stated: on a new document, loading an archive that has content
types and core properties but no officeDocument relationship returns false and leaves a
content-type registry, a workbook and a `title` property that were not there before; loading
an archive that has content types but no `_rels/.rels` returns false and leaves a registry. -/
theorem C10_counterexample_failed_load_changes_state :
    (loadPackage sampleLoaders freshDocument archiveWithoutOfficeDocument).1 = false ∧
    freshDocument.contentTypes = none ∧
    (loadPackage sampleLoaders freshDocument archiveWithoutOfficeDocument).2.contentTypes =
      some sampleContentTypes ∧
    freshDocument.workbook.isSome = false ∧
    (loadPackage sampleLoaders freshDocument archiveWithoutOfficeDocument).2.workbook.isSome =
      true ∧
    freshDocument.documentProperties = [] ∧
    (loadPackage sampleLoaders freshDocument archiveWithoutOfficeDocument).2.documentProperties =
      [("title", "Quarterly report")] ∧
    (loadPackage sampleLoaders freshDocument archiveWithoutRootRels).1 = false ∧
    (loadPackage sampleLoaders freshDocument archiveWithoutRootRels).2.contentTypes =
      some sampleContentTypes := by
  refine ⟨by decide, by decide, by decide, by decide, by decide, by decide, by decide,
    by decide, by decide⟩

/-- C10 (amended): `loadPackage` changes the document in place and does not undo it on
failure. A failure for a missing `[Content_Types].xml` leaves the state exactly as it was. A
failure for a missing `_rels/.rels` leaves the registry parsed from the archive, workbook and
properties unchanged. A failure for a missing officeDocument relationship leaves the registry
parsed from the archive, a new empty workbook, and the property map extended with the
properties of the core and extended properties parts named by the root relationships. -/
theorem C10_state_after_failed_load (L : Loaders) (d : DocumentPrivate) (z : ZipReader)
    (hfail : (loadPackage L d z).1 = false) :
    ("[Content_Types].xml" ∉ z.filePaths → (loadPackage L d z).2 = d) ∧
    ("[Content_Types].xml" ∈ z.filePaths →
      (loadPackage L d z).2.contentTypes =
        some (L.contentTypes (z.fileData "[Content_Types].xml"))) ∧
    ("[Content_Types].xml" ∈ z.filePaths → "_rels/.rels" ∉ z.filePaths →
      (loadPackage L d z).2.workbook = d.workbook ∧
      (loadPackage L d z).2.documentProperties = d.documentProperties) ∧
    ("[Content_Types].xml" ∈ z.filePaths → "_rels/.rels" ∈ z.filePaths →
      (L.relationships (z.fileData "_rels/.rels")).documentRelationships "/officeDocument"
        = [] ∧
      (loadPackage L d z).2.workbook = some (Workbook.new .F_LoadFromExists) ∧
      (loadPackage L d z).2.documentProperties =
        setDocumentProperties
          (match (L.relationships (z.fileData "_rels/.rels")).documentRelationships
              "/extended-properties" with
            | [] => []
            | r :: _ => L.docPropsApp (z.fileData r.target))
          (setDocumentProperties
            (match (L.relationships (z.fileData "_rels/.rels")).packageRelationships
                "/metadata/core-properties" with
              | [] => []
              | r :: _ => L.docPropsCore (z.fileData r.target))
            d.documentProperties)) := by
  refine ⟨?_, ?_, ?_, ?_⟩
  · intro h1
    simp [loadPackage, h1]
  · intro h1
    unfold loadPackage
    by_cases h2 : "_rels/.rels" ∈ z.filePaths
    · simp only [h1, h2, not_true_eq_false, if_false]
      split <;> simp [loadProperties_contentTypes]
    · simp [h1, h2]
  · intro h1 h2
    simp [loadPackage, h1, h2]
  · intro h1 h2
    have hempty : (L.relationships (z.fileData "_rels/.rels")).documentRelationships
        "/officeDocument" = [] := by
      cases hrel : (L.relationships (z.fileData "_rels/.rels")).documentRelationships
          "/officeDocument" with
      | nil => rfl
      | cons r rest =>
        exfalso
        simp [loadPackage, h1, h2, hrel] at hfail
    refine ⟨hempty, ?_, ?_⟩
    · simp [loadPackage, h1, h2, hempty]
    · simp [loadPackage, h1, h2, hempty, loadProperties_documentProperties]

/-- Witness of the amended C10 on the archive without officeDocument relationship. -/
theorem C10_state_after_failed_load_witness :
    (loadPackage sampleLoaders freshDocument archiveWithoutOfficeDocument).1 = false ∧
    "[Content_Types].xml" ∈ archiveWithoutOfficeDocument.filePaths ∧
    "_rels/.rels" ∈ archiveWithoutOfficeDocument.filePaths ∧
    (loadPackage sampleLoaders freshDocument archiveWithoutOfficeDocument).2.workbook =
      some (Workbook.new .F_LoadFromExists) :=
  ⟨by decide, by decide, by decide,
    ((C10_state_after_failed_load sampleLoaders freshDocument archiveWithoutOfficeDocument
      (by decide)).2.2.2 (by decide) (by decide)).2.1⟩


/-! ## Anchor ids -/

theorem construct_anchors_length (cls : AnchorClass) (t : ObjectType) (d : Drawing) :
    (DrawingAnchor.construct cls t d).anchors.length = d.anchors.length + 1 := by
  simp [DrawingAnchor.construct]

theorem construct_shapes_length (cls : AnchorClass) (t : ObjectType) (d : Drawing) :
    (DrawingAnchor.construct cls t d).shapes.length = d.shapes.length + 1 := by
  simp [DrawingAnchor.construct]

theorem constructAll_ids (l : List (AnchorClass × ObjectType)) :
    ∀ d : Drawing,
      (DrawingAnchor.constructAll l d).anchors.map (fun a => a.m_id) =
        d.anchors.map (fun a => a.m_id) ++
          (List.range' (d.anchors.length + 1) l.length).map Int.ofNat ∧
      (DrawingAnchor.constructAll l d).anchors.map (fun a => a.m_shape.id) =
        d.anchors.map (fun a => a.m_shape.id) ++
          (List.range' (d.shapes.length + 1) l.length).map Int.ofNat := by
  induction l with
  | nil => intro d; simp [DrawingAnchor.constructAll]
  | cons x rest ih =>
    intro d
    obtain ⟨cls, t⟩ := x
    have h := ih (DrawingAnchor.construct cls t d)
    rw [construct_anchors_length, construct_shapes_length] at h
    simp only [DrawingAnchor.constructAll]
    refine ⟨h.1.trans ?_, h.2.trans ?_⟩ <;>
      simp [DrawingAnchor.construct, List.range'_succ]

theorem range'_cast_nodup (s n : Nat) : ((List.range' s n).map Int.ofNat).Nodup :=
  (List.nodup_range' s n).map Int.ofNat_injective

/-- C16: on a drawing that starts empty, the anchors constructed in sequence carry the anchor
ids 1, 2, ..., n and the shape ids 1, 2, ..., n in construction order, so the k-th anchor has
anchor id k and shape id k, and the ids are pairwise distinct. -/
theorem C16_anchor_and_shape_ids_sequential (l : List (AnchorClass × ObjectType))
    (drawing : Drawing) (hanchors : drawing.anchors = []) (hshapes : drawing.shapes = []) :
    (DrawingAnchor.constructAll l drawing).anchors.map (fun a => a.m_id) =
        (List.range' 1 l.length).map Int.ofNat ∧
      (DrawingAnchor.constructAll l drawing).anchors.map (fun a => a.m_shape.id) =
        (List.range' 1 l.length).map Int.ofNat ∧
      ((DrawingAnchor.constructAll l drawing).anchors.map (fun a => a.m_id)).Nodup ∧
      ((DrawingAnchor.constructAll l drawing).anchors.map (fun a => a.m_shape.id)).Nodup ∧
      ∀ k, k < l.length →
        ∃ a, (DrawingAnchor.constructAll l drawing).anchors[k]? = some a ∧
          a.m_id = ((k + 1 : Nat) : Int) ∧ a.m_shape.id = ((k + 1 : Nat) : Int) := by
  have h := constructAll_ids l drawing
  rw [hanchors, hshapes] at h
  simp only [List.map_nil, List.nil_append, List.length_nil, Nat.zero_add] at h
  refine ⟨h.1, h.2, ?_, ?_, ?_⟩
  · rw [h.1]; exact range'_cast_nodup 1 _
  · rw [h.2]; exact range'_cast_nodup 1 _
  · intro k hk
    have hlen : (DrawingAnchor.constructAll l drawing).anchors.length = l.length := by
      have := congrArg List.length h.1
      simpa using this
    have hk2 : k < (DrawingAnchor.constructAll l drawing).anchors.length := by omega
    refine ⟨(DrawingAnchor.constructAll l drawing).anchors[k], ?_, ?_, ?_⟩
    · exact List.getElem?_eq_getElem hk2
    · have h1 := congrArg (fun x => x[k]?) h.1
      simp [List.getElem?_eq_getElem hk2, List.getElem?_map, List.getElem?_range' , hk] at h1
      omega
    · have h2 := congrArg (fun x => x[k]?) h.2
      simp [List.getElem?_eq_getElem hk2, List.getElem?_map, List.getElem?_range' , hk] at h2
      omega

/-- C16 at three anchors constructed on `emptyDrawing`. -/
theorem C16_anchor_and_shape_ids_witness :
    (DrawingAnchor.constructAll
        [(.oneCellAnchor, .Picture), (.twoCellAnchor, .GraphicFrame), (.absoluteAnchor, .Shape)]
        emptyDrawing).anchors.map (fun a => a.m_id) = [1, 2, 3] ∧
      (DrawingAnchor.constructAll
        [(.oneCellAnchor, .Picture), (.twoCellAnchor, .GraphicFrame), (.absoluteAnchor, .Shape)]
        emptyDrawing).anchors.map (fun a => a.m_shape.id) = [1, 2, 3] :=
  ⟨(C16_anchor_and_shape_ids_sequential
      [(.oneCellAnchor, .Picture), (.twoCellAnchor, .GraphicFrame), (.absoluteAnchor, .Shape)]
      emptyDrawing rfl rfl).1,
   (C16_anchor_and_shape_ids_sequential
      [(.oneCellAnchor, .Picture), (.twoCellAnchor, .GraphicFrame), (.absoluteAnchor, .Shape)]
      emptyDrawing rfl rfl).2.1⟩

/-! ## The scanning loop of the object loaders -/

theorem scanLoop_atEnd (tag close : String)
    (body : List (String × String) → DrawingAnchor × PartStore → DrawingAnchor × PartStore)
    (fuel : Nat) (s : AnchorLoad) (h : s.reader.atEnd = true) :
    scanLoop tag close body fuel s = s := by
  cases fuel with
  | zero => rfl
  | succ n => simp [scanLoop, h]

/-- A property of the anchor and the store that every body step keeps is kept by the loop. -/
theorem scanLoop_preserves (tag close : String)
    (body : List (String × String) → DrawingAnchor × PartStore → DrawingAnchor × PartStore)
    (P : DrawingAnchor × PartStore → Prop) (hbody : ∀ a x, P x → P (body a x)) :
    ∀ (fuel : Nat) (s : AnchorLoad), P (s.anchor, s.store) →
      P ((scanLoop tag close body fuel s).anchor, (scanLoop tag close body fuel s).store) := by
  intro fuel
  induction fuel with
  | zero => intro s h; exact h
  | succ n ih =>
    intro s h
    simp only [scanLoop]
    split
    · exact h
    · split
      · split
        · exact ih _ (hbody _ _ h)
        · exact ih _ h
      · split
        · exact h
        · exact ih _ h

/-- What `readNextStartElementFrom` reaches, in terms of the start elements the loop visits. -/
theorem readNextStartElementFrom_spec (tag close : String) (rest : List XmlEvent) :
    (QXmlStreamReader.readNextStartElementFrom rest).rest.length ≤ rest.length ∧
    (rest ≠ [] → (QXmlStreamReader.readNextStartElementFrom rest).rest.length < rest.length) ∧
    (match (QXmlStreamReader.readNextStartElementFrom rest).current with
      | .StartElement n a =>
        scannedStarts tag close rest =
          (if n = tag then [a] else []) ++
            scannedStarts tag close (QXmlStreamReader.readNextStartElementFrom rest).rest
      | .EndElement n =>
        scannedStarts tag close rest =
          if n = close then [] else
            scannedStarts tag close (QXmlStreamReader.readNextStartElementFrom rest).rest
      | .Characters _ => False
      | .Invalid => scannedStarts tag close rest = []) := by
  induction rest with
  | nil => simp [QXmlStreamReader.readNextStartElementFrom, scannedStarts]
  | cons e rest ih =>
    cases e with
    | StartElement n a =>
      simp only [QXmlStreamReader.readNextStartElementFrom, scannedStarts]
      refine ⟨by simp, by simp, ?_⟩
      split <;> simp
    | EndElement n =>
      simp only [QXmlStreamReader.readNextStartElementFrom, scannedStarts]
      refine ⟨by simp, by simp, ?_⟩
      trivial
    | Characters t =>
      simp only [QXmlStreamReader.readNextStartElementFrom, scannedStarts]
      refine ⟨?_, ?_, ih.2.2⟩
      · have := ih.1; simp; omega
      · intro _; have := ih.1; simp; omega
    | Invalid =>
      simp only [QXmlStreamReader.readNextStartElementFrom, scannedStarts]
      refine ⟨by simp, by simp, ?_⟩
      trivial

/-- With enough fuel the loop applies the body to the start elements named `tag` that precede
the closing element, in document order. -/
theorem scanLoop_eq_foldl (tag close : String)
    (body : List (String × String) → DrawingAnchor × PartStore → DrawingAnchor × PartStore) :
    ∀ (fuel : Nat) (s : AnchorLoad), (s.reader.atEnd = true ∨ s.reader.rest.length < fuel) →
      ((scanLoop tag close body fuel s).anchor, (scanLoop tag close body fuel s).store) =
        if s.reader.atEnd = true then (s.anchor, s.store)
        else (scannedStarts tag close s.reader.rest).foldl (fun acc a => body a acc)
          (s.anchor, s.store) := by
  intro fuel
  induction fuel with
  | zero =>
    intro s h
    rcases h with h | h
    · simp [scanLoop, h]
    · omega
  | succ n ih =>
    intro s h
    by_cases hend : s.reader.atEnd = true
    · simp [scanLoop, hend]
    · have hlen : s.reader.rest.length < n + 1 := by
        rcases h with h | h
        · exact absurd h hend
        · exact h
      have hspec := readNextStartElementFrom_spec tag close s.reader.rest
      have hnext : s.reader.readNextStartElement =
          QXmlStreamReader.readNextStartElementFrom s.reader.rest := by
        simp [QXmlStreamReader.readNextStartElement, hend]
      have hfuel : (QXmlStreamReader.readNextStartElementFrom s.reader.rest).atEnd = true ∨
          (QXmlStreamReader.readNextStartElementFrom s.reader.rest).rest.length < n := by
        by_cases hnil : s.reader.rest = []
        · left; simp [hnil, QXmlStreamReader.readNextStartElementFrom, QXmlStreamReader.atEnd]
        · right; have := hspec.2.1 hnil; omega
      simp only [scanLoop, hend, if_false, Bool.false_eq_true]
      have h3 := hspec.2.2
      rw [hnext]
      generalize QXmlStreamReader.readNextStartElementFrom s.reader.rest = r at h3 hfuel ⊢
      obtain ⟨cur, rrest⟩ := r
      cases cur with
      | StartElement nm a =>
        simp only at h3
        simp only [QXmlStreamReader.isStartElement, QXmlStreamReader.name,
          QXmlStreamReader.attributes, if_true]
        by_cases hn : nm = tag
        · subst hn
          simp only [if_true] at h3 ⊢
          rw [ih _ hfuel, h3]
          simp [QXmlStreamReader.atEnd]
        · simp only [hn, if_false] at h3 ⊢
          rw [ih _ hfuel, h3]
          simp [QXmlStreamReader.atEnd]
      | EndElement nm =>
        simp only at h3
        simp only [QXmlStreamReader.isStartElement, QXmlStreamReader.isEndElement,
          QXmlStreamReader.name, Bool.false_eq_true, if_false, true_and]
        by_cases hn : nm = close
        · subst hn
          simp only [if_true] at h3 ⊢
          rw [h3]; rfl
        · simp only [hn, if_false] at h3 ⊢
          rw [ih _ hfuel, h3]
          simp [QXmlStreamReader.atEnd]
      | Characters t => exact absurd h3 (by simp)
      | Invalid =>
        simp only at h3
        simp only [QXmlStreamReader.isStartElement, QXmlStreamReader.isEndElement,
          Bool.false_eq_true, if_false, false_and]
        rw [ih _ hfuel, h3]
        simp [QXmlStreamReader.atEnd]

/-! ## Dispatch on the object element -/

theorem loadShapeProperties_objectType (ctx : AnchorLoadContext) (a : List (String × String))
    (x : DrawingAnchor × PartStore) :
    (DrawingAnchor.loadShapeProperties ctx a x).1.m_objectType = x.1.m_objectType := rfl

theorem loadBlip_objectType (ctx : AnchorLoadContext) (a : List (String × String))
    (x : DrawingAnchor × PartStore) :
    (DrawingAnchor.loadBlip ctx a x).1.m_objectType = x.1.m_objectType := by
  simp only [DrawingAnchor.loadBlip]
  split <;> rfl

theorem loadChartReference_objectType (ctx : AnchorLoadContext) (a : List (String × String))
    (x : DrawingAnchor × PartStore) :
    (DrawingAnchor.loadChartReference ctx a x).1.m_objectType = x.1.m_objectType := by
  simp only [DrawingAnchor.loadChartReference]
  split <;> rfl

/-- C17 (amended): `loadXmlObject` always returns, and the object type afterwards is Shape for
`sp`, GroupShape for `grpSp`, GraphicFrame for `graphicFrame`, ConnectionShape for `cxnSp` and
Picture for `pic`; for every other element name it is the object type the anchor had before
the call (Unknown for an anchor constructed with the default type). -/
theorem C17_object_type_after_loadXmlObject (ctx : AnchorLoadContext) (s : AnchorLoad) :
    ∃ s1, DrawingAnchor.loadXmlObject ctx s = some s1 ∧
      s1.anchor.m_objectType =
        if s.reader.name = "sp" then ObjectType.Shape
        else if s.reader.name = "grpSp" then ObjectType.GroupShape
        else if s.reader.name = "graphicFrame" then ObjectType.GraphicFrame
        else if s.reader.name = "cxnSp" then ObjectType.ConnectionShape
        else if s.reader.name = "pic" then ObjectType.Picture
        else s.anchor.m_objectType := by
  unfold DrawingAnchor.loadXmlObject
  by_cases h1 : s.reader.name = "sp"
  · simp only [if_pos h1, DrawingAnchor.loadXmlObjectShape]
    refine ⟨_, rfl, ?_⟩
    exact scanLoop_preserves _ _ _ (fun x => x.1.m_objectType = ObjectType.Shape)
      (fun a x hx => (loadShapeProperties_objectType ctx a x).trans hx) _ _ rfl
  · by_cases h2 : s.reader.name = "grpSp"
    · simp only [if_neg h1, if_pos h2, DrawingAnchor.loadXmlObjectGroupShape]
      exact ⟨_, rfl, rfl⟩
    · by_cases h3 : s.reader.name = "graphicFrame"
      · simp only [if_neg h1, if_neg h2, if_pos h3, DrawingAnchor.loadXmlObjectGraphicFrame]
        refine ⟨_, rfl, ?_⟩
        exact scanLoop_preserves _ _ _ (fun x => x.1.m_objectType = ObjectType.GraphicFrame)
          (fun a x hx => (loadChartReference_objectType ctx a x).trans hx) _ _ rfl
      · by_cases h4 : s.reader.name = "cxnSp"
        · simp only [if_neg h1, if_neg h2, if_neg h3, if_pos h4,
            DrawingAnchor.loadXmlObjectConnectionShape]
          exact ⟨_, rfl, rfl⟩
        · by_cases h5 : s.reader.name = "pic"
          · simp only [if_neg h1, if_neg h2, if_neg h3, if_neg h4, if_pos h5,
              DrawingAnchor.loadXmlObjectPicture]
            refine ⟨_, rfl, ?_⟩
            exact scanLoop_preserves _ _ _ (fun x => x.1.m_objectType = ObjectType.Picture)
              (fun a x hx => (loadBlip_objectType ctx a x).trans hx) _ _ rfl
          · simp only [if_neg h1, if_neg h2, if_neg h3, if_neg h4, if_neg h5]
            exact ⟨_, rfl, rfl⟩

/-- C17 as stated fails: on the `clientData` element that follows the `pic` element of a picture
anchor, `loadXmlObject` leaves the object type Picture, not Unknown. -/
theorem C17_counterexample_other_tag_keeps_type :
    ∃ s1, DrawingAnchor.loadXmlObject sampleLoadContext clientDataLoad = some s1 ∧
      clientDataLoad.reader.name ∉ ["sp", "grpSp", "graphicFrame", "cxnSp", "pic"] ∧
      s1.anchor.m_objectType ≠ ObjectType.Unknown :=
  ⟨clientDataLoad, rfl, by decide, by decide⟩

/-! ## Saving shapes -/

theorem saveToXml_of_saveXmlObject (ctx : AnchorContext) (a : DrawingAnchor) (s : AnchorOut)
    (h : ∀ s0 : AnchorOut, DrawingAnchor.saveXmlObject ctx a s0 =
      some ⟨s0.relationships, s0.writer ++ toks⟩) :
    DrawingAnchor.saveToXml ctx a s =
      some ⟨s.relationships, s.writer ++ geometryTokens a.geometry ++ toks ++
        [.writeEmptyElement "xdr:clientData", .writeEndElement]⟩ := by
  unfold DrawingAnchor.saveToXml
  cases hg : a.geometry <;>
    simp [h, geometryTokens, DrawingAnchor.saveXmlPos, DrawingAnchor.saveXmlExt,
      DrawingAnchor.saveXmlMarker]

/-- C18 (amended): for an anchor whose object type is Shape, `saveToXml` writes the geometry,
then the placeholder `xdr:sp` element carrying the id and the name of the shape, then
`xdr:clientData`; for an anchor whose object type is GroupShape or ConnectionShape it writes
nothing between the geometry and `xdr:clientData`. -/
theorem C18_shape_placeholder_only_for_shape (ctx : AnchorContext) (a : DrawingAnchor)
    (s : AnchorOut) :
    (a.m_objectType = ObjectType.Shape →
      DrawingAnchor.saveXmlObject ctx a s =
          some ⟨s.relationships, s.writer ++ placeholderShape a.m_shape⟩ ∧
        DrawingAnchor.saveToXml ctx a s =
          some ⟨s.relationships, s.writer ++ geometryTokens a.geometry ++
            placeholderShape a.m_shape ++
            [.writeEmptyElement "xdr:clientData", .writeEndElement]⟩) ∧
    (a.m_objectType = ObjectType.GroupShape ∨ a.m_objectType = ObjectType.ConnectionShape →
      DrawingAnchor.saveXmlObject ctx a s = some s ∧
        DrawingAnchor.saveToXml ctx a s =
          some ⟨s.relationships, s.writer ++ geometryTokens a.geometry ++
            [.writeEmptyElement "xdr:clientData", .writeEndElement]⟩) := by
  constructor
  · intro h
    have hobj : ∀ s0 : AnchorOut, DrawingAnchor.saveXmlObject ctx a s0 =
        some ⟨s0.relationships, s0.writer ++ placeholderShape a.m_shape⟩ := by
      intro s0
      simp [DrawingAnchor.saveXmlObject, h, DrawingAnchor.saveXmlObjectShape, placeholderShape]
    exact ⟨hobj s, saveToXml_of_saveXmlObject ctx a s hobj⟩
  · intro h
    have hobj : ∀ s0 : AnchorOut, DrawingAnchor.saveXmlObject ctx a s0 =
        some ⟨s0.relationships, s0.writer ++ []⟩ := by
      intro s0
      rcases h with h | h <;>
        simp [DrawingAnchor.saveXmlObject, h, DrawingAnchor.saveXmlObjectGroupShape,
          DrawingAnchor.saveXmlObjectConnectionShape]
    refine ⟨by simpa using hobj s, ?_⟩
    simpa using saveToXml_of_saveXmlObject ctx a s hobj

/-- C18 (amended) at `shapeAnchor` and `groupShapeAnchor`. -/
theorem C18_shape_placeholder_witness :
    (DrawingAnchor.saveToXml ⟨[], sampleMedia⟩ shapeAnchor ⟨Relationships.empty, []⟩ =
      some ⟨Relationships.empty, [] ++ geometryTokens shapeAnchor.geometry ++
        placeholderShape shapeAnchor.m_shape ++
        [.writeEmptyElement "xdr:clientData", .writeEndElement]⟩) ∧
    (DrawingAnchor.saveToXml ⟨[], sampleMedia⟩ groupShapeAnchor ⟨Relationships.empty, []⟩ =
      some ⟨Relationships.empty, [] ++ geometryTokens groupShapeAnchor.geometry ++
        [.writeEmptyElement "xdr:clientData", .writeEndElement]⟩) :=
  ⟨((C18_shape_placeholder_only_for_shape ⟨[], sampleMedia⟩ shapeAnchor
      ⟨Relationships.empty, []⟩).1 rfl).2,
   ((C18_shape_placeholder_only_for_shape ⟨[], sampleMedia⟩ groupShapeAnchor
      ⟨Relationships.empty, []⟩).2 (Or.inl rfl)).2⟩

/-- C18 as stated fails: for a GroupShape anchor no `xdr:sp` element is written. -/
theorem C18_counterexample_group_shape_writes_nothing :
    ∃ out, DrawingAnchor.saveToXml ⟨[], sampleMedia⟩ groupShapeAnchor
        ⟨Relationships.empty, []⟩ = some out ∧
      groupShapeAnchor.m_objectType = ObjectType.GroupShape ∧
      writesShapeElement out.writer = false :=
  ⟨_, rfl, rfl, by decide⟩

/-! ## Keyed collections -/

theorem le_foldr_max (l : List Nat) : ∀ x ∈ l, x ≤ l.foldr max 0 := by
  induction l with
  | nil => intro x hx; cases hx
  | cons y rest ih =>
    intro x hx
    simp only [List.foldr_cons]
    rcases List.mem_cons.1 hx with h | h
    · subst h; exact Nat.le_max_left _ _
    · exact Nat.le_trans (ih x h) (Nat.le_max_right _ _)

theorem newPtr_not_mem (l : List Nat) : newPtr l ∉ l := by
  intro h
  have := le_foldr_max l _ h
  simp only [newPtr] at this
  omega

theorem findExisting_some (key : Nat → String) (path : String) :
    ∀ (l : List Nat) (found : Option Nat) (p : Nat),
      findExisting key path l found = some p → (p ∈ l ∧ key p = path) ∨ found = some p := by
  intro l
  induction l with
  | nil => intro found p h; right; simpa [findExisting] using h
  | cons x rest ih =>
    intro found p h
    simp only [findExisting] at h
    rcases ih _ _ h with h1 | h1
    · left; exact ⟨List.mem_cons_of_mem _ h1.1, h1.2⟩
    · by_cases hx : key x = path
      · simp only [hx, if_true, Option.some.injEq] at h1
        subst h1
        left; exact ⟨List.mem_cons_self _ _, hx⟩
      · simp only [hx, if_false] at h1
        right; exact h1

theorem findExisting_none (key : Nat → String) (path : String) :
    ∀ (l : List Nat) (found : Option Nat),
      findExisting key path l found = none → found = none ∧ ∀ p ∈ l, key p ≠ path := by
  intro l
  induction l with
  | nil => intro found h; exact ⟨by simpa [findExisting] using h, by simp⟩
  | cons x rest ih =>
    intro found h
    simp only [findExisting] at h
    have h1 := ih _ h
    by_cases hx : key x = path
    · simp [hx] at h1
    · simp only [hx, if_false] at h1
      refine ⟨h1.1, ?_⟩
      intro p hp
      rcases List.mem_cons.1 hp with h2 | h2
      · subst h2; exact hx
      · exact h1.2 p h2

theorem keyedStep_found (path : String) (c : Keyed) (h : path ∈ c.keys) :
    (keyedStep path c).2 = c ∧ (keyedStep path c).1 ∈ c.1 ∧ c.2 (keyedStep path c).1 = path := by
  unfold keyedStep
  cases hf : findExisting c.2 path c.1 none with
  | none =>
    exfalso
    obtain ⟨q, hq, hk⟩ := List.mem_map.1 h
    exact (findExisting_none _ _ _ _ hf).2 q hq hk
  | some p =>
    rcases findExisting_some _ _ _ _ _ hf with h1 | h1
    · exact ⟨rfl, h1.1, h1.2⟩
    · cases h1

theorem keyedStep_new (path : String) (c : Keyed) (h : path ∉ c.keys) :
    keyedStep path c =
      (newPtr c.1, (c.1 ++ [newPtr c.1], Function.update c.2 (newPtr c.1) path)) := by
  unfold keyedStep
  cases hf : findExisting c.2 path c.1 none with
  | none => rfl
  | some p =>
    exfalso
    rcases findExisting_some _ _ _ _ _ hf with h1 | h1
    · exact h (List.mem_map.2 ⟨p, h1.1, h1.2⟩)
    · cases h1

theorem update_newPtr_of_mem (c : Keyed) (path : String) (q : Nat) (hq : q ∈ c.1) :
    Function.update c.2 (newPtr c.1) path q = c.2 q := by
  apply Function.update_noteq
  intro h
  exact newPtr_not_mem c.1 (h ▸ hq)

theorem keys_after_new (c : Keyed) (path : String) :
    Keyed.keys (c.1 ++ [newPtr c.1], Function.update c.2 (newPtr c.1) path) =
      c.keys ++ [path] := by
  simp only [Keyed.keys, List.map_append, List.map_cons, List.map_nil, Function.update_same]
  congr 1
  apply List.map_congr_left
  intro q hq
  exact update_newPtr_of_mem c path q hq

/-- The pointer returned by a step is in the collection afterwards, under the key looked up. -/
theorem keyedStep_pointer (path : String) (c : Keyed) :
    (keyedStep path c).1 ∈ (keyedStep path c).2.1 ∧
      (keyedStep path c).2.2 (keyedStep path c).1 = path := by
  by_cases h : path ∈ c.keys
  · have := keyedStep_found path c h
    rw [this.1]; exact ⟨this.2.1, this.2.2⟩
  · rw [keyedStep_new path c h]
    simp

theorem keyedExtends_nil (c : Keyed) : KeyedExtends c c [] :=
  ⟨⟨[], by simp, by simp⟩, fun _ _ => rfl, id, fun q hq hn => absurd hq hn, fun _ => rfl⟩

theorem keyedExtends_step (path : String) (c : Keyed) :
    KeyedExtends c (keyedStep path c).2 [path] := by
  by_cases h : path ∈ c.keys
  · rw [(keyedStep_found path c h).1]
    exact ⟨⟨[], by simp, by simp⟩, fun _ _ => rfl, id, fun q hq hn => absurd hq hn,
      fun _ => rfl⟩
  · rw [keyedStep_new path c h]
    refine ⟨⟨[newPtr c.1], rfl, by simp⟩, fun q hq => update_newPtr_of_mem c path q hq, ?_,
      ?_, ?_⟩
    · intro hnd
      rw [keys_after_new]
      exact List.Nodup.append hnd (List.nodup_singleton _) (by simpa using h)
    · intro q hq hn
      simp only [List.mem_append, List.mem_singleton] at hq
      rcases hq with hq | hq
      · exact absurd hq hn
      · subst hq
        simp only [Function.update_same]
        exact ⟨h, List.mem_singleton.2 rfl⟩
    · intro hall
      exact absurd (hall path (List.mem_singleton.2 rfl)) h

theorem keyedExtends_keys_subset {c1 c2 : Keyed} {ps : List String} (h : KeyedExtends c1 c2 ps) :
    ∀ k ∈ c1.keys, k ∈ c2.keys := by
  intro k hk
  obtain ⟨q, hq, rfl⟩ := List.mem_map.1 hk
  obtain ⟨⟨added, hadd, _⟩, hkeep, _⟩ := h
  refine List.mem_map.2 ⟨q, ?_, hkeep q hq⟩
  rw [hadd]; exact List.mem_append_left _ hq

theorem keyedExtends_append {c1 c2 c3 : Keyed} {ps qs : List String}
    (h12 : KeyedExtends c1 c2 ps) (h23 : KeyedExtends c2 c3 qs) :
    KeyedExtends c1 c3 (ps ++ qs) := by
  have hsub := keyedExtends_keys_subset h12
  obtain ⟨⟨a1, ha1, hl1⟩, hk1, hn1, hd1, he1⟩ := h12
  obtain ⟨⟨a2, ha2, hl2⟩, hk2, hn2, hd2, he2⟩ := h23
  have hmem12 : ∀ q ∈ c1.1, q ∈ c2.1 := fun q hq => by rw [ha1]; exact List.mem_append_left _ hq
  refine ⟨⟨a1 ++ a2, by rw [ha2, ha1, List.append_assoc], by simp; omega⟩, ?_, ?_, ?_, ?_⟩
  · intro q hq
    rw [hk2 q (hmem12 q hq), hk1 q hq]
  · exact fun h => hn2 (hn1 h)
  · intro q hq hn
    by_cases hq2 : q ∈ c2.1
    · have := hd1 q hq2 hn
      rw [hk2 q hq2]
      exact ⟨this.1, List.mem_append_left _ this.2⟩
    · have := hd2 q hq hq2
      exact ⟨fun hc => this.1 (hsub _ hc), List.mem_append_right _ this.2⟩
  · intro hall
    have e1 : c2 = c1 := he1 fun p hp => hall p (List.mem_append_left _ hp)
    have e2 : c3 = c2 := he2 fun p hp => by
      rw [e1]; exact hall p (List.mem_append_right _ hp)
    rw [e2, e1]

theorem keyedFold_extends (paths : List String) :
    ∀ r : Option Nat × Keyed, KeyedExtends r.2 (keyedFold paths r).2 paths := by
  induction paths with
  | nil => intro r; exact keyedExtends_nil _
  | cons path rest ih =>
    intro r
    simp only [keyedFold]
    exact keyedExtends_append (keyedExtends_step path r.2) (ih _)

theorem keyedFold_append (ps : List String) (path : String) :
    ∀ r : Option Nat × Keyed,
      keyedFold (ps ++ [path]) r =
        (some (keyedStep path (keyedFold ps r).2).1, (keyedStep path (keyedFold ps r).2).2) := by
  induction ps with
  | nil => intro r; rfl
  | cons p rest ih => intro r; simp only [List.cons_append, keyedFold]; exact ih _

theorem keyedFold_nil_pointer (r : Option Nat × Keyed) : keyedFold [] r = r := rfl

/-- After at least one key has been looked up, the pointer kept is in the collection under the
last key looked up, and it is a pointer of the collection before when that held the key. -/
theorem keyedFold_pointer (paths : List String) (last : String)
    (hlast : paths.getLast? = some last) (r : Option Nat × Keyed) :
    ∃ p, (keyedFold paths r).1 = some p ∧ p ∈ (keyedFold paths r).2.1 ∧
      (keyedFold paths r).2.2 p = last ∧ (last ∈ r.2.keys → p ∈ r.2.1) := by
  obtain ⟨ps, rfl⟩ : ∃ ps, paths = ps ++ [last] := by
    rcases List.eq_nil_or_concat paths with h | ⟨ps, x, h⟩
    · subst h; simp at hlast
    · subst h
      simp only [List.concat_eq_append, List.getLast?_append, List.getLast?_singleton,
        Option.or, Option.some.injEq] at hlast
      subst hlast
      exact ⟨ps, by simp⟩
  rw [keyedFold_append]
  have hp := keyedStep_pointer last (keyedFold ps r).2
  refine ⟨_, rfl, hp.1, hp.2, ?_⟩
  intro hmem
  have hext := keyedFold_extends ps r
  have hin : last ∈ (keyedFold ps r).2.keys := keyedExtends_keys_subset hext _ hmem
  have hf := keyedStep_found last _ hin
  by_contra hnot
  have := hext.2.2.2.1 _ hf.2.1 hnot
  rw [hf.2.2] at this
  exact this.1 hmem

/-! ## Pictures and charts referenced by anchors -/

theorem atEnd_of_name (r : QXmlStreamReader) (h : r.name ≠ "") : r.atEnd = false := by
  obtain ⟨cur, rest⟩ := r
  cases cur <;> simp_all [QXmlStreamReader.name, QXmlStreamReader.atEnd]

theorem loadBlip_keyed (ctx : AnchorLoadContext) (a : List (String × String))
    (x : DrawingAnchor × PartStore) :
    ((DrawingAnchor.loadBlip ctx a x).1.m_pictureFile,
        (DrawingAnchor.loadBlip ctx a x).2.mediaKeyed) =
      (some (keyedStep (ctx.resolve (attributeValue a "r:embed")) x.2.mediaKeyed).1,
        (keyedStep (ctx.resolve (attributeValue a "r:embed")) x.2.mediaKeyed).2) := by
  simp only [DrawingAnchor.loadBlip, keyedStep, PartStore.mediaKeyed]
  cases hf : findExisting (fun p => (x.2.media p).fileName)
      (ctx.resolve (attributeValue a "r:embed")) x.2.mediaFiles none with
  | some p => rfl
  | none =>
    simp only [PartStore.addMediaFile, Prod.mk.injEq, true_and]
    funext q
    by_cases hq : q = newPtr x.2.mediaFiles
    · subst hq; simp [MediaFile.fromFileName]
    · simp [Function.update_noteq hq]

theorem loadChartReference_keyed (ctx : AnchorLoadContext) (a : List (String × String))
    (x : DrawingAnchor × PartStore) :
    ((DrawingAnchor.loadChartReference ctx a x).1.m_chartFile,
        (DrawingAnchor.loadChartReference ctx a x).2.chartKeyed) =
      (some (keyedStep (ctx.resolve (attributeValue a "r:id")) x.2.chartKeyed).1,
        (keyedStep (ctx.resolve (attributeValue a "r:id")) x.2.chartKeyed).2) := by
  simp only [DrawingAnchor.loadChartReference, keyedStep, PartStore.chartKeyed]
  cases hf : findExisting (fun p => (x.2.charts p).filePath)
      (ctx.resolve (attributeValue a "r:id")) x.2.chartFiles none with
  | some p => rfl
  | none =>
    simp only [PartStore.addChartFile, Prod.mk.injEq, true_and]
    funext q
    by_cases hq : q = newPtr x.2.chartFiles
    · subst hq; simp [Chart.fromFilePath]
    · simp [Function.update_noteq hq]

theorem foldl_loadBlip_keyed (ctx : AnchorLoadContext) (l : List (List (String × String))) :
    ∀ x : DrawingAnchor × PartStore,
      ((l.foldl (fun acc a => DrawingAnchor.loadBlip ctx a acc) x).1.m_pictureFile,
          (l.foldl (fun acc a => DrawingAnchor.loadBlip ctx a acc) x).2.mediaKeyed) =
        keyedFold (l.map fun a => ctx.resolve (attributeValue a "r:embed"))
          (x.1.m_pictureFile, x.2.mediaKeyed) := by
  induction l with
  | nil => intro x; rfl
  | cons a rest ih =>
    intro x
    simp only [List.foldl_cons, List.map_cons, keyedFold]
    rw [ih, loadBlip_keyed]

theorem foldl_loadChartReference_keyed (ctx : AnchorLoadContext)
    (l : List (List (String × String))) :
    ∀ x : DrawingAnchor × PartStore,
      ((l.foldl (fun acc a => DrawingAnchor.loadChartReference ctx a acc) x).1.m_chartFile,
          (l.foldl (fun acc a => DrawingAnchor.loadChartReference ctx a acc) x).2.chartKeyed) =
        keyedFold (l.map fun a => ctx.resolve (attributeValue a "r:id"))
          (x.1.m_chartFile, x.2.chartKeyed) := by
  induction l with
  | nil => intro x; rfl
  | cons a rest ih =>
    intro x
    simp only [List.foldl_cons, List.map_cons, keyedFold]
    rw [ih, loadChartReference_keyed]

/-- The picture loader returns, and its effect on the anchor's picture and on the media
collection is the lookup-and-register step for each `blip` element visited. -/
theorem loadXmlObjectPicture_keyed (ctx : AnchorLoadContext) (s : AnchorLoad)
    (hname : s.reader.name = "pic") :
    ∃ s1, DrawingAnchor.loadXmlObjectPicture ctx s = some s1 ∧
      (s1.anchor.m_pictureFile, s1.store.mediaKeyed) =
        keyedFold (blipPaths ctx s.reader.rest) (s.anchor.m_pictureFile, s.store.mediaKeyed) := by
  refine ⟨scanLoop "blip" "pic" (DrawingAnchor.loadBlip ctx) (s.reader.rest.length + 1) s,
    by simp only [DrawingAnchor.loadXmlObjectPicture, hname, if_true], ?_⟩
  have hend : s.reader.atEnd = false := atEnd_of_name _ (by rw [hname]; decide)
  have h := scanLoop_eq_foldl "blip" "pic" (DrawingAnchor.loadBlip ctx)
    (s.reader.rest.length + 1) s (Or.inr (Nat.lt_succ_self _))
  simp only [hend, Bool.false_eq_true, if_false] at h
  have h1 := congrArg Prod.fst h
  have h2 := congrArg Prod.snd h
  simp only at h1 h2
  rw [h1, h2]
  exact foldl_loadBlip_keyed ctx _ _

/-- The graphic-frame loader returns, and its effect on the anchor's chart and on the chart
collection is the lookup-and-register step for each `chart` element visited. -/
theorem loadXmlObjectGraphicFrame_keyed (ctx : AnchorLoadContext) (s : AnchorLoad)
    (hname : s.reader.name = "graphicFrame") :
    ∃ s1, DrawingAnchor.loadXmlObjectGraphicFrame ctx s = some s1 ∧
      (s1.anchor.m_chartFile, s1.store.chartKeyed) =
        keyedFold (chartReferencePaths ctx s.reader.rest)
          (s.anchor.m_chartFile, s.store.chartKeyed) := by
  refine ⟨scanLoop "chart" "graphicFrame" (DrawingAnchor.loadChartReference ctx)
      (s.reader.rest.length + 1) s,
    by simp only [DrawingAnchor.loadXmlObjectGraphicFrame, hname, if_true], ?_⟩
  have hend : s.reader.atEnd = false := atEnd_of_name _ (by rw [hname]; decide)
  have h := scanLoop_eq_foldl "chart" "graphicFrame" (DrawingAnchor.loadChartReference ctx)
    (s.reader.rest.length + 1) s (Or.inr (Nat.lt_succ_self _))
  simp only [hend, Bool.false_eq_true, if_false] at h
  have h1 := congrArg Prod.fst h
  have h2 := congrArg Prod.snd h
  simp only at h1 h2
  rw [h1, h2]
  exact foldl_loadChartReference_keyed ctx _ _

/-- Facts about a fold of lookup-and-register steps, in the form the anchor loaders use them. -/
theorem keyedFold_facts (paths : List String) (cur : Option Nat) (c : Keyed)
    (cur1 : Option Nat) (c1 : Keyed) (h : (cur1, c1) = keyedFold paths (cur, c)) :
    (c.keys.Nodup → c1.keys.Nodup) ∧
    c1.1.length ≤ c.1.length + paths.length ∧
    (∀ q ∈ c.1, q ∈ c1.1 ∧ c1.2 q = c.2 q) ∧
    (∀ q ∈ c1.1, q ∉ c.1 → c1.2 q ∉ c.keys ∧ c1.2 q ∈ paths) ∧
    ((∀ path ∈ paths, path ∈ c.keys) → c1.1 = c.1) ∧
    (paths = [] → cur1 = cur ∧ c1.1 = c.1) ∧
    (∀ last, paths.getLast? = some last →
      ∃ p, cur1 = some p ∧ p ∈ c1.1 ∧ c1.2 p = last ∧ (last ∈ c.keys → p ∈ c.1)) := by
  have hext := keyedFold_extends paths (cur, c)
  have e1 : cur1 = (keyedFold paths (cur, c)).1 := congrArg Prod.fst h
  have e2 : c1 = (keyedFold paths (cur, c)).2 := congrArg Prod.snd h
  rw [← e2] at hext
  obtain ⟨⟨added, hadd, hlen⟩, hkeep, hnd, hnew, hsame⟩ := hext
  refine ⟨hnd, ?_, ?_, hnew, ?_, ?_, ?_⟩
  · simp only at hadd
    rw [hadd, List.length_append]; omega
  · intro q hq
    simp only at hadd
    exact ⟨by rw [hadd]; exact List.mem_append_left _ hq, hkeep q hq⟩
  · intro hall
    rw [hsame hall]
  · intro hnil
    subst hnil
    simp only [keyedFold_nil_pointer, Prod.mk.injEq] at h
    exact ⟨h.1, by rw [h.2]⟩
  · intro last hlast
    have := keyedFold_pointer paths last hlast (cur, c)
    rw [← e1, ← e2] at this
    exact this

/-- C13 (amended): `loadXmlObjectPicture`, entered on a `pic` element, returns; if no two
entries of the media collection had the same file name before, none have afterwards; the
collection grows by at most one entry for each `blip` element read, and not at all when every
path read was already registered; and when at least one `blip` element is read the anchor's
picture is the collection entry whose file name equals the resolved path of the last one, the
entry of the collection before when that held the path. -/
theorem C13_blip_references_share_media (ctx : AnchorLoadContext) (s : AnchorLoad)
    (hname : s.reader.name = "pic") :
    ∃ s1, DrawingAnchor.loadXmlObjectPicture ctx s = some s1 ∧
      (s.store.mediaNames.Nodup → s1.store.mediaNames.Nodup) ∧
      s1.store.mediaFiles.length ≤
        s.store.mediaFiles.length + (blipPaths ctx s.reader.rest).length ∧
      ((∀ path ∈ blipPaths ctx s.reader.rest, path ∈ s.store.mediaNames) →
        s1.store.mediaFiles = s.store.mediaFiles) ∧
      (∀ last, (blipPaths ctx s.reader.rest).getLast? = some last →
        ∃ p, s1.anchor.m_pictureFile = some p ∧ p ∈ s1.store.mediaFiles ∧
          (s1.store.media p).fileName = last ∧
          (last ∈ s.store.mediaNames → p ∈ s.store.mediaFiles)) := by
  obtain ⟨s1, hs1, hk⟩ := loadXmlObjectPicture_keyed ctx s hname
  have hf := keyedFold_facts _ _ _ _ _ hk
  exact ⟨s1, hs1, hf.1, hf.2.1, hf.2.2.2.2.1, hf.2.2.2.2.2.2⟩

/-- C13 (amended) at two loads into a collection that holds `image1.png` behind pointer 5.
The first reads `image2.png` twice and then `image1.png`: one entry is added for the three
`blip` elements, and the anchor's picture is pointer 5, the entry that was there before. The
second reads `image1.png` only: the collection is unchanged and the picture is pointer 5. -/
theorem C13_blip_references_witness :
    (sharedBlipLoad.reader.name = "pic" ∧ sharedBlipLoad.store.mediaNames.Nodup ∧
      sharedBlipLoad.store.mediaFiles = [5] ∧
      ∃ s1, DrawingAnchor.loadXmlObjectPicture sharingLoadContext sharedBlipLoad = some s1 ∧
        s1.store.mediaNames.Nodup ∧
        s1.store.mediaFiles = [5, 6] ∧
        s1.store.mediaNames =
          ["xl/drawings/../media/image1.png", "xl/drawings/../media/image2.png"] ∧
        s1.store.mediaFiles.length ≤
          sharedBlipLoad.store.mediaFiles.length +
            (blipPaths sharingLoadContext sharedBlipLoad.reader.rest).length ∧
        s1.anchor.m_pictureFile = some 5 ∧
        ∃ p, s1.anchor.m_pictureFile = some p ∧ p ∈ sharedBlipLoad.store.mediaFiles ∧
          (s1.store.media p).fileName = "xl/drawings/../media/image1.png") ∧
    (registeredBlipLoad.reader.name = "pic" ∧
      ∃ s1, DrawingAnchor.loadXmlObjectPicture sharingLoadContext registeredBlipLoad =
          some s1 ∧
        s1.store.mediaFiles = registeredBlipLoad.store.mediaFiles ∧
        ∃ p, s1.anchor.m_pictureFile = some p ∧ p ∈ registeredBlipLoad.store.mediaFiles ∧
          (s1.store.media p).fileName = "xl/drawings/../media/image1.png") := by
  constructor
  · refine ⟨rfl, by decide, rfl, ?_⟩
    obtain ⟨s1, hload, hnodup, hlen, _, hlast⟩ :=
      C13_blip_references_share_media sharingLoadContext sharedBlipLoad rfl
    obtain ⟨p, hp1, hp2, hp3, hp4⟩ := hlast "xl/drawings/../media/image1.png" (by decide)
    have hs1 : s1 = scanLoop "blip" "pic" (DrawingAnchor.loadBlip sharingLoadContext) 10
        sharedBlipLoad := by
      have e : DrawingAnchor.loadXmlObjectPicture sharingLoadContext sharedBlipLoad =
          some (scanLoop "blip" "pic" (DrawingAnchor.loadBlip sharingLoadContext) 10
            sharedBlipLoad) := rfl
      rw [e] at hload
      exact (Option.some.inj hload).symm
    refine ⟨s1, hload, hnodup (by decide), ?_, ?_, hlen, ?_, p, hp1, hp4 (by decide), hp3⟩
    · rw [hs1]; decide
    · rw [hs1]; decide
    · rw [hs1]; decide
  · refine ⟨rfl, ?_⟩
    obtain ⟨s1, hload, _, _, hsame, hlast⟩ :=
      C13_blip_references_share_media sharingLoadContext registeredBlipLoad rfl
    obtain ⟨p, hp1, hp2, hp3, hp4⟩ := hlast "xl/drawings/../media/image1.png" (by decide)
    exact ⟨s1, hload, hsame (by decide), p, hp1, hp4 (by decide), hp3⟩

/-- C13 as stated fails: a `pic` element with two `blip` elements that resolve to different
paths grows the media collection by two entries. -/
theorem C13_counterexample_two_blips_grow_by_two :
    ∃ s1, DrawingAnchor.loadXmlObjectPicture sampleLoadContext twoBlipLoad = some s1 ∧
      twoBlipLoad.store.mediaNames.Nodup ∧
      ¬ s1.store.mediaFiles.length ≤ twoBlipLoad.store.mediaFiles.length + 1 :=
  ⟨scanLoop "blip" "pic" (DrawingAnchor.loadBlip sampleLoadContext) 8 twoBlipLoad, rfl,
    by decide, by decide⟩

/-- C14: `loadXmlObjectGraphicFrame`, entered on a `graphicFrame` element, returns; a chart
that it adds to the chart collection has a file path that no chart of the collection had
before, and nothing is added when every path read was already there; when the path of the
last `chart` element read is the path of an existing chart, the anchor's chart is that
existing chart; and if no two charts of the collection had the same file path before, none
have afterwards. -/
theorem C14_chart_references_share_chart (ctx : AnchorLoadContext) (s : AnchorLoad)
    (hname : s.reader.name = "graphicFrame") :
    ∃ s1, DrawingAnchor.loadXmlObjectGraphicFrame ctx s = some s1 ∧
      (∀ q ∈ s1.store.chartFiles, q ∉ s.store.chartFiles →
        (s1.store.charts q).filePath ∉ s.store.chartPaths ∧
          (s1.store.charts q).filePath ∈ chartReferencePaths ctx s.reader.rest) ∧
      ((∀ path ∈ chartReferencePaths ctx s.reader.rest, path ∈ s.store.chartPaths) →
        s1.store.chartFiles = s.store.chartFiles) ∧
      (∀ q ∈ s.store.chartFiles,
        q ∈ s1.store.chartFiles ∧ (s1.store.charts q).filePath = (s.store.charts q).filePath) ∧
      (∀ last, (chartReferencePaths ctx s.reader.rest).getLast? = some last →
        ∃ p, s1.anchor.m_chartFile = some p ∧ p ∈ s1.store.chartFiles ∧
          (s1.store.charts p).filePath = last ∧
          (last ∈ s.store.chartPaths → p ∈ s.store.chartFiles)) ∧
      (s.store.chartPaths.Nodup → s1.store.chartPaths.Nodup) := by
  obtain ⟨s1, hs1, hk⟩ := loadXmlObjectGraphicFrame_keyed ctx s hname
  have hf := keyedFold_facts _ _ _ _ _ hk
  exact ⟨s1, hs1, hf.2.2.2.1, hf.2.2.2.2.1, hf.2.2.1, hf.2.2.2.2.2.2, hf.1⟩

/-- C14 at two loads into a collection that holds `chart1.xml` behind pointer 3. The first
reads `chart2.xml` twice and then `chart1.xml`: one chart is added, for the path that no chart
had, and the anchor's chart is pointer 3, the chart that was there before. The second reads
`chart1.xml` only: the collection is unchanged and the anchor's chart is pointer 3. -/
theorem C14_chart_references_witness :
    (sharedChartLoad.reader.name = "graphicFrame" ∧ sharedChartLoad.store.chartPaths.Nodup ∧
      sharedChartLoad.store.chartFiles = [3] ∧
      ∃ s1, DrawingAnchor.loadXmlObjectGraphicFrame sharingLoadContext sharedChartLoad =
          some s1 ∧
        s1.store.chartPaths.Nodup ∧
        s1.store.chartFiles = [3, 4] ∧
        s1.store.chartPaths =
          ["xl/drawings/../charts/chart1.xml", "xl/drawings/../charts/chart2.xml"] ∧
        (∀ q ∈ s1.store.chartFiles, q ∉ sharedChartLoad.store.chartFiles →
          (s1.store.charts q).filePath ∉ sharedChartLoad.store.chartPaths) ∧
        s1.anchor.m_chartFile = some 3 ∧
        ∃ p, s1.anchor.m_chartFile = some p ∧ p ∈ sharedChartLoad.store.chartFiles ∧
          (s1.store.charts p).filePath = "xl/drawings/../charts/chart1.xml") ∧
    (registeredChartLoad.reader.name = "graphicFrame" ∧
      ∃ s1, DrawingAnchor.loadXmlObjectGraphicFrame sharingLoadContext registeredChartLoad =
          some s1 ∧
        s1.store.chartFiles = registeredChartLoad.store.chartFiles ∧
        ∃ p, s1.anchor.m_chartFile = some p ∧ p ∈ registeredChartLoad.store.chartFiles ∧
          (s1.store.charts p).filePath = "xl/drawings/../charts/chart1.xml") := by
  constructor
  · refine ⟨rfl, by decide, rfl, ?_⟩
    obtain ⟨s1, hload, hnew, _, _, hlast, hnodup⟩ :=
      C14_chart_references_share_chart sharingLoadContext sharedChartLoad rfl
    obtain ⟨p, hp1, hp2, hp3, hp4⟩ := hlast "xl/drawings/../charts/chart1.xml" (by decide)
    have hs1 : s1 = scanLoop "chart" "graphicFrame"
        (DrawingAnchor.loadChartReference sharingLoadContext) 10 sharedChartLoad := by
      have e : DrawingAnchor.loadXmlObjectGraphicFrame sharingLoadContext sharedChartLoad =
          some (scanLoop "chart" "graphicFrame"
            (DrawingAnchor.loadChartReference sharingLoadContext) 10 sharedChartLoad) := rfl
      rw [e] at hload
      exact (Option.some.inj hload).symm
    refine ⟨s1, hload, hnodup (by decide), ?_, ?_, fun q hq hn => (hnew q hq hn).1, ?_, p, hp1,
      hp4 (by decide), hp3⟩
    · rw [hs1]; decide
    · rw [hs1]; decide
    · rw [hs1]; decide
  · refine ⟨rfl, ?_⟩
    obtain ⟨s1, hload, _, hsame, _, hlast, _⟩ :=
      C14_chart_references_share_chart sharingLoadContext registeredChartLoad rfl
    obtain ⟨p, hp1, hp2, hp3, hp4⟩ := hlast "xl/drawings/../charts/chart1.xml" (by decide)
    exact ⟨s1, hload, hsame (by decide), p, hp1, hp4 (by decide), hp3⟩

/-! ## Optional parts of the workbook on load -/

theorem loadWorkbook_parts (L : Loaders) (z : ZipReader) (path : String)
    (hkeep : L.KeepsWorkbookParts) :
    (loadWorkbook L z path).relationships =
        L.relationships (z.fileData (L.getRelFilePath path)) ∧
      ((L.relationships (z.fileData (L.getRelFilePath path))).documentRelationships
          "/sharedStrings" = [] →
        (loadWorkbook L z path).sharedStrings =
          (Workbook.new .F_LoadFromExists).sharedStrings) ∧
      ((L.relationships (z.fileData (L.getRelFilePath path))).documentRelationships
          "/styles" = [] →
        (loadWorkbook L z path).styles = (Workbook.new .F_LoadFromExists).styles) ∧
      ((L.relationships (z.fileData (L.getRelFilePath path))).documentRelationships
          "/theme" = [] →
        (loadWorkbook L z path).theme = (Workbook.new .F_LoadFromExists).theme) := by
  unfold loadWorkbook
  dsimp only
  have hk := hkeep (z.fileData path)
  split <;> split <;> split <;>
    simp_all [Workbook.setPartStore]

theorem loadPackage_of_officeDocument (L : Loaders) (d : DocumentPrivate) (z : ZipReader)
    (hct : "[Content_Types].xml" ∈ z.filePaths) (hrels : "_rels/.rels" ∈ z.filePaths)
    (r : XlsxRelationship) (rest : List XlsxRelationship)
    (hoffice : (L.relationships (z.fileData "_rels/.rels")).documentRelationships
      "/officeDocument" = r :: rest) :
    (loadPackage L d z).1 = true ∧
      (loadPackage L d z).2.workbook = some (loadWorkbook L z r.target) := by
  unfold loadPackage
  simp [hct, hrels, hoffice]

/-- C11: for an archive that has `[Content_Types].xml`, `_rels/.rels` and an officeDocument
relationship, `loadPackage` succeeds, and when the workbook relationship list has no
sharedStrings (styles, theme) relationship the loaded workbook's shared-string table (styles,
theme) is the one of a freshly created workbook; that shared-string table is empty. -/
theorem C11_absent_optional_parts_are_default (L : Loaders) (d : DocumentPrivate)
    (z : ZipReader) (hct : "[Content_Types].xml" ∈ z.filePaths)
    (hrels : "_rels/.rels" ∈ z.filePaths)
    (r : XlsxRelationship) (rest : List XlsxRelationship)
    (hoffice : (L.relationships (z.fileData "_rels/.rels")).documentRelationships
      "/officeDocument" = r :: rest)
    (hkeep : L.KeepsWorkbookParts) :
    (loadPackage L d z).1 = true ∧
      ∃ wb, (loadPackage L d z).2.workbook = some wb ∧
        wb.relationships = L.relationships (z.fileData (L.getRelFilePath r.target)) ∧
        (wb.relationships.documentRelationships "/sharedStrings" = [] →
          wb.sharedStrings = (Workbook.new .F_LoadFromExists).sharedStrings ∧
            wb.sharedStrings.isEmpty = true) ∧
        (wb.relationships.documentRelationships "/styles" = [] →
          wb.styles = (Workbook.new .F_LoadFromExists).styles) ∧
        (wb.relationships.documentRelationships "/theme" = [] →
          wb.theme = (Workbook.new .F_LoadFromExists).theme) := by
  have h := loadPackage_of_officeDocument L d z hct hrels r rest hoffice
  have hp := loadWorkbook_parts L z r.target hkeep
  refine ⟨h.1, _, h.2, hp.1, ?_, ?_, ?_⟩
  · intro hnone
    rw [hp.1] at hnone
    have := hp.2.1 hnone
    exact ⟨this, by rw [this]; rfl⟩
  · intro hnone
    rw [hp.1] at hnone
    exact hp.2.2.1 hnone
  · intro hnone
    rw [hp.1] at hnone
    exact hp.2.2.2 hnone

theorem workbookLoaders_keeps : workbookLoaders.KeepsWorkbookParts :=
  fun _ _ => ⟨rfl, rfl, rfl, rfl⟩

/-- C11 at `archiveWithoutOptionalParts`: the load succeeds and the shared-string table, the
styles and the theme are those of a freshly created workbook. -/
theorem C11_absent_optional_parts_witness :
    "[Content_Types].xml" ∈ archiveWithoutOptionalParts.filePaths ∧
    "_rels/.rels" ∈ archiveWithoutOptionalParts.filePaths ∧
    (loadPackage workbookLoaders freshDocument archiveWithoutOptionalParts).1 = true ∧
      ∃ wb, (loadPackage workbookLoaders freshDocument archiveWithoutOptionalParts).2.workbook =
          some wb ∧
        wb.sharedStrings = (Workbook.new .F_LoadFromExists).sharedStrings ∧
        wb.sharedStrings.isEmpty = true ∧
        wb.styles = (Workbook.new .F_LoadFromExists).styles ∧
        wb.theme = (Workbook.new .F_LoadFromExists).theme :=
  ⟨by decide, by decide,
    (C11_absent_optional_parts_are_default workbookLoaders freshDocument
      archiveWithoutOptionalParts (by decide) (by decide)
      ⟨"rId1", schema_doc ++ "/officeDocument", "xl/workbook.xml", ""⟩
      []
      (by decide) workbookLoaders_keeps).1,
    (C11_absent_optional_parts_are_default workbookLoaders freshDocument
      archiveWithoutOptionalParts (by decide) (by decide)
      ⟨"rId1", schema_doc ++ "/officeDocument", "xl/workbook.xml", ""⟩
      []
      (by decide) workbookLoaders_keeps).2.elim
      fun wb h => ⟨wb, h.1, (h.2.2.1 (by rw [h.2.1]; decide)).1,
        (h.2.2.1 (by rw [h.2.1]; decide)).2, h.2.2.2.1 (by rw [h.2.1]; decide),
        h.2.2.2.2 (by rw [h.2.1]; decide)⟩⟩

/-- C12 (amended): `loadPackage` reports success exactly when `[Content_Types].xml` and
`_rels/.rels` are entries of the archive and the root relationships name an officeDocument
target; whether that target or the body of a listed sheet is an entry of the archive does not
enter. -/
theorem C12_load_fails_only_without_mandatory_entries (L : Loaders) (d : DocumentPrivate)
    (z : ZipReader) :
    (loadPackage L d z).1 = true ↔
      ("[Content_Types].xml" ∈ z.filePaths ∧ "_rels/.rels" ∈ z.filePaths ∧
        (L.relationships (z.fileData "_rels/.rels")).documentRelationships
          "/officeDocument" ≠ []) := by
  unfold loadPackage
  by_cases hct : "[Content_Types].xml" ∈ z.filePaths
  · by_cases hrels : "_rels/.rels" ∈ z.filePaths
    · simp only [hct, hrels, not_true_eq_false, if_false, true_and]
      cases h : (L.relationships (z.fileData "_rels/.rels")).documentRelationships
          "/officeDocument" with
      | nil => simp
      | cons r rest => simp
    · simp [hct, hrels]
  · simp [hct]

/-- C12 as stated fails: `loadPackage` reports success for an archive whose root relationships
name `xl/workbook.xml` although the archive has no such entry, and for an archive whose workbook
lists a sheet at `xl/worksheets/sheet1.xml` although the archive has no such entry. -/
theorem C12_counterexample_missing_parts_still_load :
    ((loadPackage workbookLoaders freshDocument archiveWithoutWorkbookPart).1 = true ∧
      ∃ r ∈ (workbookLoaders.relationships
          (archiveWithoutWorkbookPart.fileData "_rels/.rels")).documentRelationships
            "/officeDocument",
        r.target ∉ archiveWithoutWorkbookPart.filePaths) ∧
    ((loadPackage workbookLoaders freshDocument archiveWithoutSheetBody).1 = true ∧
      ∃ wb, (loadPackage workbookLoaders freshDocument archiveWithoutSheetBody).2.workbook =
          some wb ∧
        ∃ sheet ∈ wb.sheets, sheet.filePath ∉ archiveWithoutSheetBody.filePaths) :=
  ⟨⟨by decide, ⟨"rId1", schema_doc ++ "/officeDocument", "xl/workbook.xml", ""⟩,
      by decide, by decide⟩,
    ⟨by decide, loadWorkbook workbookLoaders archiveWithoutSheetBody "xl/workbook.xml", rfl,
      ⟨.ST_WorkSheet, "Sheet1", "xl/worksheets/sheet1.xml", Relationships.empty, "", []⟩,
      by decide, by decide⟩⟩

/-! ## Every override registered by `savePackage` -/

theorem addOverride_all (P : String → Prop) (c : ContentTypes) (k v : String) (hk : P k)
    (h : ∀ x ∈ c.m_overrides.keys, P x) : ∀ x ∈ (c.addOverride k v).m_overrides.keys, P x := by
  intro x hx
  rcases (QMap.mem_keys_insert k v _ x).1 hx with h1 | h1
  · rw [h1]; exact hk
  · exact h x h1

theorem saveWorksheets_all (P : String → Prop)
    (hP : ∀ name, P ("/xl/worksheets/" ++ name ++ ".xml")) (l : List AbstractSheet) :
    ∀ (i : Nat) (s : SaveState), (∀ x ∈ s.contentTypes.m_overrides.keys, P x) →
      ∀ x ∈ (saveWorksheets i l s).contentTypes.m_overrides.keys, P x := by
  induction l with
  | nil => intro i s h; exact h
  | cons sheet rest ih =>
    intro i s h
    simp only [saveWorksheets]
    apply ih
    split <;> exact addOverride_all P _ _ _ (hP _) h

theorem saveChartsheets_all (P : String → Prop)
    (hP : ∀ name, P ("/xl/worksheets/" ++ name ++ ".xml")) (l : List AbstractSheet) :
    ∀ (i : Nat) (s : SaveState), (∀ x ∈ s.contentTypes.m_overrides.keys, P x) →
      ∀ x ∈ (saveChartsheets i l s).contentTypes.m_overrides.keys, P x := by
  induction l with
  | nil => intro i s h; exact h
  | cons sheet rest ih =>
    intro i s h
    simp only [saveChartsheets]
    apply ih
    split <;> exact addOverride_all P _ _ _ (hP _) h

theorem saveExternalLinks_all (P : String → Prop)
    (hP : ∀ name, P ("/xl/externalLinks/" ++ name ++ ".xml")) (l : List SimpleOOXmlFile) :
    ∀ (i : Nat) (s : SaveState), (∀ x ∈ s.contentTypes.m_overrides.keys, P x) →
      ∀ x ∈ (saveExternalLinks i l s).contentTypes.m_overrides.keys, P x := by
  induction l with
  | nil => intro i s h; exact h
  | cons link rest ih =>
    intro i s h
    simp only [saveExternalLinks]
    apply ih
    split <;> exact addOverride_all P _ _ _ (hP _) h

theorem saveDrawings_all (P : String → Prop)
    (hP : ∀ name, P ("/xl/drawings/" ++ name ++ ".xml")) (ctx : AnchorContext)
    (l : List Drawing) :
    ∀ (i : Nat) (s s1 : SaveState), saveDrawings ctx i l s = some s1 →
      (∀ x ∈ s.contentTypes.m_overrides.keys, P x) →
      ∀ x ∈ s1.contentTypes.m_overrides.keys, P x := by
  induction l with
  | nil => intro i s s1 h hs; simp [saveDrawings] at h; subst h; exact hs
  | cons d rest ih =>
    intro i s s1 h hs
    simp only [saveDrawings] at h
    cases hd : d.saveToXmlData ctx with
    | none => simp [hd] at h
    | some out =>
      simp only [hd] at h
      apply ih _ _ _ h
      split <;> exact addOverride_all P _ _ _ (hP _) hs

theorem saveCharts_all (P : String → Prop)
    (hP : ∀ name, P ("/xl/charts/" ++ name ++ ".xml")) (charts : ChartPtr → Chart)
    (l : List ChartPtr) :
    ∀ (i : Nat) (s : SaveState), (∀ x ∈ s.contentTypes.m_overrides.keys, P x) →
      ∀ x ∈ (saveCharts charts i l s).contentTypes.m_overrides.keys, P x := by
  induction l with
  | nil => intro i s h; exact h
  | cons cf rest ih =>
    intro i s h
    simp only [saveCharts]
    apply ih
    exact addOverride_all P _ _ _ (hP _) h

theorem saveMediaFiles_overrides (media : MediaPtr → MediaFile) (l : List MediaPtr) :
    ∀ (s : SaveState), (saveMediaFiles media l s).contentTypes.m_overrides =
      s.contentTypes.m_overrides := by
  induction l with
  | nil => intro s; rfl
  | cons p rest ih =>
    intro s
    simp only [saveMediaFiles]
    rw [ih]
    split <;> rfl

theorem saveOleObjects_all (P : String → Prop)
    (hP : ∀ suffix, P ("/xl/embeddings/" ++ suffix)) (l : List OleObject) :
    ∀ (s : SaveState), (∀ x ∈ s.contentTypes.m_overrides.keys, P x) →
      ∀ x ∈ (saveOleObjects l s).contentTypes.m_overrides.keys, P x := by
  induction l with
  | nil => intro s h; exact h
  | cons obj rest ih =>
    intro s h
    simp only [saveOleObjects]
    apply ih
    split
    · exact h
    · exact addOverride_all P _ _ _ (hP _) h

theorem saveOleObjectFiles_all (P : String → Prop)
    (hP : ∀ suffix, P ("/xl/embeddings/" ++ suffix)) (l : List AbstractSheet) :
    ∀ (s : SaveState), (∀ x ∈ s.contentTypes.m_overrides.keys, P x) →
      ∀ x ∈ (saveOleObjectFiles l s).contentTypes.m_overrides.keys, P x := by
  induction l with
  | nil => intro s h; exact h
  | cons sheet rest ih =>
    intro s h
    simp only [saveOleObjectFiles]
    exact ih _ (saveOleObjects_all P hP _ _ h)

/-- Every override key that `savePackage` leaves in the registry has one of the forms that its
steps register: a property of all these forms holds for every key. -/
theorem savePackage_overrides_all (P : String → Prop) (ct : ContentTypes) (wb : Workbook)
    (props : QMap) (res : SaveResult)
    (h : savePackage ⟨some ct, some wb, props⟩ false = some res)
    (hws : ∀ name, P ("/xl/worksheets/" ++ name ++ ".xml"))
    (hel : ∀ name, P ("/xl/externalLinks/" ++ name ++ ".xml"))
    (hdr : ∀ name, P ("/xl/drawings/" ++ name ++ ".xml"))
    (hch : ∀ name, P ("/xl/charts/" ++ name ++ ".xml"))
    (hole : ∀ suffix, P ("/xl/embeddings/" ++ suffix))
    (hwb : P "/xl/workbook.xml") (happ : P "/docProps/app.xml") (hcore : P "/docProps/core.xml")
    (hst : P "/xl/styles.xml") (hth : P "/xl/theme/theme1.xml")
    (hss : wb.sharedStrings.isEmpty = false → P "/xl/sharedStrings.xml") :
    ∀ x ∈ res.contentTypes.m_overrides.keys, P x := by
  simp only [savePackage, Bool.false_eq_true, if_false] at h
  split at h
  · simp at h
  · rename_i sd hsd
    simp only [Option.some.injEq] at h
    subst h
    simp only [saveRootRelsAndContentTypes_contentTypes]
    apply saveOleObjectFiles_all P hole
    rw [saveMediaFiles_overrides]
    apply saveCharts_all P hch
    have h1 : ∀ x ∈ sd.contentTypes.m_overrides.keys, P x := by
      apply saveDrawings_all P hdr _ _ _ _ _ hsd
      simp only [saveSheetsAndWorkbook, SaveState.addFile]
      apply addOverride_all P _ _ _ hwb
      apply saveExternalLinks_all P hel
      apply saveChartsheets_all P hws
      rw [headingPair_contentTypes]
      apply saveWorksheets_all P hws
      rw [headingPair_contentTypes]
      intro x hx
      simp [ContentTypes.clearOverrides, QMap.keys] at hx
    have h2 : ∀ x ∈ (saveDocProps props sd).contentTypes.m_overrides.keys, P x := by
      simp only [saveDocProps, SaveState.addFile, saveProperties_contentTypes]
      exact addOverride_all P _ _ _ hcore (addOverride_all P _ _ _ happ h1)
    simp only [saveStringsStylesTheme, SaveState.addFile]
    apply addOverride_all P _ _ _ hth
    apply addOverride_all P _ _ _ hst
    by_cases hne : wb.sharedStrings.isEmpty = true
    · simp only [hne, if_true]; exact h2
    · simp only [hne, Bool.false_eq_true, if_false]
      exact addOverride_all P _ _ _ (hss (by simpa using hne)) h2

/-! ## Shared strings, styles and theme on save -/

theorem ne_of_data_ne {a b : String} (h : a.data ≠ b.data) : a ≠ b :=
  fun e => h (congrArg String.data e)

/-- C19: `savePackage` returns; the archive has an entry `xl/sharedStrings.xml`, and the
registry an override for it, if and only if the shared-string table of the workbook is not
empty; the archive always has the entries `xl/styles.xml` and `xl/theme/theme1.xml`. -/
theorem C19_shared_strings_iff_nonempty (ct : ContentTypes) (wb : Workbook) (props : QMap)
    (hdef : ∀ d ∈ wb.drawings, (d.saveToXmlData wb.anchorContext).isSome) :
    ∃ res, savePackage ⟨some ct, some wb, props⟩ false = some res ∧
      ((∃ e ∈ res.zip, e.path = "xl/sharedStrings.xml") ↔
        wb.sharedStrings.isEmpty = false) ∧
      (wb.sharedStrings.isEmpty = false →
        (⟨"xl/sharedStrings.xml", .sharedStrings wb.sharedStrings⟩ : ZipEntry) ∈ res.zip) ∧
      ("/xl/sharedStrings.xml" ∈ res.contentTypes.m_overrides.keys ↔
        wb.sharedStrings.isEmpty = false) ∧
      (⟨"xl/styles.xml", .bytes wb.styles.xmlData⟩ : ZipEntry) ∈ res.zip ∧
      (⟨"xl/theme/theme1.xml", .bytes wb.theme.xmlData⟩ : ZipEntry) ∈ res.zip := by
  have hsome := savePackage_isSome ct wb props hdef
  obtain ⟨res, hres⟩ := Option.isSome_iff_exists.1 hsome
  obtain ⟨app, core, _, hz⟩ := savePackage_zip ct wb props res hres
  have hentry : wb.sharedStrings.isEmpty = false →
      (⟨"xl/sharedStrings.xml", .sharedStrings wb.sharedStrings⟩ : ZipEntry) ∈ res.zip := by
    intro hne
    rw [hz]
    simp [sharedStringsEntries, hne]
  refine ⟨res, hres, ⟨?_, ?_⟩, hentry, ⟨?_, ?_⟩, ?_, ?_⟩
  · rintro ⟨e, he, hpath⟩
    exact sharedStrings_entry_only_when_nonempty ct wb props res hres e he hpath
  · intro hne
    exact ⟨_, hentry hne, rfl⟩
  · intro hmem
    refine savePackage_overrides_all
      (fun k => k = "/xl/sharedStrings.xml" → wb.sharedStrings.isEmpty = false)
      ct wb props res hres ?_ ?_ ?_ ?_ ?_ ?_ ?_ ?_ ?_ ?_ ?_ _ hmem rfl
    · intro name h
      exact absurd h (ne_of_data_ne (by simp [String.data_append]))
    · intro name h
      exact absurd h (ne_of_data_ne (by simp [String.data_append]))
    · intro name h
      exact absurd h (ne_of_data_ne (by simp [String.data_append]))
    · intro name h
      exact absurd h (ne_of_data_ne (by simp [String.data_append]))
    · intro name h
      exact absurd h (ne_of_data_ne (by simp [String.data_append]))
    · intro h; exact absurd h (by decide)
    · intro h; exact absurd h (by decide)
    · intro h; exact absurd h (by decide)
    · intro h; exact absurd h (by decide)
    · intro h; exact absurd h (by decide)
    · intro hne _; exact hne
  · exact (savePackage_registry ct wb props res hres).2.2.2.2.2.2.1
  · rw [hz]; simp
  · rw [hz]; simp

/-- C19 at `sharedStringsWorkbook`, whose shared-string table holds two strings. -/
theorem C19_shared_strings_witness :
    (∀ d ∈ sharedStringsWorkbook.drawings,
      (d.saveToXmlData sharedStringsWorkbook.anchorContext).isSome) ∧
    ∃ res, savePackage ⟨some sampleContentTypes, some sharedStringsWorkbook, []⟩ false =
        some res ∧
      (⟨"xl/sharedStrings.xml", .sharedStrings sharedStringsWorkbook.sharedStrings⟩ : ZipEntry) ∈
        res.zip ∧
      "/xl/sharedStrings.xml" ∈ res.contentTypes.m_overrides.keys ∧
      (⟨"xl/styles.xml", .bytes sharedStringsWorkbook.styles.xmlData⟩ : ZipEntry) ∈ res.zip ∧
      (⟨"xl/theme/theme1.xml", .bytes sharedStringsWorkbook.theme.xmlData⟩ : ZipEntry) ∈
        res.zip :=
  ⟨by simp [sharedStringsWorkbook, Workbook.new],
    (C19_shared_strings_iff_nonempty sampleContentTypes sharedStringsWorkbook []
      (by simp [sharedStringsWorkbook, Workbook.new])).elim
      fun res h => ⟨res, h.1, h.2.2.1 (by decide), h.2.2.2.1.2 (by decide), h.2.2.2.2.1,
        h.2.2.2.2.2⟩⟩

/-! ## Overrides for chartsheets -/

/-- C20 fails on the code: for a workbook with one worksheet and one chartsheet, `savePackage`
writes `xl/worksheets/sheet1.xml` and `xl/chartsheets/sheet1.xml`, and the chartsheet loop
registers the worksheet key again: the registry has the single sheet override
`/xl/worksheets/sheet1.xml` and no override for `/xl/chartsheets/sheet1.xml`. -/
theorem C20_chartsheet_registers_worksheet_key :
    (savePackage ⟨some sampleContentTypes, some mixedSheetsWorkbook, []⟩ false).map
        (fun res =>
          (res.ok,
            (res.zip.map ZipEntry.path).filter (fun p =>
              startsWith "xl/worksheets/" p || startsWith "xl/chartsheets/" p),
            res.contentTypes.m_overrides.keys.filter (fun k =>
              startsWith "/xl/worksheets/" k || startsWith "/xl/chartsheets/" k))) =
      some (true, ["xl/worksheets/sheet1.xml", "xl/chartsheets/sheet1.xml"],
        ["/xl/worksheets/sheet1.xml"]) := by
  decide


/-! ## OLE objects -/

/-- C21 fails on the code: for a worksheet with the OLE object `oleObject1.bin` (suffix
`bin`, non-empty MIME type) `savePackage` writes `xl/embeddings/oleObject1.bin` and registers
the default for `bin`, and the only override it registers under `/xl/embeddings/` has the key
`/xl/embeddings/bin`, built from the suffix, not from the file name. -/
theorem C21_ole_override_names_suffix :
    (savePackage ⟨some sampleContentTypes, some oleWorkbook, []⟩ false).map
        (fun res =>
          ((res.zip.map ZipEntry.path).filter (fun p => startsWith "xl/embeddings/" p),
            res.contentTypes.m_overrides.keys.filter (fun k => startsWith "/xl/embeddings/" k),
            res.contentTypes.m_defaults.contains "bin")) =
      some (["xl/embeddings/oleObject1.bin"], ["/xl/embeddings/bin"], true) := by
  decide

/-- C23 fails on the code: the OLE step of `loadPackage` runs over every sheet; for a sheet
tagged `ST_ChartSheet` it reads the object list behind the cast and fetches
`xl/embeddings/oleObject1.bin` for it. -/
theorem C23_ole_step_runs_on_chartsheet :
    castChartsheet.sheetType = .ST_ChartSheet ∧
      (loadOleObjectFiles archiveWithEmbedding [castChartsheet]).map
          (fun s => s.oleObjectFiles.map fun o => (o.fileName, o.contents)) =
        [[("oleObject1.bin", "OLE-BYTES")]] := by
  decide

/-! ## Hidden columns -/

/-- C24 fails on the code: `Document::setColumnHidden(range, hidden)` with `hidden = true` on a
current worksheet makes the worksheet receive `setColumnWidth(range, 1.0)` and no
`setColumnHidden` call, while the overload with first and last column passes the call on as
`setColumnHidden`; without a current worksheet it returns false. -/
theorem C24_setColumnHidden_range_sets_width :
    ((Document.setColumnHiddenRange freshActiveSheet ⟨1, 2, 1048576, 3⟩ true).2.map
        fun s => s.worksheet.calls) =
      some [.setColumnWidthRange ⟨1, 2, 1048576, 3⟩ 1] ∧
    ((Document.setColumnHidden freshActiveSheet 2 3 true).2.map fun s => s.worksheet.calls) =
      some [.setColumnHidden 2 3 true] ∧
    (Document.setColumnHiddenRange none ⟨1, 2, 1048576, 3⟩ true).1 = false := by
  refine ⟨rfl, rfl, rfl⟩

/-! ## Document properties -/

theorem QMap.value_insert_same (k v : String) (m : QMap) : (QMap.insert k v m).value k = v := by
  induction m with
  | nil => simp [QMap.insert, QMap.value]
  | cons e rest ih =>
    obtain ⟨ke, ve⟩ := e
    simp only [QMap.insert]
    split
    · simp [QMap.value]
    · rename_i hne
      have hne2 : ¬ ke = k := fun h => hne h.symm
      simp only [QMap.value, List.find?_cons, hne2, decide_False] at ih ⊢
      exact ih

theorem QMap.value_insert_other (k v : String) (m : QMap) (k1 : String) (h : k1 ≠ k) :
    (QMap.insert k v m).value k1 = m.value k1 := by
  induction m with
  | nil =>
    have h2 : ¬ k = k1 := fun e => h e.symm
    simp [QMap.insert, QMap.value, h2]
  | cons e rest ih =>
    obtain ⟨ke, ve⟩ := e
    simp only [QMap.insert]
    split
    · rename_i hk
      subst hk
      have h2 : ¬ k = k1 := fun e => h e.symm
      simp [QMap.value, h2]
    · by_cases hke : ke = k1
      · simp [QMap.value, hke]
      · simp only [QMap.value, List.find?_cons, hke, decide_False] at ih ⊢
        exact ih

theorem documentProperty_set_same (d : DocumentPrivate) (k v : String) :
    Document.documentProperty (Document.setDocumentProperty d k v) k = v := by
  have hc : (QMap.insert k v d.documentProperties).contains k = true :=
    (QMap.contains_iff _ _).2 ((QMap.mem_keys_insert k v _ k).2 (Or.inl rfl))
  simp only [Document.documentProperty, Document.setDocumentProperty, hc, if_true]
  exact QMap.value_insert_same k v _

theorem documentProperty_set_other (d : DocumentPrivate) (k v k1 : String) (h : k1 ≠ k) :
    Document.documentProperty (Document.setDocumentProperty d k v) k1 =
      Document.documentProperty d k1 := by
  have hc : (QMap.insert k v d.documentProperties).contains k1 =
      d.documentProperties.contains k1 := by
    rw [Bool.eq_iff_iff, QMap.contains_iff, QMap.contains_iff, QMap.mem_keys_insert]
    constructor
    · rintro (h1 | h1)
      · exact absurd h1 h
      · exact h1
    · exact Or.inr
  simp only [Document.documentProperty, Document.setDocumentProperty, hc,
    QMap.value_insert_other k v _ k1 h]

theorem documentProperty_setAll (l : List (String × String)) :
    ∀ (d : DocumentPrivate) (k : String),
      Document.documentProperty (Document.setDocumentPropertyAll l d) k =
        match lastSet k l with
        | some v => v
        | none => Document.documentProperty d k := by
  induction l with
  | nil => intro d k; rfl
  | cons e rest ih =>
    intro d k
    obtain ⟨ke, ve⟩ := e
    simp only [Document.setDocumentPropertyAll, lastSet]
    rw [ih]
    cases hl : lastSet k rest with
    | some x => rfl
    | none =>
      by_cases hk : ke = k
      · subst hk
        simp only [if_true]
        exact documentProperty_set_same d ke ve
      · simp only [hk, if_false]
        exact documentProperty_set_other d ke ve k (fun e => hk e.symm)

theorem documentPropertyNames_setAll (l : List (String × String)) :
    ∀ (d : DocumentPrivate) (k : String),
      k ∈ Document.documentPropertyNames (Document.setDocumentPropertyAll l d) ↔
        k ∈ l.map Prod.fst ∨ k ∈ Document.documentPropertyNames d := by
  induction l with
  | nil => intro d k; simp [Document.setDocumentPropertyAll]
  | cons e rest ih =>
    intro d k
    obtain ⟨ke, ve⟩ := e
    simp only [Document.setDocumentPropertyAll, List.map_cons, List.mem_cons]
    rw [ih]
    simp only [Document.documentPropertyNames, Document.setDocumentProperty,
      QMap.mem_keys_insert]
    tauto

theorem documentPropertyNames_setAll_nodup (l : List (String × String)) :
    ∀ (d : DocumentPrivate), (Document.documentPropertyNames d).Nodup →
      (Document.documentPropertyNames (Document.setDocumentPropertyAll l d)).Nodup := by
  induction l with
  | nil => intro d h; exact h
  | cons e rest ih =>
    intro d h
    obtain ⟨ke, ve⟩ := e
    simp only [Document.setDocumentPropertyAll]
    exact ih _ (QMap.insert_keys_nodup ke ve _ h)

theorem lastSet_isSome_iff (k : String) (l : List (String × String)) :
    (lastSet k l).isSome = true ↔ k ∈ l.map Prod.fst := by
  induction l with
  | nil => simp [lastSet]
  | cons e rest ih =>
    obtain ⟨ke, ve⟩ := e
    simp only [lastSet, List.map_cons, List.mem_cons]
    cases hl : lastSet k rest with
    | some x =>
      simp only [hl, Option.isSome_some, true_iff] at ih
      simp [ih]
    | none =>
      simp only [hl, Option.isSome_none, Bool.false_eq_true, false_iff] at ih
      by_cases hk : ke = k
      · simp [hk]
      · have hk2 : ¬ k = ke := fun e => hk e.symm
        simp [hk, hk2, ih]

/-- C25: after any sequence of `setDocumentProperty` calls on a document without properties,
`documentProperty(k)` is the value of the most recent call for `k`, the empty string when there
was none; one call for `k` gives `k` the new value and leaves the value of every other key as
it was; and `documentPropertyNames` lists exactly the keys of the calls, each once. -/
theorem C25_document_properties_get_set_list (ct : Option ContentTypes) (wb : Option Workbook)
    (l : List (String × String)) (k : String) :
    Document.documentProperty (Document.setDocumentPropertyAll l ⟨ct, wb, []⟩) k =
        (lastSet k l).getD "" ∧
      ((lastSet k l).isSome = true ↔ k ∈ l.map Prod.fst) ∧
      (k ∈ Document.documentPropertyNames (Document.setDocumentPropertyAll l ⟨ct, wb, []⟩) ↔
        k ∈ l.map Prod.fst) ∧
      (Document.documentPropertyNames (Document.setDocumentPropertyAll l ⟨ct, wb, []⟩)).Nodup ∧
      (∀ (d : DocumentPrivate) (v : String),
        Document.documentProperty (Document.setDocumentProperty d k v) k = v ∧
        ∀ k1, k1 ≠ k →
          Document.documentProperty (Document.setDocumentProperty d k v) k1 =
            Document.documentProperty d k1) := by
  refine ⟨?_, lastSet_isSome_iff k l, ?_, ?_, ?_⟩
  · rw [documentProperty_setAll]
    cases lastSet k l with
    | some v => rfl
    | none => rfl
  · rw [documentPropertyNames_setAll]
    simp [Document.documentPropertyNames, QMap.keys]
  · exact documentPropertyNames_setAll_nodup l _ (by simp [Document.documentPropertyNames,
      QMap.keys])
  · intro d v
    exact ⟨documentProperty_set_same d k v,
      fun k1 h => documentProperty_set_other d k v k1 h⟩

/-- C25 at three calls, two of them for `title`. -/
theorem C25_document_properties_witness :
    Document.documentProperty
        (Document.setDocumentPropertyAll
          [("title", "Draft"), ("creator", "Ada"), ("title", "Final")] freshDocument)
        "title" = "Final" ∧
      Document.documentProperty
        (Document.setDocumentProperty
          (Document.setDocumentProperty freshDocument "creator" "Ada") "title" "Final")
        "creator" =
      Document.documentProperty (Document.setDocumentProperty freshDocument "creator" "Ada")
        "creator" :=
  ⟨(C25_document_properties_get_set_list none none
      [("title", "Draft"), ("creator", "Ada"), ("title", "Final")] "title").1,
    ((C25_document_properties_get_set_list none none [] "title").2.2.2.2
      (Document.setDocumentProperty freshDocument "creator" "Ada") "Final").2 "creator"
      (by decide)⟩

/-! ## Media files on load -/

theorem mediaLoadPath_set (L : Loaders) (mf : MediaFile) (bytes suffix : String) :
    mediaLoadPath (mf.set L bytes suffix) = mediaLoadPath mf := rfl

theorem MediaFile.set_set (L : Loaders) (mf : MediaFile) (bytes suffix : String) :
    (mf.set L bytes suffix).set L bytes suffix = mf.set L bytes suffix := rfl

/-- What the loop over the media files leaves behind each pointer. -/
theorem loadMediaFiles_apply (L : Loaders) (z : ZipReader) (l : List MediaPtr) :
    ∀ (media : MediaPtr → MediaFile) (p : MediaPtr),
      loadMediaFiles L z l media p =
        if p ∈ l then
          (media p).set L (z.fileData (mediaLoadPath (media p)))
            (suffixOfPath (mediaLoadPath (media p)))
        else media p := by
  induction l with
  | nil => intro media p; simp [loadMediaFiles]
  | cons q rest ih =>
    intro media p
    simp only [loadMediaFiles]
    rw [ih]
    by_cases hpq : p = q
    · subst hpq
      simp only [Function.update_same, List.mem_cons, true_or, if_true, mediaLoadPath_set,
        MediaFile.set_set]
      split <;> rfl
    · simp only [Function.update_noteq hpq, List.mem_cons, hpq, false_or]

theorem loadWorkbook_media (L : Loaders) (z : ZipReader) (path : String) :
    ∃ before : MediaPtr → MediaFile,
      (loadWorkbook L z path).media =
        loadMediaFiles L z (loadWorkbook L z path).mediaFiles before := by
  unfold loadWorkbook
  exact ⟨_, rfl⟩

/-- C22 (amended): after a successful `loadPackage`, the contents of every media file of the
workbook's media collection are the bytes of the archive entry `xl/media/{name}`, where `name`
is the file-name component of the media file's file name, and its suffix is the text after the
last dot of that path. -/
theorem C22_media_fetched_by_file_name (L : Loaders) (d : DocumentPrivate) (z : ZipReader)
    (hct : "[Content_Types].xml" ∈ z.filePaths) (hrels : "_rels/.rels" ∈ z.filePaths)
    (r : XlsxRelationship) (rest : List XlsxRelationship)
    (hoffice : (L.relationships (z.fileData "_rels/.rels")).documentRelationships
      "/officeDocument" = r :: rest) :
    (loadPackage L d z).1 = true ∧
      ∃ wb, (loadPackage L d z).2.workbook = some wb ∧
        ∀ p ∈ wb.mediaFiles,
          mediaLoadPath (wb.media p) = "xl/media/" ++ fileNameOf (wb.media p).fileName ∧
          (wb.media p).contents = z.fileData (mediaLoadPath (wb.media p)) ∧
          (wb.media p).suffix = suffixOfPath (mediaLoadPath (wb.media p)) := by
  have h := loadPackage_of_officeDocument L d z hct hrels r rest hoffice
  refine ⟨h.1, _, h.2, ?_⟩
  intro p hp
  obtain ⟨before, hb⟩ := loadWorkbook_media L z r.target
  rw [hb, loadMediaFiles_apply]
  simp only [hp, if_true]
  exact ⟨rfl, rfl, rfl⟩

/-- C22 (amended) at `archiveWithSecondImage`: the only media file is fetched from
`xl/media/image2.png`. -/
theorem C22_media_fetched_witness :
    "[Content_Types].xml" ∈ archiveWithSecondImage.filePaths ∧
    "_rels/.rels" ∈ archiveWithSecondImage.filePaths ∧
    (loadPackage pictureLoaders freshDocument archiveWithSecondImage).1 = true ∧
      ∃ wb, (loadPackage pictureLoaders freshDocument archiveWithSecondImage).2.workbook =
          some wb ∧
        ∀ p ∈ wb.mediaFiles,
          mediaLoadPath (wb.media p) = "xl/media/" ++ fileNameOf (wb.media p).fileName ∧
          (wb.media p).contents =
            archiveWithSecondImage.fileData (mediaLoadPath (wb.media p)) ∧
          (wb.media p).suffix = suffixOfPath (mediaLoadPath (wb.media p)) :=
  ⟨by decide, by decide,
    C22_media_fetched_by_file_name pictureLoaders freshDocument archiveWithSecondImage
      (by decide) (by decide)
      ⟨"rId1", schema_doc ++ "/officeDocument", "xl/workbook.xml", ""⟩ [] (by decide)⟩

/-- C22 as stated fails: the media file at position 0 of the collection, registered for the
target `../media/image2.png`, gets the bytes of `xl/media/image2.png`, not those of
`xl/media/image1.png`. -/
theorem C22_counterexample_position_is_not_the_name :
    ∃ wb, (loadPackage pictureLoaders freshDocument archiveWithSecondImage).2.workbook =
        some wb ∧
      wb.mediaFiles = [1] ∧ (wb.media 1).index = 0 ∧ (wb.media 1).suffix = "png" ∧
      (wb.media 1).contents = "TWO" ∧
      archiveWithSecondImage.fileData
        ("xl/media/image" ++ toString (0 + 1) ++ "." ++ (wb.media 1).suffix) = "ONE" :=
  ⟨loadWorkbook pictureLoaders archiveWithSecondImage "xl/workbook.xml", rfl, by decide,
    by decide, by decide, by decide, by decide⟩

/-! ## Decimal text of 32-bit integers -/

theorem digitChar_isDigit (k : Nat) (h : k < 10) : (Nat.digitChar k).isDigit = true := by
  interval_cases k <;> rfl

theorem toDigitsCore_all_isDigit : ∀ (fuel n : Nat) (ds : List Char),
    ds.all Char.isDigit = true → (Nat.toDigitsCore 10 fuel n ds).all Char.isDigit = true := by
  intro fuel
  induction fuel with
  | zero => intro n ds h; simpa [Nat.toDigitsCore] using h
  | succ fuel ih =>
    intro n ds h
    simp only [Nat.toDigitsCore]
    have hd : (Nat.digitChar (n % 10)).isDigit = true :=
      digitChar_isDigit _ (Nat.mod_lt _ (by decide))
    split
    · simp only [List.all_cons, hd, h, Bool.and_self]
    · exact ih _ _ (by simp only [List.all_cons, hd, h, Bool.and_self])

theorem toDigitsCore_ne_nil : ∀ (fuel n : Nat) (ds : List Char), 0 < fuel →
    Nat.toDigitsCore 10 fuel n ds ≠ [] := by
  intro fuel
  induction fuel with
  | zero => intro n ds h; omega
  | succ fuel ih =>
    intro n ds _
    simp only [Nat.toDigitsCore]
    split
    · simp
    · rename_i h0
      cases fuel with
      | zero => simp [Nat.toDigitsCore]
      | succ f => exact ih _ _ (by omega)

theorem toDigits_all_isDigit (n : Nat) : (Nat.toDigits 10 n).all Char.isDigit = true :=
  toDigitsCore_all_isDigit _ _ _ rfl

theorem toDigits_ne_nil (n : Nat) : Nat.toDigits 10 n ≠ [] :=
  toDigitsCore_ne_nil _ _ _ (by omega)

theorem toIntDecimal_digits (ds : List Char) (hne : ds ≠ []) (hall : ds.all Char.isDigit = true)
    (hle : decimalValue 0 ds ≤ 2147483647) :
    toIntDecimal (String.mk ds) = (decimalValue 0 ds : Int) := by
  cases ds with
  | nil => exact absurd rfl hne
  | cons c cs =>
    have hc : c ≠ '-' := by
      intro h
      subst h
      simp at hall
    unfold toIntDecimal
    split
    · rename_i ds1 heq
      simp only [List.cons.injEq] at heq
      exact absurd heq.1 hc
    · simp [hall, hle]

theorem toIntDecimal_minus (ds : List Char) (hne : ds ≠ []) (hall : ds.all Char.isDigit = true)
    (hle : decimalValue 0 ds ≤ 2147483648) :
    toIntDecimal (String.mk ('-' :: ds)) = -(decimalValue 0 ds : Int) := by
  unfold toIntDecimal
  simp [hne, hall, hle]

/-- The model of `toInt` reads back the decimal text of every 32-bit integer. -/
theorem toIntDecimal_toString (n : Int) (hlo : -2147483648 ≤ n) (hhi : n ≤ 2147483647) :
    toIntDecimal (toString n) = n := by
  cases n with
  | ofNat m =>
    have hm : m ≤ 2147483647 := by
      have : (m : Int) ≤ 2147483647 := hhi
      omega
    have hs : toString (Int.ofNat m) = String.mk (Nat.toDigits 10 m) := rfl
    rw [hs, toIntDecimal_digits _ (toDigits_ne_nil m) (toDigits_all_isDigit m)
      (by rw [decimalValue_toDigits]; exact hm), decimalValue_toDigits]
    rfl
  | negSucc m =>
    have hm : m + 1 ≤ 2147483648 := by
      have : -2147483648 ≤ -((m : Int) + 1) := by
        rw [← Int.negSucc_eq]; exact hlo
      omega
    have hs : toString (Int.negSucc m) = String.mk ('-' :: Nat.toDigits 10 (m + 1)) := by
      show "-" ++ String.mk (Nat.toDigits 10 (m + 1)) = _
      apply String.ext
      simp
    rw [hs, toIntDecimal_minus _ (toDigits_ne_nil _) (toDigits_all_isDigit _)
      (by rw [decimalValue_toDigits]; exact hm), decimalValue_toDigits, Int.negSucc_eq]
    push_cast
    rfl

/-! ## The marker loop -/

theorem markerScans_end (toInt : String → Int) (node : String) (tail : List XmlEvent) :
    MarkerScans toInt node (.EndElement node :: tail) (fun m => (m, ⟨.EndElement node, tail⟩)) := by
  intro fuel cur m hend hfuel
  cases fuel with
  | zero => simp at hfuel
  | succ n =>
    simp [DrawingAnchor.markerLoop, hend, QXmlStreamReader.readNextStartElement,
      QXmlStreamReader.readNextStartElementFrom, QXmlStreamReader.isStartElement,
      QXmlStreamReader.isEndElement, QXmlStreamReader.name]

theorem markerScans_passed (toInt : String → Int) (node : String) (e : XmlEvent)
    (unread : List XmlEvent) (result : MarkerFields → MarkerFields × QXmlStreamReader)
    (he : passedOver node e = true) (h : MarkerScans toInt node unread result) :
    MarkerScans toInt node (e :: unread) result := by
  intro fuel cur m hend hfuel
  cases fuel with
  | zero => simp at hfuel
  | succ n =>
    have hn : unread.length < n := by simpa using hfuel
    cases e with
    | Characters t =>
      have hend2 : (⟨cur, unread⟩ : QXmlStreamReader).atEnd = false := hend
      have := h (n + 1) cur m hend2 (by omega)
      rw [← this]
      simp [DrawingAnchor.markerLoop, hend, hend2, QXmlStreamReader.readNextStartElement,
        QXmlStreamReader.readNextStartElementFrom]
    | Invalid => simp [passedOver] at he
    | StartElement nm a =>
      have hnm : ¬ nm = "col" ∧ ¬ nm = "colOff" ∧ ¬ nm = "row" ∧ ¬ nm = "rowOff" := by
        simpa [passedOver, markerFieldNames] using he
      have := h n (.StartElement nm a) m rfl hn
      rw [← this]
      simp [DrawingAnchor.markerLoop, hend, QXmlStreamReader.readNextStartElement,
        QXmlStreamReader.readNextStartElementFrom, QXmlStreamReader.isStartElement,
        QXmlStreamReader.name, hnm.1, hnm.2.1, hnm.2.2.1, hnm.2.2.2]
    | EndElement nm =>
      have hnm : ¬ nm = node := by simpa [passedOver] using he
      have := h n (.EndElement nm) m rfl hn
      rw [← this]
      simp [DrawingAnchor.markerLoop, hend, QXmlStreamReader.readNextStartElement,
        QXmlStreamReader.readNextStartElementFrom, QXmlStreamReader.isStartElement,
        QXmlStreamReader.isEndElement, QXmlStreamReader.name, hnm]

theorem markerScans_field (toInt : String → Int) (node : String) (nm : String)
    (a : List (String × String)) (t : String)
    (unread : List XmlEvent) (result : MarkerFields → MarkerFields × QXmlStreamReader)
    (hfield : markerFieldNames.contains nm = true)
    (h : MarkerScans toInt node unread result) :
    MarkerScans toInt node (.StartElement nm a :: .Characters t :: .EndElement nm :: unread)
      (fun m => result (MarkerChild.apply toInt m (.field nm a t))) := by
  intro fuel cur m hend hfuel
  cases fuel with
  | zero => simp at hfuel
  | succ n =>
    have hn : unread.length < n := by
      simp only [List.length_cons] at hfuel; omega
    have hread : (QXmlStreamReader.readElementText
        ⟨.StartElement nm a, .Characters t :: .EndElement nm :: unread⟩) =
        (t, ⟨.EndElement nm, unread⟩) := by
      simp [QXmlStreamReader.readElementText, QXmlStreamReader.isStartElement,
        QXmlStreamReader.readElementTextFrom]
    have hloop := fun m1 => h n (.EndElement nm) m1 rfl hn
    simp only [DrawingAnchor.markerLoop, hend, Bool.false_eq_true, if_false,
      QXmlStreamReader.readNextStartElement, QXmlStreamReader.readNextStartElementFrom,
      QXmlStreamReader.isStartElement, QXmlStreamReader.name, if_true, hread, hloop,
      MarkerChild.apply]
    by_cases h1 : nm = "col"
    · simp only [h1, if_true]
    · by_cases h2 : nm = "colOff"
      · simp only [h2, if_true]; rfl
      · by_cases h3 : nm = "row"
        · simp only [h3, if_true]; rfl
        · by_cases h4 : nm = "rowOff"
          · simp only [h4, if_true]; rfl
          · simp [markerFieldNames, h1, h2, h3, h4] at hfield

theorem markerScans_events (toInt : String → Int) (node : String) (ev : List XmlEvent)
    (unread : List XmlEvent) (result : MarkerFields → MarkerFields × QXmlStreamReader)
    (hev : ev.all (passedOver node) = true) (h : MarkerScans toInt node unread result) :
    MarkerScans toInt node (ev ++ unread) result := by
  induction ev with
  | nil => exact h
  | cons e rest ih =>
    simp only [List.all_cons, Bool.and_eq_true] at hev
    exact markerScans_passed toInt node e _ result hev.1 (ih hev.2)

theorem markerScans_children (toInt : String → Int) (node : String)
    (children : List MarkerChild) (unread : List XmlEvent) :
    ∀ (result : MarkerFields → MarkerFields × QXmlStreamReader),
      (∀ c ∈ children, c.wellFormed node = true) → MarkerScans toInt node unread result →
      MarkerScans toInt node (children.flatMap MarkerChild.events ++ unread)
        (fun m => result (children.foldl (MarkerChild.apply toInt) m)) := by
  induction children with
  | nil => intro result _ h; exact h
  | cons c rest ih =>
    intro result hwf h
    have hrest := ih result (fun c1 hc1 => hwf c1 (List.mem_cons_of_mem _ hc1)) h
    have hc := hwf c (List.mem_cons_self _ _)
    simp only [List.flatMap_cons, List.append_assoc, List.foldl_cons]
    cases c with
    | field nm a t =>
      exact markerScans_field toInt node nm a t _ _ hc hrest
    | other ev =>
      exact markerScans_events toInt node ev _ _ hc hrest

/-- The marker and the reader that `loadXmlMarker` returns for a node whose children are
well formed. -/
theorem loadXmlMarker_children (toInt : String → Int) (node : String)
    (a : List (String × String)) (children : List MarkerChild) (tail : List XmlEvent)
    (hwf : ∀ c ∈ children, c.wellFormed node = true) :
    DrawingAnchor.loadXmlMarker toInt node
        ⟨.StartElement node a, children.flatMap MarkerChild.events ++ .EndElement node :: tail⟩ =
      some ((markerFieldsOf toInt children).marker, ⟨.EndElement node, tail⟩) := by
  have h := markerScans_children toInt node children _ _ hwf (markerScans_end toInt node tail)
  simp only [DrawingAnchor.loadXmlMarker, QXmlStreamReader.name, if_true]
  rw [h _ (.StartElement node a) ⟨0, 0, 0, 0⟩ rfl (Nat.lt_succ_self _)]
  rfl

theorem markerFieldsOf_insert_other (toInt : String → Int) (pre post : List MarkerChild)
    (ev : List XmlEvent) :
    markerFieldsOf toInt (pre ++ .other ev :: post) = markerFieldsOf toInt (pre ++ post) := by
  simp [markerFieldsOf, List.foldl_append, MarkerChild.apply]

/-- C26 (amended): for a marker node whose direct children are `col`, `colOff`, `row` and
`rowOff` elements with text and other children that hold no element named like these four and
no end tag named like the node, `loadXmlMarker` returns the marker built from the last value
of each of the four (0 for a missing one) and stops on the node's own close tag; inserting such
another child anywhere among the children leaves marker and stop unchanged. -/
theorem C26_marker_from_direct_children (toInt : String → Int) (node : String)
    (a : List (String × String)) (pre post : List MarkerChild) (ev tail : List XmlEvent)
    (hwf : ∀ c ∈ pre ++ post, c.wellFormed node = true)
    (hev : ev.all (passedOver node) = true) :
    DrawingAnchor.loadXmlMarker toInt node
        ⟨.StartElement node a,
          (pre ++ post).flatMap MarkerChild.events ++ .EndElement node :: tail⟩ =
      some ((markerFieldsOf toInt (pre ++ post)).marker, ⟨.EndElement node, tail⟩) ∧
    DrawingAnchor.loadXmlMarker toInt node
        ⟨.StartElement node a,
          (pre ++ .other ev :: post).flatMap MarkerChild.events ++ .EndElement node :: tail⟩ =
      some ((markerFieldsOf toInt (pre ++ post)).marker, ⟨.EndElement node, tail⟩) := by
  refine ⟨loadXmlMarker_children toInt node a _ tail hwf, ?_⟩
  rw [← markerFieldsOf_insert_other toInt pre post ev]
  apply loadXmlMarker_children
  intro c hc
  simp only [List.mem_append, List.mem_cons] at hc
  rcases hc with hc | rfl | hc
  · exact hwf c (List.mem_append_left _ hc)
  · exact hev
  · exact hwf c (List.mem_append_right _ hc)

/-- C26 (amended) at a `from` node with the children `col` = 1 and `row` = 4 and an inserted
child `extLst` that holds an element `ext`. -/
theorem C26_marker_from_direct_children_witness :
    DrawingAnchor.loadXmlMarker toIntDecimal "from"
        ⟨.StartElement "from" [],
          [.StartElement "col" [], .Characters "1", .EndElement "col",
           .StartElement "extLst" [], .StartElement "ext" [("uri", "x")], .EndElement "ext",
           .EndElement "extLst",
           .StartElement "row" [], .Characters "4", .EndElement "row",
           .EndElement "from", .StartElement "to" []]⟩ =
      some (XlsxMarker.make 4 1 0 0, ⟨.EndElement "from", [.StartElement "to" []]⟩) :=
  (C26_marker_from_direct_children toIntDecimal "from" [] [.field "col" [] "1"]
    [.field "row" [] "4"]
    [.StartElement "extLst" [], .StartElement "ext" [("uri", "x")], .EndElement "ext",
      .EndElement "extLst"]
    [.StartElement "to" []] (by decide) (by decide)).2

/-- C26 as stated fails: the unknown child `extLst` inserted into a `from` node changes the
marker when it holds an element named `col`: the column read is 9 instead of 1. -/
theorem C26_counterexample_nested_field_is_read :
    (DrawingAnchor.loadXmlMarker toIntDecimal "from" markerNodePlain).map Prod.fst =
        some (XlsxMarker.make 0 1 0 0) ∧
      (DrawingAnchor.loadXmlMarker toIntDecimal "from" markerNodeExtended).map Prod.fst =
        some (XlsxMarker.make 0 9 0 0) := by
  decide

/-! ## Marker round trip -/

theorem readBack_saveXmlMarker (m : XlsxMarker) (q : String) :
    readBack (DrawingAnchor.saveXmlMarker [] m q) [] =
      .StartElement (localName q) [] ::
        ([MarkerChild.field "col" [] (toString m.col),
          MarkerChild.field "colOff" [] (toString m.colOff),
          MarkerChild.field "row" [] (toString m.row),
          MarkerChild.field "rowOff" [] (toString m.rowOff)].flatMap MarkerChild.events ++
          [.EndElement (localName q)]) := by
  have h1 : localName "xdr:col" = "col" := by decide
  have h2 : localName "xdr:colOff" = "colOff" := by decide
  have h3 : localName "xdr:row" = "row" := by decide
  have h4 : localName "xdr:rowOff" = "rowOff" := by decide
  simp [DrawingAnchor.saveXmlMarker, readBack, leadingAttributes, MarkerChild.events, h1, h2, h3,
    h4]

theorem XlsxMarker.make_accessors (m : XlsxMarker) :
    XlsxMarker.make m.row m.col m.rowOff m.colOff = m := by
  obtain ⟨⟨x, y⟩, ⟨w, h⟩⟩ := m
  rfl

theorem loadXmlMarker_saveXmlMarker (toInt : String → Int)
    (htoInt : ∀ n : Int, -2147483648 ≤ n → n ≤ 2147483647 → toInt (toString n) = n)
    (m : XlsxMarker) (q : String)
    (hrow : -2147483648 ≤ m.row ∧ m.row ≤ 2147483647)
    (hcol : -2147483648 ≤ m.col ∧ m.col ≤ 2147483647)
    (hrowOff : -2147483648 ≤ m.rowOff ∧ m.rowOff ≤ 2147483647)
    (hcolOff : -2147483648 ≤ m.colOff ∧ m.colOff ≤ 2147483647) :
    DrawingAnchor.loadXmlMarker toInt (localName q)
        (readerOn (readBack (DrawingAnchor.saveXmlMarker [] m q) [])) =
      some (m, ⟨.EndElement (localName q), []⟩) := by
  rw [readBack_saveXmlMarker]
  simp only [readerOn]
  rw [loadXmlMarker_children toInt (localName q) [] _ [] (by
    intro c hc
    simp only [List.mem_cons, List.mem_singleton, List.not_mem_nil, or_false] at hc
    rcases hc with rfl | rfl | rfl | rfl <;> simp [MarkerChild.wellFormed, markerFieldNames])]
  have hm : markerFieldsOf toInt
      [MarkerChild.field "col" [] (toString m.col),
        MarkerChild.field "colOff" [] (toString m.colOff),
        MarkerChild.field "row" [] (toString m.row),
        MarkerChild.field "rowOff" [] (toString m.rowOff)] =
      ⟨m.col, m.colOff, m.row, m.rowOff⟩ := by
    simp [markerFieldsOf, MarkerChild.apply, htoInt _ hrow.1 hrow.2, htoInt _ hcol.1 hcol.2,
      htoInt _ hrowOff.1 hrowOff.2, htoInt _ hcolOff.1 hcolOff.2]
  rw [hm]
  simp only [MarkerFields.marker, XlsxMarker.make_accessors]

/-- C29: for a marker whose four values fit a 32-bit `int`, `loadXmlMarker` applied to the
element that `saveXmlMarker` writes (as `xdr:from` or as `xdr:to`) returns that marker, so
`row()`, `col()`, `rowOff()` and `colOff()` agree, and the reader stops on the close tag;
`XlsxMarker(r, c, ro, co)` has `row() = r`, `col() = c`, `rowOff() = ro`, `colOff() = co`.
`toInt` is any conversion that reads back the decimal text of every 32-bit integer. -/
theorem C29_marker_round_trip (toInt : String → Int)
    (htoInt : ∀ n : Int, -2147483648 ≤ n → n ≤ 2147483647 → toInt (toString n) = n)
    (m : XlsxMarker)
    (hrow : -2147483648 ≤ m.row ∧ m.row ≤ 2147483647)
    (hcol : -2147483648 ≤ m.col ∧ m.col ≤ 2147483647)
    (hrowOff : -2147483648 ≤ m.rowOff ∧ m.rowOff ≤ 2147483647)
    (hcolOff : -2147483648 ≤ m.colOff ∧ m.colOff ≤ 2147483647) :
    DrawingAnchor.loadXmlMarker toInt "from"
        (readerOn (readBack (DrawingAnchor.saveXmlMarker [] m "xdr:from") [])) =
      some (m, ⟨.EndElement "from", []⟩) ∧
    DrawingAnchor.loadXmlMarker toInt "to"
        (readerOn (readBack (DrawingAnchor.saveXmlMarker [] m "xdr:to") [])) =
      some (m, ⟨.EndElement "to", []⟩) ∧
    ∀ r c ro co : Int,
      (XlsxMarker.make r c ro co).row = r ∧ (XlsxMarker.make r c ro co).col = c ∧
      (XlsxMarker.make r c ro co).rowOff = ro ∧ (XlsxMarker.make r c ro co).colOff = co := by
  have h1 := loadXmlMarker_saveXmlMarker toInt htoInt m "xdr:from" hrow hcol hrowOff hcolOff
  have h2 := loadXmlMarker_saveXmlMarker toInt htoInt m "xdr:to" hrow hcol hrowOff hcolOff
  have e1 : localName "xdr:from" = "from" := by decide
  have e2 : localName "xdr:to" = "to" := by decide
  rw [e1] at h1
  rw [e2] at h2
  exact ⟨h1, h2, fun r c ro co => ⟨rfl, rfl, rfl, rfl⟩⟩

/-- C29 at the marker of row 5, column 6 with negative offsets. -/
theorem C29_marker_round_trip_witness :
    DrawingAnchor.loadXmlMarker toIntDecimal "from"
        (readerOn (readBack
          (DrawingAnchor.saveXmlMarker [] (XlsxMarker.make 5 6 (-12700) (-2147483648))
            "xdr:from") [])) =
      some (XlsxMarker.make 5 6 (-12700) (-2147483648), ⟨.EndElement "from", []⟩) :=
  (C29_marker_round_trip toIntDecimal toIntDecimal_toString
    (XlsxMarker.make 5 6 (-12700) (-2147483648))
    (by decide) (by decide) (by decide) (by decide)).1

/-! ## Object children that are not consumed -/

/-- C27 fails on the code: for a `twoCellAnchor` whose object child is a `grpSp` holding a
`pic`, `loadFromXml` ends on the close tag of the anchor with the object type Picture and one
media file registered: the loader of `grpSp` reads nothing, so the elements inside the group
are dispatched like children of the anchor. -/
theorem C27_group_shape_children_are_dispatched :
    (DrawingAnchor.loadFromXml decimalLoadContext groupWithPictureLoad).map
        (fun s => (s.anchor.m_objectType, s.reader.current, s.store.mediaNames)) =
      some (.Picture, .EndElement "twoCellAnchor", ["xl/drawings/../media/image1.png"]) := by
  decide

/-- C30 fails on the code: for a `oneCellAnchor` with the extent 100 by 200 whose object child
is a `cxnSp` with an `a:ext` of 5 by 6 inside, `loadFromXml` ends on the close tag of the
anchor with the extent 5 by 6: the loader of `cxnSp` reads nothing, so the nested `ext` is
loaded like the anchor's own. -/
theorem C30_nested_extent_overwrites_geometry :
    (DrawingAnchor.loadFromXml decimalLoadContext connectorWithExtentLoad).map
        (fun s => (s.anchor.m_objectType, s.reader.current, s.anchor.geometry)) =
      some (.ConnectionShape, .EndElement "oneCellAnchor",
        .oneCell (XlsxMarker.make 0 1 0 0) ⟨5, 6⟩) := by
  decide

/-- C28 as stated fails: the first anchor of a drawing is constructed and loaded from an `sp`
element whose `cNvPr` id is 2, then the second anchor is constructed; both anchors have the
shape id 2. -/
theorem C28_counterexample_loaded_id_repeats :
    (Drawing.run decimalLoadContext loadThenConstruct (emptyDrawing, emptyStore)).map
        (fun r => (r.1.anchors.map (fun a => a.m_shape.id),
          r.1.anchors.map (fun a => a.m_id))) =
      some ([2, 2], [1, 2]) := by
  decide

/-! ## Anchor ids and shape ids under loading -/

theorem loadShapeProperties_m_id (ctx : AnchorLoadContext) (a : List (String × String))
    (x : DrawingAnchor × PartStore) :
    (DrawingAnchor.loadShapeProperties ctx a x).1.m_id = x.1.m_id := rfl

theorem loadBlip_m_id (ctx : AnchorLoadContext) (a : List (String × String))
    (x : DrawingAnchor × PartStore) :
    (DrawingAnchor.loadBlip ctx a x).1.m_id = x.1.m_id := by
  simp only [DrawingAnchor.loadBlip]
  split <;> rfl

theorem loadChartReference_m_id (ctx : AnchorLoadContext) (a : List (String × String))
    (x : DrawingAnchor × PartStore) :
    (DrawingAnchor.loadChartReference ctx a x).1.m_id = x.1.m_id := by
  simp only [DrawingAnchor.loadChartReference]
  split <;> rfl

/-- `loadXmlObject` returns and keeps the anchor id. -/
theorem loadXmlObject_m_id (ctx : AnchorLoadContext) (s : AnchorLoad) :
    ∃ s1, DrawingAnchor.loadXmlObject ctx s = some s1 ∧ s1.anchor.m_id = s.anchor.m_id := by
  unfold DrawingAnchor.loadXmlObject
  by_cases h1 : s.reader.name = "sp"
  · simp only [if_pos h1, DrawingAnchor.loadXmlObjectShape]
    refine ⟨_, rfl, ?_⟩
    exact scanLoop_preserves _ _ _ (fun x => x.1.m_id = s.anchor.m_id)
      (fun a x hx => (loadShapeProperties_m_id ctx a x).trans hx) _ _ rfl
  · by_cases h2 : s.reader.name = "grpSp"
    · simp only [if_neg h1, if_pos h2, DrawingAnchor.loadXmlObjectGroupShape]
      exact ⟨_, rfl, rfl⟩
    · by_cases h3 : s.reader.name = "graphicFrame"
      · simp only [if_neg h1, if_neg h2, if_pos h3, DrawingAnchor.loadXmlObjectGraphicFrame]
        refine ⟨_, rfl, ?_⟩
        exact scanLoop_preserves _ _ _ (fun x => x.1.m_id = s.anchor.m_id)
          (fun a x hx => (loadChartReference_m_id ctx a x).trans hx) _ _ rfl
      · by_cases h4 : s.reader.name = "cxnSp"
        · simp only [if_neg h1, if_neg h2, if_neg h3, if_pos h4,
            DrawingAnchor.loadXmlObjectConnectionShape]
          exact ⟨_, rfl, rfl⟩
        · by_cases h5 : s.reader.name = "pic"
          · simp only [if_neg h1, if_neg h2, if_neg h3, if_neg h4, if_pos h5,
              DrawingAnchor.loadXmlObjectPicture]
            refine ⟨_, rfl, ?_⟩
            exact scanLoop_preserves _ _ _ (fun x => x.1.m_id = s.anchor.m_id)
              (fun a x hx => (loadBlip_m_id ctx a x).trans hx) _ _ rfl
          · simp only [if_neg h1, if_neg h2, if_neg h3, if_neg h4, if_neg h5]
            exact ⟨_, rfl, rfl⟩

/-- The branch for a start element returns and keeps the anchor id. -/
theorem loadFromXmlStep_m_id (ctx : AnchorLoadContext) (s : AnchorLoad) :
    ∃ s1, DrawingAnchor.loadFromXmlStep ctx s = some s1 ∧ s1.anchor.m_id = s.anchor.m_id := by
  unfold DrawingAnchor.loadFromXmlStep
  cases hg : s.anchor.geometry with
  | absolute pos ext =>
    simp only
    by_cases h1 : s.reader.name = "pos"
    · simp only [if_pos h1, DrawingAnchor.loadXmlPos, Option.map_some']
      exact ⟨_, rfl, rfl⟩
    · by_cases h2 : s.reader.name = "ext"
      · simp only [if_neg h1, if_pos h2, DrawingAnchor.loadXmlExt, Option.map_some']
        exact ⟨_, rfl, rfl⟩
      · simp only [if_neg h1, if_neg h2]
        exact loadXmlObject_m_id ctx s
  | oneCell from_ ext =>
    simp only
    by_cases h1 : s.reader.name = "from"
    · simp only [if_pos h1, DrawingAnchor.loadXmlMarker, Option.map_some']
      exact ⟨_, rfl, rfl⟩
    · by_cases h2 : s.reader.name = "ext"
      · simp only [if_neg h1, if_pos h2, DrawingAnchor.loadXmlExt, Option.map_some']
        exact ⟨_, rfl, rfl⟩
      · simp only [if_neg h1, if_neg h2]
        exact loadXmlObject_m_id ctx s
  | twoCell from_ to_ =>
    simp only
    by_cases h1 : s.reader.name = "from"
    · simp only [if_pos h1, DrawingAnchor.loadXmlMarker, Option.map_some']
      exact ⟨_, rfl, rfl⟩
    · by_cases h2 : s.reader.name = "to"
      · simp only [if_neg h1, if_pos h2, DrawingAnchor.loadXmlMarker, Option.map_some']
        exact ⟨_, rfl, rfl⟩
      · simp only [if_neg h1, if_neg h2]
        exact loadXmlObject_m_id ctx s

theorem anchorLoop_m_id (ctx : AnchorLoadContext) (close : String) :
    ∀ (fuel : Nat) (s : AnchorLoad),
      ∃ s1, DrawingAnchor.anchorLoop ctx close fuel s = some s1 ∧
        s1.anchor.m_id = s.anchor.m_id := by
  intro fuel
  induction fuel with
  | zero => intro s; exact ⟨s, rfl, rfl⟩
  | succ n ih =>
    intro s
    simp only [DrawingAnchor.anchorLoop]
    split
    · exact ⟨s, rfl, rfl⟩
    · split
      · obtain ⟨s1, hs1, hid⟩ :=
          loadFromXmlStep_m_id ctx { s with reader := s.reader.readNextStartElement }
        simp only [hs1]
        obtain ⟨s2, hs2, hid2⟩ := ih s1
        exact ⟨s2, hs2, hid2.trans hid⟩
      · split
        · exact ⟨_, rfl, rfl⟩
        · exact ih _

/-- `loadFromXml`, entered on the element of the anchor's class, returns and keeps the anchor
id. -/
theorem loadFromXml_m_id (ctx : AnchorLoadContext) (s : AnchorLoad)
    (hname : s.reader.name = DrawingAnchor.geometryTag s.anchor.geometry) :
    ∃ s1, DrawingAnchor.loadFromXml ctx s = some s1 ∧ s1.anchor.m_id = s.anchor.m_id := by
  simp only [DrawingAnchor.loadFromXml, hname, if_true]
  exact anchorLoop_m_id ctx _ _ s

theorem map_set_same {α β : Type} (f : α → β) (l : List α) (k : Nat) (a b : α)
    (ha : l[k]? = some a) (hf : f b = f a) : (l.set k b).map f = l.map f := by
  apply List.ext_getElem?
  intro i
  simp only [List.getElem?_map, List.getElem?_set]
  by_cases hik : k = i
  · subst hik
    have hlt : k < l.length := by
      rcases Nat.lt_or_ge k l.length with h | h
      · exact h
      · rw [List.getElem?_eq_none h] at ha; cases ha
    simp [hlt, ha, hf]
  · simp [hik]

/-- Loading an anchor of a drawing is defined for the element of the anchor's class and keeps
the list of anchor ids, the number of anchors and the shape pointers. -/
theorem loadAnchor_ids (ctx : AnchorLoadContext) (position : Nat) (reader : QXmlStreamReader)
    (store : PartStore) (d : Drawing) (a : DrawingAnchor) (ha : d.anchors[position]? = some a)
    (hname : reader.name = DrawingAnchor.geometryTag a.geometry) :
    ∃ r, Drawing.loadAnchor ctx position reader store d = some r ∧
      r.1.anchors.map (fun x => x.m_id) = d.anchors.map (fun x => x.m_id) ∧
      r.1.anchors.length = d.anchors.length ∧ r.1.shapes = d.shapes := by
  obtain ⟨s1, hs1, hid⟩ := loadFromXml_m_id ctx ⟨a, reader, store⟩ hname
  refine ⟨({ d with anchors := d.anchors.set position s1.anchor }, s1.reader, s1.store), ?_, ?_,
    ?_, rfl⟩
  · simp only [Drawing.loadAnchor, ha, hs1, Option.map_some']
  · exact map_set_same (fun x => x.m_id) d.anchors position a s1.anchor ha hid
  · simp

/-- The anchor ids of a drawing are 1, 2, ..., and every anchor has a shape pointer. -/
theorem run_anchor_ids (ctx : AnchorLoadContext) (ops : List DrawingOp) :
    ∀ (s r : Drawing × PartStore), Drawing.run ctx ops s = some r →
      (s.1.anchors.map (fun x => x.m_id) =
          (List.range' 1 s.1.anchors.length).map Int.ofNat ∧
        s.1.shapes.length = s.1.anchors.length) →
      (r.1.anchors.map (fun x => x.m_id) =
          (List.range' 1 r.1.anchors.length).map Int.ofNat ∧
        r.1.shapes.length = r.1.anchors.length) := by
  induction ops with
  | nil =>
    intro s r h hinv
    simp only [Drawing.run, Option.some.injEq] at h
    subst h
    exact hinv
  | cons op rest ih =>
    intro s r h hinv
    cases op with
    | construct cls objectType =>
      simp only [Drawing.run] at h
      refine ih _ r h ?_
      have hc := constructAll_ids [(cls, objectType)] s.1
      simp only [DrawingAnchor.constructAll, List.length_singleton] at hc
      refine ⟨?_, ?_⟩
      · rw [hc.1, hinv.1, construct_anchors_length]
        simp [List.range'_concat]
        omega
      · rw [construct_anchors_length, construct_shapes_length, hinv.2]
    | load position reader =>
      simp only [Drawing.run] at h
      cases hl : Drawing.loadAnchor ctx position reader s.2 s.1 with
      | none => simp [hl] at h
      | some x =>
        simp only [hl] at h
        refine ih _ r h ?_
        simp only [Drawing.loadAnchor] at hl
        cases ha : s.1.anchors[position]? with
        | none => simp [ha] at hl
        | some a =>
          simp only [ha, Option.map_eq_some'] at hl
          obtain ⟨s1, hs1, hx⟩ := hl
          subst hx
          have hid : s1.anchor.m_id = a.m_id := by
            have hgen := anchorLoop_m_id ctx (DrawingAnchor.geometryTag a.geometry)
              (reader.rest.length + 1) ⟨a, reader, s.2⟩
            obtain ⟨s2, hs2, hid2⟩ := hgen
            simp only [DrawingAnchor.loadFromXml] at hs1
            split at hs1
            · rw [hs2] at hs1
              simp only [Option.some.injEq] at hs1
              rw [← hs1]; exact hid2
            · cases hs1
          refine ⟨?_, ?_⟩
          · simp only [List.length_set]
            rw [map_set_same (fun x => x.m_id) s.1.anchors position a s1.anchor ha hid]
            exact hinv.1
          · simp only [List.length_set]
            exact hinv.2

theorem foldl_loadShapeProperties (ctx : AnchorLoadContext)
    (l : List (List (String × String))) :
    ∀ (x : DrawingAnchor × PartStore) (a : List (String × String)), l.getLast? = some a →
      (l.foldl (fun acc b => DrawingAnchor.loadShapeProperties ctx b acc) x).1.m_shape =
        ⟨ctx.toInt (attributeValue a "id"), attributeValue a "name"⟩ := by
  induction l with
  | nil => intro x a h; simp at h
  | cons b rest ih =>
    intro x a h
    simp only [List.foldl_cons]
    cases rest with
    | nil =>
      simp only [List.getLast?_singleton, Option.some.injEq] at h
      subst h
      rfl
    | cons c rest2 =>
      apply ih
      simpa [List.getLast?_cons_cons] using h

/-- The shape loader returns, keeps the anchor id, and sets id and name of the shape from the
last `cNvPr` element it reads. -/
theorem loadXmlObjectShape_shape (ctx : AnchorLoadContext) (s : AnchorLoad)
    (hname : s.reader.name = "sp") :
    ∃ s1, DrawingAnchor.loadXmlObjectShape ctx s = some s1 ∧
      s1.anchor.m_id = s.anchor.m_id ∧
      ∀ a, (scannedStarts "cNvPr" "sp" s.reader.rest).getLast? = some a →
        s1.anchor.m_shape = ⟨ctx.toInt (attributeValue a "id"), attributeValue a "name"⟩ := by
  refine ⟨scanLoop "cNvPr" "sp" (DrawingAnchor.loadShapeProperties ctx)
      (s.reader.rest.length + 1) s,
    by simp only [DrawingAnchor.loadXmlObjectShape, hname, if_true], ?_, ?_⟩
  · exact scanLoop_preserves _ _ _ (fun x => x.1.m_id = s.anchor.m_id)
      (fun a x hx => (loadShapeProperties_m_id ctx a x).trans hx) _ _ rfl
  · intro a ha
    have hend : s.reader.atEnd = false := atEnd_of_name _ (by rw [hname]; decide)
    have h := scanLoop_eq_foldl "cNvPr" "sp" (DrawingAnchor.loadShapeProperties ctx)
      (s.reader.rest.length + 1) s (Or.inr (Nat.lt_succ_self _))
    simp only [hend, Bool.false_eq_true, if_false] at h
    have h1 := congrArg Prod.fst h
    simp only at h1
    rw [h1]
    exact foldl_loadShapeProperties ctx _ _ a ha

/-! ## The loops end by their own exit -/

theorem readElementTextFrom_rest_le (l : List XmlEvent) :
    ∀ acc : String, (QXmlStreamReader.readElementTextFrom l acc).2.rest.length ≤ l.length := by
  induction l with
  | nil => intro acc; simp [QXmlStreamReader.readElementTextFrom]
  | cons e rest ih =>
    intro acc
    cases e with
    | Characters t =>
      simp only [QXmlStreamReader.readElementTextFrom, List.length_cons]
      exact Nat.le_succ_of_le (ih _)
    | StartElement n a => simp [QXmlStreamReader.readElementTextFrom]
    | EndElement n => simp [QXmlStreamReader.readElementTextFrom]
    | Invalid => simp [QXmlStreamReader.readElementTextFrom]

theorem readElementText_rest_le (r : QXmlStreamReader) :
    r.readElementText.2.rest.length ≤ r.rest.length := by
  simp only [QXmlStreamReader.readElementText]
  split
  · exact readElementTextFrom_rest_le _ _
  · exact Nat.le_refl _

theorem readNextStartElement_rest_le (r : QXmlStreamReader) :
    r.readNextStartElement.rest.length ≤ r.rest.length := by
  simp only [QXmlStreamReader.readNextStartElement]
  split
  · exact Nat.le_refl _
  · exact (readNextStartElementFrom_spec "" "" r.rest).1

/-- A reader that has moved onto a start or end element has fewer unread tokens. -/
theorem readNextStartElement_rest_lt (r : QXmlStreamReader) (hend : r.atEnd = false)
    (hnew : r.readNextStartElement.atEnd = false) :
    r.readNextStartElement.rest.length < r.rest.length := by
  simp only [QXmlStreamReader.readNextStartElement, hend, Bool.false_eq_true, if_false] at hnew ⊢
  by_cases hnil : r.rest = []
  · rw [hnil] at hnew
    simp [QXmlStreamReader.readNextStartElementFrom, QXmlStreamReader.atEnd] at hnew
  · exact (readNextStartElementFrom_spec "" "" r.rest).2.1 hnil

theorem atEnd_of_isStartElement (r : QXmlStreamReader) (h : r.isStartElement = true) :
    r.atEnd = false := by
  obtain ⟨cur, rest⟩ := r
  cases cur <;> simp_all [QXmlStreamReader.isStartElement, QXmlStreamReader.atEnd]

theorem markerLoop_rest_le (toInt : String → Int) (node : String) :
    ∀ (fuel : Nat) (s : MarkerFields × QXmlStreamReader),
      (DrawingAnchor.markerLoop toInt node fuel s).2.rest.length ≤ s.2.rest.length := by
  intro fuel
  induction fuel with
  | zero => intro s; exact Nat.le_refl _
  | succ n ih =>
    intro s
    obtain ⟨m, r⟩ := s
    have h1 := readNextStartElement_rest_le r
    have h2 := readElementText_rest_le r.readNextStartElement
    simp only [DrawingAnchor.markerLoop]
    split
    · exact Nat.le_refl _
    · split
      · split
        · exact Nat.le_trans (ih _) (Nat.le_trans h2 h1)
        · split
          · exact Nat.le_trans (ih _) (Nat.le_trans h2 h1)
          · split
            · exact Nat.le_trans (ih _) (Nat.le_trans h2 h1)
            · split
              · exact Nat.le_trans (ih _) (Nat.le_trans h2 h1)
              · exact Nat.le_trans (ih _) h1
      · split
        · exact h1
        · exact Nat.le_trans (ih _) h1

theorem scanLoop_rest_le (tag close : String)
    (body : List (String × String) → DrawingAnchor × PartStore → DrawingAnchor × PartStore) :
    ∀ (fuel : Nat) (s : AnchorLoad),
      (scanLoop tag close body fuel s).reader.rest.length ≤ s.reader.rest.length := by
  intro fuel
  induction fuel with
  | zero => intro s; exact Nat.le_refl _
  | succ n ih =>
    intro s
    have h1 := readNextStartElement_rest_le s.reader
    simp only [scanLoop]
    split
    · exact Nat.le_refl _
    · split
      · split
        · exact Nat.le_trans (ih _) h1
        · exact Nat.le_trans (ih _) h1
      · split
        · exact h1
        · exact Nat.le_trans (ih _) h1

theorem loadXmlObject_rest_le (ctx : AnchorLoadContext) (s s1 : AnchorLoad)
    (h : DrawingAnchor.loadXmlObject ctx s = some s1) :
    s1.reader.rest.length ≤ s.reader.rest.length := by
  unfold DrawingAnchor.loadXmlObject at h
  by_cases h1 : s.reader.name = "sp"
  · simp only [if_pos h1, DrawingAnchor.loadXmlObjectShape, Option.some.injEq] at h
    subst h
    exact scanLoop_rest_le _ _ _ _ _
  · by_cases h2 : s.reader.name = "grpSp"
    · simp only [if_neg h1, if_pos h2, DrawingAnchor.loadXmlObjectGroupShape,
        Option.some.injEq] at h
      subst h
      exact Nat.le_refl _
    · by_cases h3 : s.reader.name = "graphicFrame"
      · simp only [if_neg h1, if_neg h2, if_pos h3, DrawingAnchor.loadXmlObjectGraphicFrame,
          Option.some.injEq] at h
        subst h
        exact scanLoop_rest_le _ _ _ _ _
      · by_cases h4 : s.reader.name = "cxnSp"
        · simp only [if_neg h1, if_neg h2, if_neg h3, if_pos h4,
            DrawingAnchor.loadXmlObjectConnectionShape, Option.some.injEq] at h
          subst h
          exact Nat.le_refl _
        · by_cases h5 : s.reader.name = "pic"
          · simp only [if_neg h1, if_neg h2, if_neg h3, if_neg h4, if_pos h5,
              DrawingAnchor.loadXmlObjectPicture, Option.some.injEq] at h
            subst h
            exact scanLoop_rest_le _ _ _ _ _
          · simp only [if_neg h1, if_neg h2, if_neg h3, if_neg h4, if_neg h5,
              Option.some.injEq] at h
            subst h
            exact Nat.le_refl _

theorem loadXmlMarker_rest_le (toInt : String → Int) (node : String) (r : QXmlStreamReader)
    (x : XlsxMarker × QXmlStreamReader) (h : DrawingAnchor.loadXmlMarker toInt node r = some x) :
    x.2.rest.length ≤ r.rest.length := by
  simp only [DrawingAnchor.loadXmlMarker] at h
  split at h
  · simp only [Option.some.injEq] at h
    rw [← h]
    exact markerLoop_rest_le toInt node _ _
  · cases h

theorem loadFromXmlStep_rest_le (ctx : AnchorLoadContext) (s s1 : AnchorLoad)
    (h : DrawingAnchor.loadFromXmlStep ctx s = some s1) :
    s1.reader.rest.length ≤ s.reader.rest.length := by
  unfold DrawingAnchor.loadFromXmlStep at h
  split at h
  · split at h
    · simp only [Option.map_eq_some'] at h
      obtain ⟨p, _, hp⟩ := h
      subst hp; exact Nat.le_refl _
    · split at h
      · simp only [Option.map_eq_some'] at h
        obtain ⟨p, _, hp⟩ := h
        subst hp; exact Nat.le_refl _
      · exact loadXmlObject_rest_le ctx s s1 h
  · split at h
    · simp only [Option.map_eq_some'] at h
      obtain ⟨p, hp1, hp⟩ := h
      subst hp; exact loadXmlMarker_rest_le _ _ _ _ hp1
    · split at h
      · simp only [Option.map_eq_some'] at h
        obtain ⟨p, _, hp⟩ := h
        subst hp; exact Nat.le_refl _
      · exact loadXmlObject_rest_le ctx s s1 h
  · split at h
    · simp only [Option.map_eq_some'] at h
      obtain ⟨p, hp1, hp⟩ := h
      subst hp; exact loadXmlMarker_rest_le _ _ _ _ hp1
    · split at h
      · simp only [Option.map_eq_some'] at h
        obtain ⟨p, hp1, hp⟩ := h
        subst hp; exact loadXmlMarker_rest_le _ _ _ _ hp1
      · exact loadXmlObject_rest_le ctx s s1 h

/-- With the fuel that `loadFromXml` gives it, the loop of an anchor ends by its own exit: on
the close tag of the anchor or at the end of the input. -/
theorem anchorLoop_stops (ctx : AnchorLoadContext) (close : String) :
    ∀ (fuel : Nat) (s s1 : AnchorLoad),
      (s.reader.atEnd = true ∨ s.reader.rest.length < fuel) →
      DrawingAnchor.anchorLoop ctx close fuel s = some s1 →
      s1.reader.atEnd = true ∨ (s1.reader.isEndElement = true ∧ s1.reader.name = close) := by
  intro fuel
  induction fuel with
  | zero =>
    intro s s1 hf h
    simp only [DrawingAnchor.anchorLoop, Option.some.injEq] at h
    subst h
    rcases hf with hf | hf
    · exact Or.inl hf
    · omega
  | succ n ih =>
    intro s s1 hf h
    simp only [DrawingAnchor.anchorLoop] at h
    by_cases hend : s.reader.atEnd = true
    · simp only [hend, if_true, Option.some.injEq] at h
      subst h
      exact Or.inl hend
    · simp only [hend, if_false, Bool.false_eq_true] at h
      have hend2 : s.reader.atEnd = false := by simpa using hend
      have hlen : s.reader.rest.length < n + 1 := by
        rcases hf with hf | hf
        · exact absurd hf hend
        · exact hf
      split at h
      · rename_i hstart
        have hlt := readNextStartElement_rest_lt s.reader hend2
          (atEnd_of_isStartElement _ hstart)
        cases hstep : DrawingAnchor.loadFromXmlStep ctx
            { s with reader := s.reader.readNextStartElement } with
        | none => simp [hstep] at h
        | some s2 =>
          simp only [hstep] at h
          have hle := loadFromXmlStep_rest_le ctx _ s2 hstep
          simp only at hle
          exact ih s2 s1 (Or.inr (by omega)) h
      · split at h
        · rename_i hclose
          simp only [Option.some.injEq] at h
          subst h
          exact Or.inr hclose
        · by_cases hnew : s.reader.readNextStartElement.atEnd = true
          · exact ih _ s1 (Or.inl hnew) h
          · have hlt := readNextStartElement_rest_lt s.reader hend2 (by simpa using hnew)
            exact ih _ s1 (Or.inr (by simp only; omega)) h

/-- `loadFromXml` ends on the close tag of the anchor's element or at the end of the input. -/
theorem loadFromXml_stops (ctx : AnchorLoadContext) (s s1 : AnchorLoad)
    (h : DrawingAnchor.loadFromXml ctx s = some s1) :
    s1.reader.atEnd = true ∨
      (s1.reader.isEndElement = true ∧
        s1.reader.name = DrawingAnchor.geometryTag s.anchor.geometry) := by
  simp only [DrawingAnchor.loadFromXml] at h
  split at h
  · exact anchorLoop_stops ctx _ _ s s1 (Or.inr (Nat.lt_succ_self _)) h
  · cases h

/-- C28 (amended): after any sequence of anchor constructions and `loadFromXml` calls on the
anchors of a drawing that starts empty, the anchor ids are 1, 2, ..., n, so no two anchors have
the same anchor id, and a further load of an anchor is defined, ends by its own exit and keeps
the anchor ids; shape ids are pairwise distinct after constructions alone, but the loader of an
`sp` element replaces the anchor's shape id by the `id` attribute of the last `cNvPr` element it
reads, whatever the shape ids of the other anchors are. -/
theorem C28_anchor_ids_unique_shape_ids_loaded (ctx : AnchorLoadContext)
    (ops : List DrawingOp) (drawing : Drawing) (store : PartStore) (r : Drawing × PartStore)
    (hanchors : drawing.anchors = []) (hshapes : drawing.shapes = [])
    (hrun : Drawing.run ctx ops (drawing, store) = some r) :
    r.1.anchors.map (fun a => a.m_id) = (List.range' 1 r.1.anchors.length).map Int.ofNat ∧
    (r.1.anchors.map (fun a => a.m_id)).Nodup ∧
    (∀ (position : Nat) (a : DrawingAnchor) (reader : QXmlStreamReader) (st : PartStore),
      r.1.anchors[position]? = some a → reader.name = DrawingAnchor.geometryTag a.geometry →
      ∃ x, Drawing.loadAnchor ctx position reader st r.1 = some x ∧
        x.1.anchors.map (fun a => a.m_id) = r.1.anchors.map (fun a => a.m_id) ∧
        (x.2.1.atEnd = true ∨
          (x.2.1.isEndElement = true ∧ x.2.1.name = DrawingAnchor.geometryTag a.geometry))) ∧
    (∀ l : List (AnchorClass × ObjectType),
      ((DrawingAnchor.constructAll l drawing).anchors.map (fun a => a.m_shape.id)).Nodup) ∧
    (∀ s : AnchorLoad, s.reader.name = "sp" →
      ∃ s1, DrawingAnchor.loadXmlObjectShape ctx s = some s1 ∧
        s1.anchor.m_id = s.anchor.m_id ∧
        ∀ a, (scannedStarts "cNvPr" "sp" s.reader.rest).getLast? = some a →
          s1.anchor.m_shape.id = ctx.toInt (attributeValue a "id")) := by
  have hinv := run_anchor_ids ctx ops (drawing, store) r hrun
    (by simp [hanchors, hshapes])
  refine ⟨hinv.1, ?_, ?_, ?_, ?_⟩
  · rw [hinv.1]; exact range'_cast_nodup 1 _
  · intro position a reader st ha hname
    obtain ⟨x, hx, hids, _, _⟩ := loadAnchor_ids ctx position reader st r.1 a ha hname
    refine ⟨x, hx, hids, ?_⟩
    simp only [Drawing.loadAnchor, ha, Option.map_eq_some'] at hx
    obtain ⟨s1, hs1, hx1⟩ := hx
    subst hx1
    exact loadFromXml_stops ctx _ s1 hs1
  · intro l
    have h := (constructAll_ids l drawing).2
    rw [hanchors, hshapes] at h
    simp only [List.map_nil, List.nil_append, List.length_nil, Nat.zero_add] at h
    rw [h]; exact range'_cast_nodup 1 _
  · intro s hname
    obtain ⟨s1, hs1, hid, hshape⟩ := loadXmlObjectShape_shape ctx s hname
    exact ⟨s1, hs1, hid, fun a ha => by rw [hshape a ha]⟩

/-- C28 (amended) at the operations `loadThenConstruct` on `emptyDrawing`: the anchor ids are
distinct while both shape ids are 2. -/
theorem C28_anchor_ids_witness :
    emptyDrawing.anchors = [] ∧ emptyDrawing.shapes = [] ∧
    ∃ r, Drawing.run decimalLoadContext loadThenConstruct (emptyDrawing, emptyStore) = some r ∧
      (r.1.anchors.map (fun a => a.m_id)).Nodup ∧
      r.1.anchors.map (fun a => a.m_shape.id) = [2, 2] :=
  ⟨rfl, rfl,
    (Drawing.run decimalLoadContext loadThenConstruct (emptyDrawing, emptyStore)).get
      (by decide),
    (Option.some_get _).symm,
    (C28_anchor_ids_unique_shape_ids_loaded decimalLoadContext loadThenConstruct emptyDrawing
      emptyStore
      ((Drawing.run decimalLoadContext loadThenConstruct (emptyDrawing, emptyStore)).get
        (by decide))
      rfl rfl (Option.some_get _).symm).2.1,
    by decide⟩
/-! ## Media files under their position -/

theorem mediaIndexed_emptyStore : emptyStore.MediaIndexed := by
  intro i h
  simp [emptyStore] at h

/-- Registering a media file that is not in the collection yet keeps every stored index equal
to the position. -/
theorem addMediaFile_mediaIndexed (st : PartStore) (p : MediaPtr) (h : st.MediaIndexed)
    (hp : p ∉ st.mediaFiles) : (st.addMediaFile p).MediaIndexed := by
  intro i hi
  simp only [PartStore.addMediaFile, List.length_append, List.length_singleton] at hi ⊢
  by_cases hlt : i < st.mediaFiles.length
  · have hne : st.mediaFiles[i] ≠ p := fun e => hp (e ▸ List.getElem_mem _)
    rw [List.getElem_append_left hlt, Function.update_noteq hne]
    exact h i hlt
  · have hi2 : i = st.mediaFiles.length := by omega
    have hget : (st.mediaFiles ++ [p])[i] = p := by
      rw [List.getElem_append_right (by omega)]
      simp [hi2]
    rw [hget, Function.update_same, hi2]

/-- A media object changed behind a pointer outside the collection leaves the indices of the
collection as they are. -/
theorem update_mediaIndexed (st : PartStore) (p : MediaPtr) (mf : MediaFile)
    (h : st.MediaIndexed) (hp : p ∉ st.mediaFiles) :
    ({ st with media := Function.update st.media p mf } : PartStore).MediaIndexed := by
  intro i hi
  have hne : st.mediaFiles[i] ≠ p := fun e => hp (e ▸ List.getElem_mem _)
  simp only [Function.update_noteq hne]
  exact h i hi

theorem loadBlip_mediaIndexed (ctx : AnchorLoadContext) (a : List (String × String))
    (x : DrawingAnchor × PartStore) (h : x.2.MediaIndexed) :
    (DrawingAnchor.loadBlip ctx a x).2.MediaIndexed := by
  simp only [DrawingAnchor.loadBlip]
  split
  · exact h
  · exact addMediaFile_mediaIndexed _ _
      (update_mediaIndexed x.2 _ _ h (newPtr_not_mem _)) (newPtr_not_mem _)

/-- Loading a picture keeps every stored index equal to the position. -/
theorem loadXmlObjectPicture_mediaIndexed (ctx : AnchorLoadContext) (s s1 : AnchorLoad)
    (h : s.store.MediaIndexed)
    (hload : DrawingAnchor.loadXmlObjectPicture ctx s = some s1) : s1.store.MediaIndexed := by
  simp only [DrawingAnchor.loadXmlObjectPicture] at hload
  split at hload
  · simp only [Option.some.injEq] at hload
    subst hload
    exact scanLoop_preserves _ _ _ (fun x => x.2.MediaIndexed)
      (fun a x hx => loadBlip_mediaIndexed ctx a x hx) _ _ h
  · cases hload

/-- Fetching the bytes of the media files on load keeps the stored indices. -/
theorem loadMediaFiles_index (L : Loaders) (z : ZipReader) (l : List MediaPtr)
    (media : MediaPtr → MediaFile) (p : MediaPtr) :
    (loadMediaFiles L z l media p).index = (media p).index := by
  rw [loadMediaFiles_apply]
  split <;> rfl

/-- Fetching the bytes of the media files on load keeps every stored index equal to the
position. -/
theorem loadMediaFiles_mediaIndexed (L : Loaders) (z : ZipReader) (st : PartStore)
    (h : st.MediaIndexed) :
    ({ st with media := loadMediaFiles L z st.mediaFiles st.media } : PartStore).MediaIndexed := by
  intro i hi
  show (loadMediaFiles L z st.mediaFiles st.media st.mediaFiles[i]).index = (i : Int)
  rw [loadMediaFiles_index]
  exact h i hi

theorem mem_zip_of_mem_filter (es : List ZipEntry) (f : ZipEntry → Bool) (e : ZipEntry)
    (h : e ∈ es.filter f) : e ∈ es :=
  (List.mem_filter.1 h).1

/-- C5: when the stored index of every media file is its position in the collection, as
`addMediaFile` leaves it, and every drawing can be serialised, `savePackage` writes the media
file at 0-based position i at `xl/media/image{i+1}.{suffix}` with its contents; the entries of
`xl/media/` are exactly these, one per media file in collection order under the numbers 1..K.
Registering a new media file, loading a picture and fetching the bytes of the media files on
load keep the stored indices equal to the positions. -/
theorem C5_media_written_by_position (ct : ContentTypes) (wb : Workbook) (props : QMap)
    (hdef : ∀ d ∈ wb.drawings, (d.saveToXmlData wb.anchorContext).isSome)
    (hindex : wb.partStore.MediaIndexed) :
    ∃ res, savePackage ⟨some ct, some wb, props⟩ false = some res ∧
      res.zip.filter (isBodyIn "xl/media/") =
        List.zipWith (fun n p => (⟨"xl/media/image" ++ toString n ++ "." ++
          (wb.media p).suffix, .bytes (wb.media p).contents⟩ : ZipEntry))
          (List.range' 1 wb.mediaFiles.length) wb.mediaFiles ∧
      (res.zip.filter (isBodyIn "xl/media/")).length = wb.mediaFiles.length ∧
      (∀ (i : Nat) (h : i < wb.mediaFiles.length),
        (⟨"xl/media/image" ++ toString (i + 1) ++ "." ++ (wb.media wb.mediaFiles[i]).suffix,
          .bytes (wb.media wb.mediaFiles[i]).contents⟩ : ZipEntry) ∈ res.zip) ∧
      (∀ (st : PartStore) (p : MediaPtr), st.MediaIndexed → p ∉ st.mediaFiles →
        (st.addMediaFile p).MediaIndexed) ∧
      (∀ (ctx : AnchorLoadContext) (s s1 : AnchorLoad), s.store.MediaIndexed →
        DrawingAnchor.loadXmlObjectPicture ctx s = some s1 → s1.store.MediaIndexed) ∧
      (∀ (L : Loaders) (z : ZipReader) (st : PartStore), st.MediaIndexed →
        ({ st with media := loadMediaFiles L z st.mediaFiles st.media } :
          PartStore).MediaIndexed) := by
  obtain ⟨res, hres, hstored, hnum⟩ := savePackage_media_under_stored_index ct wb props hdef
  have hpos := hnum hindex
  refine ⟨res, hres, hpos, ?_, ?_, addMediaFile_mediaIndexed, loadXmlObjectPicture_mediaIndexed,
    loadMediaFiles_mediaIndexed⟩
  · rw [hstored]; simp
  · intro i h
    apply mem_zip_of_mem_filter res.zip (isBodyIn "xl/media/")
    rw [hpos]
    refine List.mem_iff_getElem.2 ⟨i, by simpa using h, ?_⟩
    simp [List.getElem_zipWith, List.getElem_range', Nat.add_comm]

/-- C5 at `twoMediaWorkbook`, whose two media files were registered with `addMediaFile`: they
are written as `image1.png` and `image2.jpeg`. -/
theorem C5_media_written_witness :
    (∀ d ∈ twoMediaWorkbook.drawings,
      (d.saveToXmlData twoMediaWorkbook.anchorContext).isSome) ∧
    twoMediaWorkbook.mediaFiles = [4, 9] ∧
    ∃ res, savePackage ⟨some sampleContentTypes, some twoMediaWorkbook, []⟩ false = some res ∧
      res.zip.filter (isBodyIn "xl/media/") =
        [⟨"xl/media/image1.png", .bytes "PNG-BYTES"⟩,
         ⟨"xl/media/image2.jpeg", .bytes "JPEG-BYTES"⟩] := by
  refine ⟨by decide, rfl, ?_⟩
  obtain ⟨res, h1, h2, _⟩ :=
    C5_media_written_by_position sampleContentTypes twoMediaWorkbook [] (by decide)
      (addMediaFile_mediaIndexed _ 9
        (addMediaFile_mediaIndexed _ 4
          (fun i h => absurd h (by simp [emptyStore])) (by decide)) (by decide))
  exact ⟨res, h1, h2.trans (by decide)⟩


end QXlsx
